import Mathlib

/-!
# Payments service: payment aggregate, transactional outbox and command handlers

A shallow embedding of the Go sources of `payments.api`:

* `internal/payments/domain` (status.go, events.go, payment.go),
* `internal/outbox` (message.go, repository.go, worker.go),
* `internal/messaging/contracts.go`,
* `internal/payments/infrastructure/repository.go`,
* `internal/shared/mediator.go`,
* `internal/payments/complete_payment/handler.go`,
* `internal/payments/create_payment/handler.go`.

Conventions of the embedding:

* a Go `string` is its sequence of bytes (`GoString`);
* `uuid.UUID` and `time.Time` values are natural numbers; the results of
  `uuid.New()` and `time.Now()` are explicit arguments of the function that
  calls them;
* a method with a pointer receiver returns the receiver's state after the call
  next to its Go result;
* a Go `error` result is an `Option Error` (`none` is `nil`);
* the PostgreSQL database is a pair of relations, and the outcome of every
  operation that can fail for a reason outside the program (connection, driver,
  broker, payment processor) is an explicit argument.
-/

namespace Payments

/-! ## Basic types -/

/-- A Go string: the sequence of its bytes (each below 256). -/
abbrev GoString := List Nat

/-- The bytes (UTF-8) of a string literal of the source. -/
def str (s : String) : GoString :=
  s.data.flatMap (fun c => (String.utf8EncodeChar c).map UInt8.toNat)

/-- A `uuid.UUID` value, as a number. -/
abbrev UUID := Nat

/-- The zero UUID `uuid.Nil`. -/
def uuidNil : UUID := 0

/-- A `time.Time` instant. -/
abbrev Time := Nat

/-- A `float64` amount: a number, one of the two infinities, or NaN. Amounts
are compared with zero and copied, never computed with; the finite values are
taken as rationals. -/
inductive Amount where
  | num (q : Rat)
  | posInf
  | negInf
  | nan
  deriving DecidableEq, Repr

/-- Go's `a <= b` on `float64`: false as soon as one side is NaN. -/
def Amount.le : Amount → Amount → Bool
  | Amount.nan, _ => false
  | _, Amount.nan => false
  | Amount.negInf, _ => true
  | _, Amount.posInf => true
  | Amount.num a, Amount.num b => decide (a ≤ b)
  | _, _ => false

/-- Go's `a < b` on `float64`: false as soon as one side is NaN. -/
def Amount.lt (a b : Amount) : Bool :=
  Amount.le a b && !(Amount.le b a)

instance : LE Amount := ⟨fun a b => Amount.le a b = true⟩

instance : LT Amount := ⟨fun a b => Amount.lt a b = true⟩

instance (a b : Amount) : Decidable (a ≤ b) :=
  inferInstanceAs (Decidable (Amount.le a b = true))

instance (a b : Amount) : Decidable (a < b) :=
  inferInstanceAs (Decidable (Amount.lt a b = true))

/-- A numeric literal of the source, as a `float64`. -/
instance (n : Nat) : OfNat Amount n := ⟨Amount.num n⟩

/-- One lower-case hexadecimal digit, as its ASCII byte. -/
def hexDigit (d : Nat) : Nat :=
  if d < 10 then 48 + d else 87 + d

/-- The two hexadecimal digits of byte `i` (0 first, of 16) of a UUID. -/
def uuidHexByte (u : UUID) (i : Nat) : GoString :=
  let b := u / 256 ^ (15 - i) % 256
  [hexDigit (b / 16), hexDigit (b % 16)]

/-- The method `uuid.UUID.String`: the form
`xxxxxxxx-xxxx-xxxx-xxxx-xxxxxxxxxxxx`. -/
def uuidString (u : UUID) : GoString :=
  let hex := fun (is : List Nat) => is.flatMap (uuidHexByte u)
  hex [0, 1, 2, 3] ++ [45] ++ hex [4, 5] ++ [45] ++ hex [6, 7] ++ [45] ++ hex [8, 9] ++ [45] ++
    hex [10, 11, 12, 13, 14, 15]

/-! ## domain/status.go -/

/-- The Go type `PaymentStatus` (an `int`). -/
structure PaymentStatus where
  val : Int
  deriving DecidableEq, Repr

def PaymentStatusPending : PaymentStatus := ⟨0⟩

def PaymentStatusProcessing : PaymentStatus := ⟨1⟩

def PaymentStatusCompleted : PaymentStatus := ⟨2⟩

def PaymentStatusFailed : PaymentStatus := ⟨3⟩

/-- The method `PaymentStatus.String`. -/
def PaymentStatus.String (s : PaymentStatus) : GoString :=
  if s = PaymentStatusPending then str "Pending"
  else if s = PaymentStatusProcessing then str "Processing"
  else if s = PaymentStatusCompleted then str "Completed"
  else if s = PaymentStatusFailed then str "Failed"
  else str "Unknown"

/-! ## domain/events.go -/

/-- The values held by the aggregate's slice `domainEvents`: the three
event structs of events.go, and `Other` for a value of any other dynamic
type. -/
inductive DomainEvent where
  | PaymentCreatedEvent (PaymentID : UUID) (AppointmentID : UUID) (UserID : GoString)
      (Amount : Amount) (Currency : GoString)
  | PaymentCompletedEvent (PaymentID : UUID) (AppointmentID : UUID) (TransactionID : GoString)
  | PaymentFailedEvent (PaymentID : UUID) (AppointmentID : UUID) (Reason : GoString)
  | Other (tag : Nat)
  deriving DecidableEq, Repr

/-! ## domain/payment.go -/

/-- Go error values. `Errorf` is `fmt.Errorf` without `%w` (or `errors.New`),
`Wrap text cause` is `fmt.Errorf("text: %w", cause)`, and `External` is an
error returned by a collaborator outside the program (database driver,
broker, payment processor, JSON encoder) with its message. -/
inductive Error where
  | ErrInvalidAmount
  | ErrInvalidCurrency
  | ErrInvalidTransition (From : PaymentStatus) (Allowed : List PaymentStatus)
  | ErrPaymentNotFound (ID : UUID)
  | ErrDuplicatePayment (AppointmentID : UUID)
  | Errorf (text : GoString)
  | Wrap (text : GoString) (cause : Error)
  | External (message : GoString)
  deriving DecidableEq, Repr

/-- The aggregate root `Payment`. -/
structure Payment where
  ID : UUID
  AppointmentID : UUID
  UserID : GoString
  Amount : Amount
  Currency : GoString
  Status : PaymentStatus
  StripePaymentIntentID : GoString
  FailureReason : GoString
  CreatedAt : Time
  UpdatedAt : Option Time
  domainEvents : List DomainEvent
  deriving DecidableEq, Repr

/-- Width in bytes of the code point that Go decodes at the head of a
non-empty string (`utf8.DecodeRuneInString`): 2 to 4 for a well-formed
multi-byte sequence, 1 for an ASCII byte and for any malformed sequence. -/
def runeWidth : GoString → Nat
  | [] => 1
  | b0 :: rest =>
    let cont := fun (b : Nat) => 0x80 ≤ b ∧ b ≤ 0xBF
    if b0 < 0xC2 then 1
    else if b0 ≤ 0xDF then
      match rest with
      | b1 :: _ => if cont b1 then 2 else 1
      | _ => 1
    else if b0 ≤ 0xEF then
      match rest with
      | b1 :: b2 :: _ =>
        let lo := if b0 = 0xE0 then 0xA0 else 0x80
        let hi := if b0 = 0xED then 0x9F else 0xBF
        if lo ≤ b1 ∧ b1 ≤ hi ∧ cont b2 then 3 else 1
      | _ => 1
    else if b0 ≤ 0xF4 then
      match rest with
      | b1 :: b2 :: b3 :: _ =>
        let lo := if b0 = 0xF0 then 0x90 else 0x80
        let hi := if b0 = 0xF4 then 0x8F else 0xBF
        if lo ≤ b1 ∧ b1 ≤ hi ∧ cont b2 ∧ cont b3 then 4 else 1
      | _ => 1
    else 1

/-- The loop of `lowercase`: `for i := range s` visits the byte index `i` of
the start of each code point of `s` and stores the lowered byte `s[i]` in
`result[i]`. Each iteration advances `i` by at least one, so `len(s)`
iterations of fuel are enough. -/
def lowercaseLoop (s : GoString) : Nat → Nat → GoString → GoString
  | 0, _, result => result
  | fuel + 1, i, result =>
    if i < s.length then
      let c := s.getD i 0
      let c := if 65 ≤ c ∧ c ≤ 90 then c + 32 else c
      lowercaseLoop s fuel (i + runeWidth (s.drop i)) (result.set i c)
    else result

/-- The function `lowercase`: `result` starts as `make([]byte, len(s))`. -/
def lowercase (s : GoString) : GoString :=
  lowercaseLoop s s.length 0 (List.replicate s.length 0)

/-- The loop of `ensureStatus`: is the status one of the allowed ones. -/
def ensureStatusLoop (status : PaymentStatus) : List PaymentStatus → Bool
  | [] => false
  | s :: rest => if status = s then true else ensureStatusLoop status rest

/-- The method `Payment.ensureStatus`. -/
def Payment.ensureStatus (p : Payment) (allowed : List PaymentStatus) : Option Error :=
  if ensureStatusLoop p.Status allowed then none
  else some (Error.ErrInvalidTransition p.Status allowed)

/-- The method `Payment.addEvent`. -/
def Payment.addEvent (p : Payment) (event : DomainEvent) : Payment :=
  { p with domainEvents := p.domainEvents ++ [event] }

/-- The method `Payment.DomainEvents` (a copy of the staged events). -/
def Payment.DomainEvents (p : Payment) : List DomainEvent :=
  p.domainEvents

/-- The method `Payment.ClearDomainEvents`. -/
def Payment.ClearDomainEvents (p : Payment) : Payment :=
  { p with domainEvents := [] }

/-- The factory `NewPayment`; `newID` is the result of `uuid.New()` and `now`
of `time.Now().UTC()`. -/
def NewPayment (newID : UUID) (now : Time) (appointmentID : UUID) (userID : GoString)
    (amount : Amount) (currency : GoString) : Except Error Payment :=
  if amount ≤ 0 then Except.error Error.ErrInvalidAmount
  else if currency = [] then Except.error Error.ErrInvalidCurrency
  else
    let p : Payment :=
      { ID := newID
        AppointmentID := appointmentID
        UserID := userID
        Amount := amount
        Currency := lowercase currency
        Status := PaymentStatusPending
        StripePaymentIntentID := []
        FailureReason := []
        CreatedAt := now
        UpdatedAt := none
        domainEvents := [] }
    Except.ok (p.addEvent
      (DomainEvent.PaymentCreatedEvent p.ID appointmentID userID amount currency))

/-- The method `Payment.MarkProcessing`: the returned error and the payment
after the call; `now` is the result of `time.Now().UTC()`. -/
def Payment.MarkProcessing (p : Payment) (stripeIntentID : GoString) (now : Time) :
    Option Error × Payment :=
  match p.ensureStatus [PaymentStatusPending] with
  | some err => (some err, p)
  | none =>
    (none, { p with
      StripePaymentIntentID := stripeIntentID
      Status := PaymentStatusProcessing
      UpdatedAt := some now })

/-- The method `Payment.MarkCompleted`: the returned error and the payment
after the call. -/
def Payment.MarkCompleted (p : Payment) (now : Time) : Option Error × Payment :=
  match p.ensureStatus [PaymentStatusProcessing, PaymentStatusPending] with
  | some err => (some err, p)
  | none =>
    let p1 : Payment := { p with Status := PaymentStatusCompleted, UpdatedAt := some now }
    (none, p1.addEvent
      (DomainEvent.PaymentCompletedEvent p1.ID p1.AppointmentID p1.StripePaymentIntentID))

/-- The method `Payment.MarkFailed`: the returned error and the payment after
the call. -/
def Payment.MarkFailed (p : Payment) (reason : GoString) (now : Time) :
    Option Error × Payment :=
  match p.ensureStatus [PaymentStatusProcessing, PaymentStatusPending] with
  | some err => (some err, p)
  | none =>
    let p1 : Payment :=
      { p with FailureReason := reason, Status := PaymentStatusFailed, UpdatedAt := some now }
    (none, p1.addEvent (DomainEvent.PaymentFailedEvent p1.ID p1.AppointmentID reason))


/-- The method `Error()` of an error value. `%s` of a status is its `String()`
and `%v` of a slice of statuses is the space-separated list in brackets. -/
def Error.Error : Error → GoString
  | Error.ErrInvalidAmount => str "payment amount must be greater than zero"
  | Error.ErrInvalidCurrency => str "currency must be specified"
  | Error.ErrInvalidTransition From Allowed =>
    str "cannot transition from " ++ From.String ++ str "; allowed statuses: [" ++
      (str " ").intercalate (Allowed.map PaymentStatus.String) ++ str "]"
  | Error.ErrPaymentNotFound ID => str "payment " ++ uuidString ID ++ str " was not found"
  | Error.ErrDuplicatePayment AppointmentID =>
    str "payment for appointment " ++ uuidString AppointmentID ++ str " already exists"
  | Error.Errorf text => text
  | Error.Wrap text cause => text ++ str ": " ++ cause.Error
  | Error.External message => message

/-! ## outbox/message.go and messaging/contracts.go -/

/-- The struct `outbox.Message`; it is also the shape of a row of the table
`outbox_messages`. -/
structure Message where
  ID : UUID
  AggregateID : UUID
  Type_ : GoString
  Payload : List Nat
  Processed : Bool
  CreatedAt : Time
  ProcessedAt : Option Time
  RetryCount : Int
  deriving DecidableEq, Repr

/-- The outgoing integration events of messaging/contracts.go. -/
inductive IntegrationEvent where
  | PaymentCompletedIntegrationEvent (PaymentID : GoString) (AppointmentID : GoString)
      (Status : GoString) (TransactionID : GoString)
  | PaymentFailedIntegrationEvent (PaymentID : GoString) (AppointmentID : GoString)
      (Reason : GoString)
  deriving DecidableEq, Repr

/-- The members of the JSON object that `json.Marshal` writes for an integration
event: the keys are the `json` tags of the struct in messaging/contracts.go,
in the order of its fields. -/
def IntegrationEvent.members : IntegrationEvent → List (GoString × GoString)
  | IntegrationEvent.PaymentCompletedIntegrationEvent PaymentID AppointmentID Status
      TransactionID =>
    [(str "paymentId", PaymentID), (str "appointmentId", AppointmentID), (str "status", Status),
     (str "transactionId", TransactionID)]
  | IntegrationEvent.PaymentFailedIntegrationEvent PaymentID AppointmentID Reason =>
    [(str "paymentId", PaymentID), (str "appointmentId", AppointmentID), (str "reason", Reason)]

/-! ## encoding/json and unicode/utf8

`toOutboxMessage` writes the payload of an entry with `json.Marshal`, and the
consumers of the broker read it as JSON. The functions of this section follow
the Go standard library: the decoding and encoding of code points, the
writing of a string literal with HTML escaping, which `json.Marshal` uses,
the object it writes for a struct whose fields are strings, and the reading
of such an object. -/

/-- The function `utf8.DecodeRuneInString` on a non-empty string: the code point
at the head of the string and its width in bytes; `(0xFFFD, 1)` for a
malformed sequence. -/
def decodeRune (s : GoString) : Nat × Nat :=
  match runeWidth s, s with
  | 2, b0 :: b1 :: _ => (b0 % 32 * 64 + b1 % 64, 2)
  | 3, b0 :: b1 :: b2 :: _ => (b0 % 16 * 4096 + b1 % 64 * 64 + b2 % 64, 3)
  | 4, b0 :: b1 :: b2 :: b3 :: _ =>
    (b0 % 8 * 262144 + b1 % 64 * 4096 + b2 % 64 * 64 + b3 % 64, 4)
  | _, b0 :: _ => if b0 < 0x80 then (b0, 1) else (0xFFFD, 1)
  | _, [] => (0xFFFD, 0)

/-- The function `utf8.AppendRune`: the UTF-8 encoding of a code point, that of
U+FFFD for a surrogate or a value out of range. -/
def encodeRune (r : Nat) : GoString :=
  if r ≤ 0x7F then [r]
  else if r ≤ 0x7FF then [0xC0 + r / 64, 0x80 + r % 64]
  else if 0x10FFFF < r ∨ (0xD800 ≤ r ∧ r ≤ 0xDFFF) then [0xEF, 0xBF, 0xBD]
  else if r ≤ 0xFFFF then [0xE0 + r / 4096, 0x80 + r / 64 % 64, 0x80 + r % 64]
  else [0xF0 + r / 262144, 0x80 + r / 4096 % 64, 0x80 + r / 64 % 64, 0x80 + r % 64]

/-- The loop of `utf8.ValidString`. -/
def validStringLoop : Nat → GoString → Bool
  | 0, s => s.isEmpty
  | _ + 1, [] => true
  | fuel + 1, b :: rest =>
    if b < 0x80 then validStringLoop fuel rest
    else if runeWidth (b :: rest) = 1 then false
    else validStringLoop fuel (rest.drop (runeWidth (b :: rest) - 1))

/-- The function `utf8.ValidString`: is the string well-formed UTF-8. -/
def validString (s : GoString) : Bool :=
  validStringLoop s.length s

/-- The table `htmlSafeSet` of `encoding/json`: the ASCII bytes that are written
as they are inside a string, namely those from the space on except the quote,
the backslash and the three characters `<`, `>`, `&`. -/
def htmlSafe (b : Nat) : Bool :=
  decide (0x20 ≤ b) && decide (b < 0x80) && !(b = 0x22 || b = 0x5C || b = 0x3C || b = 0x3E
    || b = 0x26)

/-- What `appendString` of `encoding/json` writes for an ASCII byte outside
`htmlSafeSet`: a backslash before the quote and the backslash, the short
escapes of backspace, form feed, new line, carriage return and tab, and
`u00` with two hexadecimal digits for the other bytes (releases of Go before
1.22 write backspace and form feed in this last way too; `unquoteLoop` reads
both forms alike). -/
def escapeByte (b : Nat) : GoString :=
  if b = 0x5C ∨ b = 0x22 then [0x5C, b]
  else if b = 0x08 then [0x5C, 0x62]
  else if b = 0x0C then [0x5C, 0x66]
  else if b = 0x0A then [0x5C, 0x6E]
  else if b = 0x0D then [0x5C, 0x72]
  else if b = 0x09 then [0x5C, 0x74]
  else [0x5C, 0x75, 0x30, 0x30, hexDigit (b / 16), hexDigit (b % 16)]

/-- The loop of `appendString` of `encoding/json` with HTML escaping, which
`json.Marshal` uses: ASCII bytes are copied or escaped, a malformed byte is
written as the escape of U+FFFD, the separators U+2028 and U+2029 are
escaped, every other code point is copied. -/
def appendStringLoop : Nat → GoString → GoString
  | 0, _ => []
  | _ + 1, [] => []
  | fuel + 1, b :: rest =>
    if b < 0x80 then
      (if htmlSafe b then [b] else escapeByte b) ++ appendStringLoop fuel rest
    else if (decodeRune (b :: rest)).1 = 0xFFFD ∧ (decodeRune (b :: rest)).2 = 1 then
      [0x5C, 0x75, 0x66, 0x66, 0x66, 0x64] ++ appendStringLoop fuel rest
    else if (decodeRune (b :: rest)).1 = 0x2028 ∨ (decodeRune (b :: rest)).1 = 0x2029 then
      [0x5C, 0x75, 0x32, 0x30, 0x32, hexDigit ((decodeRune (b :: rest)).1 % 16)]
        ++ appendStringLoop fuel (rest.drop ((decodeRune (b :: rest)).2 - 1))
    else
      (b :: rest).take (decodeRune (b :: rest)).2
        ++ appendStringLoop fuel (rest.drop ((decodeRune (b :: rest)).2 - 1))

/-- The function `appendString` of `encoding/json`: a string as a JSON string
literal. -/
def appendString (s : GoString) : GoString :=
  [0x22] ++ appendStringLoop s.length s ++ [0x22]

/-- The members of an object, separated by commas, as `json.Marshal` writes the
fields of a struct whose fields are strings. -/
def appendMembers : List (GoString × GoString) → GoString
  | [] => []
  | [m] => appendString m.1 ++ [0x3A] ++ appendString m.2
  | m :: rest => appendString m.1 ++ [0x3A] ++ appendString m.2 ++ [0x2C] ++ appendMembers rest

/-- The value of a hexadecimal digit, if it is one. -/
def hexValue (b : Nat) : Option Nat :=
  if 0x30 ≤ b ∧ b ≤ 0x39 then some (b - 0x30)
  else if 0x61 ≤ b ∧ b ≤ 0x66 then some (b - 0x61 + 10)
  else if 0x41 ≤ b ∧ b ≤ 0x46 then some (b - 0x41 + 10)
  else none

/-- The function `getu4` of `encoding/json`: the number written by the escape
`u` with four hexadecimal digits at the head of the input. -/
def getu4 : GoString → Option Nat
  | 0x5C :: 0x75 :: a :: b :: c :: d :: _ =>
    match hexValue a, hexValue b, hexValue c, hexValue d with
    | some a, some b, some c, some d => some (a * 4096 + b * 256 + c * 16 + d)
    | _, _, _, _ => none
  | _ => none

/-- Adds decoded bytes in front of what the rest of a string literal decodes
to. -/
def withDecoded (bytes : GoString) :
    Option (GoString × GoString) → Option (GoString × GoString)
  | none => none
  | some (decoded, rest) => some (bytes ++ decoded, rest)

/-- The reading of a JSON string literal after its opening quote, as the
scanner and `unquote` of `encoding/json` do it: up to the closing quote;
escapes are replaced, a pair of surrogate escapes gives one code point, a
lone surrogate and a malformed byte give U+FFFD, a control character or an
unknown escape is an error. Returns the string and the input after the
closing quote. -/
def unquoteLoop : Nat → GoString → Option (GoString × GoString)
  | 0, _ => none
  | _ + 1, [] => none
  | fuel + 1, c :: rest =>
    if c = 0x22 then some ([], rest)
    else if c = 0x5C then
      match rest with
      | [] => none
      | e :: rest1 =>
        if e = 0x22 ∨ e = 0x5C ∨ e = 0x2F then withDecoded [e] (unquoteLoop fuel rest1)
        else if e = 0x62 then withDecoded [0x08] (unquoteLoop fuel rest1)
        else if e = 0x66 then withDecoded [0x0C] (unquoteLoop fuel rest1)
        else if e = 0x6E then withDecoded [0x0A] (unquoteLoop fuel rest1)
        else if e = 0x72 then withDecoded [0x0D] (unquoteLoop fuel rest1)
        else if e = 0x74 then withDecoded [0x09] (unquoteLoop fuel rest1)
        else if e = 0x75 then
          match getu4 (c :: rest) with
          | none => none
          | some rr =>
            if 0xD800 ≤ rr ∧ rr < 0xE000 then
              match getu4 (rest1.drop 4) with
              | some rr1 =>
                if rr < 0xDC00 ∧ 0xDC00 ≤ rr1 ∧ rr1 < 0xE000 then
                  withDecoded (encodeRune ((rr - 0xD800) * 1024 + (rr1 - 0xDC00) + 0x10000))
                    (unquoteLoop fuel (rest1.drop 10))
                else withDecoded (encodeRune 0xFFFD) (unquoteLoop fuel (rest1.drop 4))
              | none => withDecoded (encodeRune 0xFFFD) (unquoteLoop fuel (rest1.drop 4))
            else withDecoded (encodeRune rr) (unquoteLoop fuel (rest1.drop 4))
        else none
    else if c < 0x20 then none
    else if c < 0x80 then withDecoded [c] (unquoteLoop fuel rest)
    else
      withDecoded (encodeRune (decodeRune (c :: rest)).1)
        (unquoteLoop fuel (rest.drop ((decodeRune (c :: rest)).2 - 1)))

/-- Skips the white space of JSON: space, tab, new line, carriage return. -/
def skipSpace : GoString → GoString
  | [] => []
  | b :: rest => if b = 0x20 ∨ b = 0x09 ∨ b = 0x0A ∨ b = 0x0D then skipSpace rest else b :: rest

/-- Reads a string literal, white space before it skipped. -/
def readString (fuel : Nat) (input : GoString) : Option (GoString × GoString) :=
  match skipSpace input with
  | 0x22 :: rest => unquoteLoop fuel rest
  | _ => none

/-- Reads the members of a non-empty object up to its closing brace and the end
of the input. -/
def readMembers : Nat → GoString → Option (List (GoString × GoString))
  | 0, _ => none
  | fuel + 1, input =>
    match readString (fuel + 1) input with
    | none => none
    | some (key, rest1) =>
      match skipSpace rest1 with
      | 0x3A :: rest2 =>
        match readString (fuel + 1) rest2 with
        | none => none
        | some (value, rest3) =>
          match skipSpace rest3 with
          | 0x2C :: rest4 =>
            match readMembers fuel rest4 with
            | none => none
            | some members => some ((key, value) :: members)
          | 0x7D :: rest4 => if skipSpace rest4 = [] then some [(key, value)] else none
          | _ => none
      | _ => none

/-- The reading of a payload by a consumer, as `json.Unmarshal` reads the text
of an object whose members are strings: the members, names and values, in the
order of the text; `none` when the text is not such an object (the payloads of
this service hold no other values). -/
def jsonUnmarshal (payload : List Nat) : Option (List (GoString × GoString)) :=
  match skipSpace payload with
  | 0x7B :: rest =>
    match skipSpace rest with
    | 0x7D :: rest1 => if skipSpace rest1 = [] then some [] else none
    | _ => readMembers (payload.length + 1) rest
  | _ => none

/-- The object that `json.Marshal` writes for a struct whose fields are strings,
given as the list of its members. -/
def jsonObject (members : List (GoString × GoString)) : GoString :=
  [0x7B] ++ appendMembers members ++ [0x7D]

/-- The function `json.Marshal` on an integration event: the object of its
members; it does not fail on these structs. -/
def jsonMarshal (v : IntegrationEvent) : Except Error (List Nat) :=
  Except.ok (jsonObject v.members)

/-! ## The database -/

/-- A row of the table `payments` (main.go, `runMigrations`). The rounding of
the `NUMERIC(18,2)` column is not modelled: a row keeps the amount it was
given. -/
structure PaymentRow where
  id : UUID
  appointment_id : UUID
  user_id : GoString
  amount : Amount
  currency : GoString
  status : Int
  stripe_payment_intent_id : Option GoString
  failure_reason : Option GoString
  created_at : Time
  updated_at : Option Time
  deriving DecidableEq, Repr

/-- The committed contents of the two relations, rows in insertion order. -/
structure Database where
  payments : List PaymentRow
  outbox_messages : List Message
  deriving DecidableEq, Repr

/-- Calls made to the collaborators of the handlers and of the relay worker,
recorded in order. `Publish` records, next to the routing key and the body
given to the publisher, the id of the outbox entry the call is made for. -/
inductive Call where
  | Begin
  | Rollback
  | Commit
  | FindByID (id : UUID)
  | FindByAppointmentID (appointmentID : UUID)
  | Create (paymentID : UUID)
  | Update (paymentID : UUID)
  | Send (paymentID : UUID)
  | CreatePaymentIntent (amount : Amount) (currency : GoString) (appointmentID : UUID)
  | GetUnprocessed (limit : Int)
  | Publish (entryID : UUID) (routingKey : GoString) (payload : List Nat)
  | MarkProcessed (id : UUID)
  | IncrementRetry (id : UUID)
  deriving DecidableEq, Repr

/-- The state the handlers act on: the committed database and the record of
the calls made so far. -/
structure World where
  db : Database
  log : List Call
  deriving DecidableEq, Repr

/-- What the environment decides for the translation and insertion of one
event: the results of `uuid.New()` and `time.Now()`, and the failure, if any,
of the `INSERT` for a cause other than the primary key. -/
structure EventEnv where
  newID : UUID
  now : Time
  insertErr : Option Error

/-- What the environment decides for one transaction: the failure, if any, of
`pool.Begin`, of the statement on `payments` (for a cause other than its key
constraints), of `tx.Commit`; `json.Marshal`; and the `EventEnv` of the event
at each index of the list given to `SaveEvents`. -/
structure TxEnv where
  beginErr : Option Error
  execErr : Option Error
  marshal : IntegrationEvent → Except Error (List Nat)
  events : Nat → EventEnv
  commitErr : Option Error

/-- The error of PostgreSQL for a violated primary key or unique constraint. -/
def uniqueViolation (constraintName : String) : Error :=
  Error.External (str "duplicate key value violates unique constraint " ++ str constraintName)

/-! ## outbox/repository.go -/

/-- The function `toOutboxMessage`. -/
def toOutboxMessage (marshal : IntegrationEvent → Except Error (List Nat)) (env : EventEnv)
    (event : DomainEvent) : Except Error (Option Message) :=
  match event with
  | DomainEvent.PaymentCompletedEvent PaymentID AppointmentID TransactionID =>
    match marshal (IntegrationEvent.PaymentCompletedIntegrationEvent (uuidString PaymentID)
        (uuidString AppointmentID) (str "Completed") TransactionID) with
    | Except.error err => Except.error err
    | Except.ok payload =>
      Except.ok (some
        { ID := env.newID
          AggregateID := PaymentID
          Type_ := str "PaymentCompletedIntegrationEvent"
          Payload := payload
          Processed := false
          CreatedAt := env.now
          ProcessedAt := none
          RetryCount := 0 })
  | DomainEvent.PaymentFailedEvent PaymentID AppointmentID Reason =>
    match marshal (IntegrationEvent.PaymentFailedIntegrationEvent (uuidString PaymentID)
        (uuidString AppointmentID) Reason) with
    | Except.error err => Except.error err
    | Except.ok payload =>
      Except.ok (some
        { ID := env.newID
          AggregateID := PaymentID
          Type_ := str "PaymentFailedIntegrationEvent"
          Payload := payload
          Processed := false
          CreatedAt := env.now
          ProcessedAt := none
          RetryCount := 0 })
  | _ => Except.ok none

/-- The statement `INSERT INTO outbox_messages (id, aggregate_id, type, payload,
processed, created_at, retry_count) VALUES ($1, $2, $3, $4, false, $5, 0)` on
the state `t` of the open transaction. The row keeps the payload bytes it is
given: the rewriting of the text by the `JSONB` column is not modelled. -/
def execInsertOutbox (env : EventEnv) (t : Database) (msg : Message) : Except Error Database :=
  match env.insertErr with
  | some err => Except.error err
  | none =>
    if t.outbox_messages.any (fun m => m.ID = msg.ID) then
      Except.error (uniqueViolation "outbox_messages_pkey")
    else
      Except.ok { t with outbox_messages := t.outbox_messages ++
        [{ ID := msg.ID, AggregateID := msg.AggregateID, Type_ := msg.Type_,
           Payload := msg.Payload, Processed := false, CreatedAt := msg.CreatedAt,
           ProcessedAt := none, RetryCount := 0 }] }

/-- The loop of `SaveEvents` from the event at index `k` on: the returned error
and the state of the open transaction. -/
def saveEventsLoop (env : TxEnv) : Nat → Database → List DomainEvent → Option Error × Database
  | _, t, [] => (none, t)
  | k, t, event :: rest =>
    match toOutboxMessage env.marshal (env.events k) event with
    | Except.error err => (some (Error.Wrap (str "convert event to outbox message") err), t)
    | Except.ok none => saveEventsLoop env (k + 1) t rest
    | Except.ok (some msg) =>
      match execInsertOutbox (env.events k) t msg with
      | Except.error err => (some (Error.Wrap (str "insert outbox message") err), t)
      | Except.ok t1 => saveEventsLoop env (k + 1) t1 rest

/-- The method `PostgresRepository.SaveEvents`, on the state `t` of the open
transaction. -/
def SaveEvents (env : TxEnv) (t : Database) (events : List DomainEvent) :
    Option Error × Database :=
  saveEventsLoop env 0 t events

/-! ## payments/infrastructure/repository.go -/

/-- The function `nilIfEmpty`. -/
def nilIfEmpty (s : GoString) : Option GoString :=
  if s = [] then none else some s

/-- The row that `Create` inserts for a payment. -/
def Payment.toRow (p : Payment) : PaymentRow :=
  { id := p.ID
    appointment_id := p.AppointmentID
    user_id := p.UserID
    amount := p.Amount
    currency := p.Currency
    status := p.Status.val
    stripe_payment_intent_id := nilIfEmpty p.StripePaymentIntentID
    failure_reason := nilIfEmpty p.FailureReason
    created_at := p.CreatedAt
    updated_at := p.UpdatedAt }

/-- The `INSERT INTO payments` of `Create` on the state `t` of the open
transaction; `id` is the primary key and `appointment_id` is `UNIQUE`. -/
def execInsertPayment (env : TxEnv) (t : Database) (p : Payment) : Except Error Database :=
  match env.execErr with
  | some err => Except.error err
  | none =>
    if t.payments.any (fun r => r.id = p.ID) then
      Except.error (uniqueViolation "payments_pkey")
    else if t.payments.any (fun r => r.appointment_id = p.AppointmentID) then
      Except.error (uniqueViolation "payments_appointment_id_key")
    else Except.ok { t with payments := t.payments ++ [p.toRow] }

/-- The `UPDATE payments SET status, stripe_payment_intent_id, failure_reason,
updated_at WHERE id = $1` of `Update` on the state `t` of the open
transaction. -/
def execUpdatePayment (env : TxEnv) (t : Database) (p : Payment) : Except Error Database :=
  match env.execErr with
  | some err => Except.error err
  | none =>
    Except.ok { t with payments := t.payments.map (fun r =>
      if r.id = p.ID then
        { r with
          status := p.Status.val
          stripe_payment_intent_id := nilIfEmpty p.StripePaymentIntentID
          failure_reason := nilIfEmpty p.FailureReason
          updated_at := p.UpdatedAt }
      else r) }

/-- The method `withTransaction`. The function `fn` acts on the state of the
open transaction, which starts as the committed database, and on the value
`s` it captures; only a successful commit makes the transaction's state the
committed one. -/
def withTransaction {σ : Type} (env : TxEnv) (w : World) (s : σ)
    (fn : Database → σ → Option Error × Database × σ) : Option Error × World × σ :=
  match env.beginErr with
  | some err => (some (Error.Wrap (str "begin transaction") err),
      { w with log := w.log ++ [Call.Begin] }, s)
  | none =>
    match fn w.db s with
    | (some err, _, s1) => (some err, { w with log := w.log ++ [Call.Begin, Call.Rollback] }, s1)
    | (none, t, s1) =>
      match env.commitErr with
      | some err => (some err, { w with log := w.log ++ [Call.Begin, Call.Commit] }, s1)
      | none => (none, { db := t, log := w.log ++ [Call.Begin, Call.Commit] }, s1)

/-- The function that `Create` runs inside its transaction. -/
def createTx (env : TxEnv) (t : Database) (payment : Payment) :
    Option Error × Database × Payment :=
  match execInsertPayment env t payment with
  | Except.error err => (some (Error.Wrap (str "insert payment") err), t, payment)
  | Except.ok t1 =>
    match SaveEvents env t1 payment.DomainEvents with
    | (some err, t2) => (some (Error.Wrap (str "save outbox events") err), t2, payment)
    | (none, t2) => (none, t2, payment.ClearDomainEvents)

/-- The method `PostgresPaymentRepository.Create`: the returned error, the
world after the call and the payment after the call. -/
def Create (env : TxEnv) (w : World) (payment : Payment) : Option Error × World × Payment :=
  withTransaction env { w with log := w.log ++ [Call.Create payment.ID] } payment (createTx env)

/-- The function that `Update` runs inside its transaction. -/
def updateTx (env : TxEnv) (t : Database) (payment : Payment) :
    Option Error × Database × Payment :=
  match execUpdatePayment env t payment with
  | Except.error err => (some (Error.Wrap (str "update payment") err), t, payment)
  | Except.ok t1 =>
    match SaveEvents env t1 payment.DomainEvents with
    | (some err, t2) => (some (Error.Wrap (str "save outbox events") err), t2, payment)
    | (none, t2) => (none, t2, payment.ClearDomainEvents)

/-- The method `PostgresPaymentRepository.Update`. -/
def Update (env : TxEnv) (w : World) (payment : Payment) : Option Error × World × Payment :=
  withTransaction env { w with log := w.log ++ [Call.Update payment.ID] } payment (updateTx env)

/-- The function `scanPayment` on the first row of a query result: `none` when
the result has no row (`pgx.ErrNoRows`), and `queryErr` is the failure, if
any, of the query itself. `COALESCE(column, '')` reads a null as the empty
string. -/
def scanPayment (queryErr : Option Error) (row : Option PaymentRow) :
    Except Error (Option Payment) :=
  match queryErr with
  | some err => Except.error (Error.Wrap (str "scan payment") err)
  | none =>
    match row with
    | none => Except.ok none
    | some r =>
      Except.ok (some
        { ID := r.id
          AppointmentID := r.appointment_id
          UserID := r.user_id
          Amount := r.amount
          Currency := r.currency
          Status := ⟨r.status⟩
          StripePaymentIntentID := r.stripe_payment_intent_id.getD []
          FailureReason := r.failure_reason.getD []
          CreatedAt := r.created_at
          UpdatedAt := r.updated_at
          domainEvents := [] })

/-- The method `PostgresPaymentRepository.FindByID`. -/
def FindByID (queryErr : Option Error) (w : World) (id : UUID) :
    Except Error (Option Payment) × World :=
  (scanPayment queryErr (w.db.payments.find? (fun r => r.id = id)),
    { w with log := w.log ++ [Call.FindByID id] })

/-- The method `PostgresPaymentRepository.FindByAppointmentID`. -/
def FindByAppointmentID (queryErr : Option Error) (w : World) (appointmentID : UUID) :
    Except Error (Option Payment) × World :=
  (scanPayment queryErr (w.db.payments.find? (fun r => r.appointment_id = appointmentID)),
    { w with log := w.log ++ [Call.FindByAppointmentID appointmentID] })

/-! ## payments/complete_payment/handler.go -/

namespace CompletePayment

/-- The struct `completepayment.Command`. -/
structure Command where
  PaymentID : UUID
  deriving DecidableEq, Repr

/-- The struct `completepayment.Result`. -/
structure Result where
  PaymentID : GoString
  Status : GoString
  TransactionID : GoString
  deriving DecidableEq, Repr

/-- What the environment decides during one run of the handler: the failure,
if any, of the `FindByID` query; the outcome of the payment processor
(`CreatePaymentIntent`): an intent id or an error; the clock read by the
first and by the second transition of the aggregate; and the transaction of
`Update`. -/
structure Env where
  findErr : Option Error
  stripe : Except Error GoString
  now1 : Time
  now2 : Time
  update : TxEnv

/-- The transitions `Handle` applies to the loaded payment after the call of
the payment processor: `MarkFailed` on a processor error, otherwise
`MarkProcessing` then `MarkCompleted`. -/
def transition (env : Env) (payment : Payment) : Except Error Payment :=
  match env.stripe with
  | Except.error stripeErr =>
    match payment.MarkFailed (str "Stripe error: " ++ stripeErr.Error) env.now1 with
    | (some err, _) => Except.error (Error.Wrap (str "mark payment failed") err)
    | (none, p1) => Except.ok p1
  | Except.ok intentID =>
    match payment.MarkProcessing intentID env.now1 with
    | (some err, _) => Except.error (Error.Wrap (str "mark payment processing") err)
    | (none, p1) =>
      match p1.MarkCompleted env.now2 with
      | (some err, _) => Except.error (Error.Wrap (str "mark payment completed") err)
      | (none, p2) => Except.ok p2

/-- The method `Handler.Handle` of the CompletePayment handler. -/
def Handle (env : Env) (w : World) (cmd : Command) : Except Error Result × World :=
  match FindByID env.findErr w cmd.PaymentID with
  | (Except.error err, w1) => (Except.error (Error.Wrap (str "find payment") err), w1)
  | (Except.ok none, w1) => (Except.error (Error.ErrPaymentNotFound cmd.PaymentID), w1)
  | (Except.ok (some payment), w1) =>
    let w2 : World := { w1 with log := w1.log ++
      [Call.CreatePaymentIntent payment.Amount payment.Currency payment.AppointmentID] }
    match transition env payment with
    | Except.error err => (Except.error err, w2)
    | Except.ok p1 =>
      match Update env.update w2 p1 with
      | (some err, w3, _) => (Except.error (Error.Wrap (str "update payment") err), w3)
      | (none, w3, p2) =>
        (Except.ok
          { PaymentID := uuidString p2.ID
            Status := p2.Status.String
            TransactionID := p2.StripePaymentIntentID }, w3)

end CompletePayment

/-! ## shared/mediator.go -/

/-- The mediator as the create handler uses it: whether a handler is
registered under the type name of `completepayment.Command` (main.go registers
`completeHandler.Handle` there). -/
structure Mediator where
  completeRegistered : Bool

/-- The method `Mediator.Send` on a `completepayment.Command`. -/
def Mediator.Send (m : Mediator) (env : CompletePayment.Env) (w : World)
    (req : CompletePayment.Command) : Except Error CompletePayment.Result × World :=
  let w1 : World := { w with log := w.log ++ [Call.Send req.PaymentID] }
  if m.completeRegistered then CompletePayment.Handle env w1 req
  else
    (Except.error (Error.Errorf
      (str "no handler registered for request type completepayment.Command")), w1)

/-! ## payments/create_payment/handler.go -/

namespace CreatePayment

/-- The struct `createpayment.Command`. -/
structure Command where
  AppointmentID : UUID
  UserID : GoString
  Amount : Amount
  Currency : GoString
  deriving DecidableEq, Repr

/-- The struct `createpayment.Result`. -/
structure Result where
  PaymentID : GoString
  Status : GoString
  deriving DecidableEq, Repr

/-- The method `Command.Validate`. -/
def Command.Validate (c : Command) : Option Error :=
  if c.AppointmentID = uuidNil then some (Error.Errorf (str "appointmentId is required"))
  else if c.UserID = [] then some (Error.Errorf (str "userId is required"))
  else if c.Amount ≤ 0 then some (Error.Errorf (str "amount must be greater than zero"))
  else if c.Currency.length ≠ 3 then
    some (Error.Errorf (str "currency must be a 3-letter ISO code"))
  else none

/-- What the environment decides during one run of the handler: the failure,
if any, of the `FindByAppointmentID` query; the results of `uuid.New()` and
`time.Now()` in `NewPayment`; the transaction of `Create`; and the run of the
CompletePayment handler. -/
structure Env where
  findErr : Option Error
  newID : UUID
  now : Time
  create : TxEnv
  complete : CompletePayment.Env

/-- The method `Handler.Handle` of the CreatePayment handler. -/
def Handle (mediator : Mediator) (env : Env) (w : World) (cmd : Command) :
    Except Error Result × World :=
  match cmd.Validate with
  | some err => (Except.error (Error.Wrap (str "validation error") err), w)
  | none =>
    match FindByAppointmentID env.findErr w cmd.AppointmentID with
    | (Except.error err, w1) =>
      (Except.error (Error.Wrap (str "check existing payment") err), w1)
    | (Except.ok (some existing), w1) =>
      (Except.ok { PaymentID := uuidString existing.ID, Status := existing.Status.String }, w1)
    | (Except.ok none, w1) =>
      match NewPayment env.newID env.now cmd.AppointmentID cmd.UserID cmd.Amount
          cmd.Currency with
      | Except.error err => (Except.error (Error.Wrap (str "create payment aggregate") err), w1)
      | Except.ok payment =>
        match Create env.create w1 payment with
        | (some err, w2, _) => (Except.error (Error.Wrap (str "persist payment") err), w2)
        | (none, w2, payment1) =>
          match mediator.Send env.complete w2 { PaymentID := payment1.ID } with
          | (Except.error _, w3) =>
            (Except.ok
              { PaymentID := uuidString payment1.ID, Status := payment1.Status.String }, w3)
          | (Except.ok result, w3) =>
            (Except.ok { PaymentID := result.PaymentID, Status := result.Status }, w3)

/-- The method `Handler.Handle` of the CreatePayment handler when another task
commits between its pre-check and its insert: `concurrent` is what the
transactions committed by other tasks in that interval do to the database.
With `concurrent` the identity this is `Handle`. -/
def HandleRaced (mediator : Mediator) (env : Env) (concurrent : Database → Database)
    (w : World) (cmd : Command) : Except Error Result × World :=
  match cmd.Validate with
  | some err => (Except.error (Error.Wrap (str "validation error") err), w)
  | none =>
    match FindByAppointmentID env.findErr w cmd.AppointmentID with
    | (Except.error err, w1) =>
      (Except.error (Error.Wrap (str "check existing payment") err), w1)
    | (Except.ok (some existing), w1) =>
      (Except.ok { PaymentID := uuidString existing.ID, Status := existing.Status.String }, w1)
    | (Except.ok none, w1) =>
      match NewPayment env.newID env.now cmd.AppointmentID cmd.UserID cmd.Amount
          cmd.Currency with
      | Except.error err => (Except.error (Error.Wrap (str "create payment aggregate") err), w1)
      | Except.ok payment =>
        match Create env.create { w1 with db := concurrent w1.db } payment with
        | (some err, w2, _) => (Except.error (Error.Wrap (str "persist payment") err), w2)
        | (none, w2, payment1) =>
          match mediator.Send env.complete w2 { PaymentID := payment1.ID } with
          | (Except.error _, w3) =>
            (Except.ok
              { PaymentID := uuidString payment1.ID, Status := payment1.Status.String }, w3)
          | (Except.ok result, w3) =>
            (Except.ok { PaymentID := result.PaymentID, Status := result.Status }, w3)

end CreatePayment

/-- The key columns (`id`, `appointment_id`) of the rows of `payments`. -/
def paymentKeys (rows : List PaymentRow) : List (UUID × UUID) :=
  rows.map (fun r => (r.id, r.appointment_id))

/-! ## outbox/repository.go: the queries of the relay -/

/-- The `WHERE` clause of `GetUnprocessed`: `processed = false AND
retry_count < 5`. -/
def unprocessedFilter (m : Message) : Bool :=
  (!m.Processed) && decide (m.RetryCount < 5)

/-- The method `PostgresRepository.GetUnprocessed`: the rows that pass the
`WHERE` clause, `ORDER BY created_at ASC`, `LIMIT limit`. SQL leaves the order
of rows created at the same instant open; here they keep their insertion
order, one of the answers the database may give, and the theorems on the
relay that need it bound the number of eligible rows by the limit, so that
nothing depends on that choice. `fetchErr` is the error returned when the
query, a scan or the iteration of the rows fails. PostgreSQL refuses a
negative `LIMIT` when the statement is executed; that error comes back
through `rows.Err()`, which the method returns as it is. -/
def GetUnprocessed (fetchErr : Option Error) (w : World) (limit : Int) :
    Except Error (List Message) × World :=
  let w1 : World := { w with log := w.log ++ [Call.GetUnprocessed limit] }
  match fetchErr with
  | some err => (Except.error err, w1)
  | none =>
    if limit < 0 then
      (Except.error (Error.External (str "LIMIT must not be negative")), w1)
    else
      (Except.ok
        (((w.db.outbox_messages.filter unprocessedFilter).insertionSort
          (fun a b => a.CreatedAt ≤ b.CreatedAt)).take limit.toNat), w1)

/-- The method `PostgresRepository.MarkProcessed`: `UPDATE outbox_messages SET
processed = true, processed_at = $2 WHERE id = $1`; `execErr` is the failure,
if any, of the statement and `now` the result of `time.Now().UTC()`. -/
def MarkProcessed (execErr : Option Error) (now : Time) (w : World) (id : UUID) :
    Option Error × World :=
  let w1 : World := { w with log := w.log ++ [Call.MarkProcessed id] }
  match execErr with
  | some err => (some err, w1)
  | none =>
    (none, { w1 with db := { w1.db with outbox_messages := w1.db.outbox_messages.map (fun m =>
      if m.ID = id then { m with Processed := true, ProcessedAt := some now } else m) } })

/-- The method `PostgresRepository.IncrementRetry`: `UPDATE outbox_messages SET
retry_count = retry_count + 1 WHERE id = $1`. -/
def IncrementRetry (execErr : Option Error) (w : World) (id : UUID) : Option Error × World :=
  let w1 : World := { w with log := w.log ++ [Call.IncrementRetry id] }
  match execErr with
  | some err => (some err, w1)
  | none =>
    (none, { w1 with db := { w1.db with outbox_messages := w1.db.outbox_messages.map (fun m =>
      if m.ID = id then { m with RetryCount := m.RetryCount + 1 } else m) } })

/-! ## outbox/worker.go -/

/-- The constant `maxRetries` of the worker. -/
def maxRetries : Int := 5

/-- The constant `batchSize` of the worker. -/
def batchSize : Int := 50

/-- What the environment decides during one cycle of the relay worker: the
error, if any, of the fetch; and, for each entry of the fetched batch, the
outcome of `Publish`, the failure of `MarkProcessed` or of `IncrementRetry`,
and the clock read by `MarkProcessed`. -/
structure RelayEnv where
  fetchErr : Option Error
  publishErr : Message → Option Error
  markErr : Message → Option Error
  now : Message → Time
  incrErr : Message → Option Error

/-- The loop of `processBatch` over the fetched messages: publish with the type
as routing key and the payload as body; on failure increment the retry
counter, on success mark the entry processed; errors of the two updates are
logged only. -/
def processLoop (env : RelayEnv) : World → List Message → World
  | w, [] => w
  | w, msg :: rest =>
    let w1 : World := { w with log := w.log ++ [Call.Publish msg.ID msg.Type_ msg.Payload] }
    match env.publishErr msg with
    | some _ => processLoop env (IncrementRetry (env.incrErr msg) w1 msg.ID).2 rest
    | none => processLoop env (MarkProcessed (env.markErr msg) (env.now msg) w1 msg.ID).2 rest

/-- The method `Worker.processBatch`: one cycle of the relay. -/
def processBatch (env : RelayEnv) (w : World) : World :=
  match GetUnprocessed env.fetchErr w batchSize with
  | (Except.error _, w1) => w1
  | (Except.ok messages, w1) =>
    if messages.length = 0 then w1 else processLoop env w1 messages

/-- The loop of `Worker.Run`: one `processBatch` for each tick of the ticker,
each with what the environment decides during that cycle. -/
def Run (ticks : List RelayEnv) (w : World) : World :=
  ticks.foldl (fun w1 env => processBatch env w1) w

/-- What handling the fetched message `m` does to the stored row `r`. -/
def relayUpdate (env : RelayEnv) (r : Message) (m : Message) : Message :=
  if r.ID = m.ID then
    match env.publishErr m with
    | some _ =>
      match env.incrErr m with
      | some _ => r
      | none => { r with RetryCount := r.RetryCount + 1 }
    | none =>
      match env.markErr m with
      | some _ => r
      | none => { r with Processed := true, ProcessedAt := some (env.now m) }
  else r

/-- The calls made for the fetched message `m`. -/
def relayCalls (env : RelayEnv) (m : Message) : List Call :=
  [Call.Publish m.ID m.Type_ m.Payload,
   match env.publishErr m with
   | some _ => Call.IncrementRetry m.ID
   | none => Call.MarkProcessed m.ID]

/-- The batch that a cycle of the relay handles: the messages that
`GetUnprocessed` returns for `batchSize`, with the same order among rows
created at the same instant, none when the fetch fails. -/
def fetchedBatch (env : RelayEnv) (w : World) : List Message :=
  match env.fetchErr with
  | some _ => []
  | none =>
    ((w.db.outbox_messages.filter unprocessedFilter).insertionSort
      (fun a b => a.CreatedAt ≤ b.CreatedAt)).take 50

/-! ## Sequences of transitions of the aggregate -/

/-- A call of one of the three transition methods of the aggregate, with its
arguments and the clock value it reads. -/
inductive Transition where
  | MarkProcessing (stripeIntentID : GoString) (now : Time)
  | MarkCompleted (now : Time)
  | MarkFailed (reason : GoString) (now : Time)
  deriving DecidableEq, Repr

/-- The payment after one transition call, whether the call succeeds or
returns an error. -/
def Payment.after (p : Payment) : Transition → Payment
  | Transition.MarkProcessing stripeIntentID now => (p.MarkProcessing stripeIntentID now).2
  | Transition.MarkCompleted now => (p.MarkCompleted now).2
  | Transition.MarkFailed reason now => (p.MarkFailed reason now).2

/-- The payment after a sequence of transition calls, in order. -/
def Payment.afterAll (p : Payment) (calls : List Transition) : Payment :=
  calls.foldl Payment.after p

/-- An ASCII letter, `A` to `Z` or `a` to `z`. -/
def isAsciiLetter (b : Nat) : Bool :=
  (decide (65 ≤ b) && decide (b ≤ 90)) || (decide (97 ≤ b) && decide (b ≤ 122))

/-- The lowering of one byte: `A` to `Z` become `a` to `z`, every other byte
is kept. -/
def lowerByte (c : Nat) : Nat :=
  if 65 ≤ c ∧ c ≤ 90 then c + 32 else c

/-! ## Sample data -/

/-- A payment with the given status and one staged PaymentCreated event. -/
def samplePayment (status : PaymentStatus) : Payment :=
  { ID := 7, AppointmentID := 3, UserID := str "user-1", Amount := 100, Currency := str "usd",
    Status := status, StripePaymentIntentID := str "pi_1", FailureReason := [],
    CreatedAt := 10, UpdatedAt := none,
    domainEvents := [DomainEvent.PaymentCreatedEvent 7 3 (str "user-1") 100 (str "usd")] }

/-- A pending payment on which PaymentCompleted and PaymentFailed events are
staged after the PaymentCreated one. -/
def sampleStagedPayment : Payment :=
  { samplePayment PaymentStatusPending with
    domainEvents :=
      [DomainEvent.PaymentCreatedEvent 7 3 (str "user-1") 100 (str "usd"),
       DomainEvent.PaymentCompletedEvent 7 3 (str "pi_1"),
       DomainEvent.PaymentFailedEvent 7 3 (str "late")] }

/-- An environment in which every insert succeeds; the event at index `k` gets
the id `1000 + k`. -/
def sampleEventEnv (k : Nat) : EventEnv :=
  { newID := 1000 + k, now := 50 + k, insertErr := none }

/-- A transaction in which nothing fails. -/
def sampleTxEnv : TxEnv :=
  { beginErr := none, execErr := none, marshal := fun _ => Except.ok (str "payload"),
    events := sampleEventEnv, commitErr := none }

/-- A transaction in which the insert for the event at index 2 fails. -/
def sampleInsertFailsTxEnv : TxEnv :=
  { sampleTxEnv with
    events := fun k =>
      { sampleEventEnv k with
        insertErr := if k = 2 then some (Error.External (str "connection lost")) else none } }

/-- A transaction in which only the commit fails. -/
def sampleCommitFailsTxEnv : TxEnv :=
  { sampleTxEnv with commitErr := some (Error.External (str "commit failed")) }

/-- A transaction that cannot be begun. -/
def sampleBeginFailsTxEnv : TxEnv :=
  { sampleTxEnv with beginErr := some (Error.External (str "no connection")) }

/-- A run of the CompletePayment handler in which the processor returns the
reference `pi_abc` and nothing fails. -/
def sampleCompleteEnv : CompletePayment.Env :=
  { findErr := none, stripe := Except.ok (str "pi_abc"), now1 := 30, now2 := 31,
    update := sampleTxEnv }

/-- A run of the CreatePayment handler in which nothing fails; the new payment
gets the id `newID`. -/
def sampleCreateEnv (newID : UUID) : CreatePayment.Env :=
  { findErr := none, newID := newID, now := 20, create := sampleTxEnv,
    complete := sampleCompleteEnv }

/-- The empty database, no call made yet. -/
def emptyWorld : World :=
  { db := { payments := [], outbox_messages := [] }, log := [] }

/-- A world whose database holds one completed payment, for appointment 3. -/
def sampleWorld : World :=
  { db :=
      { payments := [{ (samplePayment PaymentStatusCompleted).toRow with id := 7 }]
        outbox_messages := [] }
    log := [] }

/-- A valid command for appointment 3. -/
def sampleCommand : CreatePayment.Command :=
  { AppointmentID := 3, UserID := str "user-1", Amount := 50, Currency := str "usd" }

/-- A world whose database holds one pending payment, with id 7, for
appointment 3. -/
def samplePendingWorld : World :=
  { db :=
      { payments :=
          [{ id := 7, appointment_id := 3, user_id := str "user-1", amount := 50,
             currency := str "usd", status := 0, stripe_payment_intent_id := none,
             failure_reason := none, created_at := 20, updated_at := none }]
        outbox_messages := [] }
    log := [] }

/-- A run of the CompletePayment handler in which the processor fails with the
message `card_declined` and nothing else fails. -/
def sampleDeclinedEnv : CompletePayment.Env :=
  { sampleCompleteEnv with stripe := Except.error (Error.External (str "card_declined")) }

/-- A run of the CompletePayment handler in which the transaction of `Update`
cannot be begun. -/
def sampleUpdateFailsEnv : CompletePayment.Env :=
  { sampleCompleteEnv with update := sampleBeginFailsTxEnv }

/-- Another task commits a completed payment, with id 9, for appointment 3. -/
def sampleWinner (db : Database) : Database :=
  { db with payments := db.payments ++
      [{ id := 9, appointment_id := 3, user_id := str "user-1", amount := 50,
         currency := str "usd", status := 2, stripe_payment_intent_id := some (str "pi_w"),
         failure_reason := none, created_at := 19, updated_at := some 21 }] }

/-- A run of the CreatePayment handler in which creation succeeds and the
completion step fails: the transaction of `Update` cannot be begun. -/
def sampleCompletionFailsEnv : CreatePayment.Env :=
  { sampleCreateEnv 7 with complete := sampleUpdateFailsEnv }

/-- A stand-in for a JSON encoder: a tag, then each field behind its length. -/
def sampleMarshal : IntegrationEvent → Except Error (List Nat)
  | IntegrationEvent.PaymentCompletedIntegrationEvent a b c d =>
    Except.ok (0 :: (a.length :: a ++ (b.length :: b ++ (c.length :: c ++ (d.length :: d)))))
  | IntegrationEvent.PaymentFailedIntegrationEvent a b c =>
    Except.ok (1 :: (a.length :: a ++ (b.length :: b ++ (c.length :: c))))

/-- An unprocessed outbox entry with retry counter 0. -/
def sampleEntry (id : UUID) (created : Time) : Message :=
  { ID := id, AggregateID := 7, Type_ := str "PaymentCompletedIntegrationEvent",
    Payload := str "payload", Processed := false, CreatedAt := created, ProcessedAt := none,
    RetryCount := 0 }

/-- A world whose outbox holds three fresh entries. -/
def sampleOutboxWorld : World :=
  { db :=
      { payments := []
        outbox_messages := [sampleEntry 1001 52, sampleEntry 1002 50, sampleEntry 1003 51] }
    log := [] }

/-- A cycle of the relay in which publishing fails exactly for the entry with
the id `failing` and no storage operation fails. -/
def sampleRelayEnv (failing : UUID) : RelayEnv :=
  { fetchErr := none
    publishErr := fun m =>
      if m.ID = failing then some (Error.External (str "broker down")) else none
    markErr := fun _ => none
    now := fun _ => 100
    incrErr := fun _ => none }

/-- A command whose currency has three bytes that are not letters. -/
def sampleDigitsCommand : CreatePayment.Command :=
  { AppointmentID := 3, UserID := str "user-1", Amount := 50, Currency := str "12$" }

/-- A command whose currency is the euro sign, three bytes in UTF-8. -/
def sampleEuroCommand : CreatePayment.Command :=
  { AppointmentID := 3, UserID := str "user-1", Amount := 50, Currency := str "€" }

/-- A command without appointment id. -/
def sampleInvalidCommand : CreatePayment.Command :=
  { AppointmentID := uuidNil, UserID := str "user-1", Amount := 50, Currency := str "usd" }

/-- The payment that NewPayment returns for appointment 3, payer `user-1`,
amount 100 and currency `usd`, with the fresh id 7 at time 10. -/
def sampleNewPayment : Payment :=
  { ID := 7, AppointmentID := 3, UserID := str "user-1", Amount := 100, Currency := str "usd",
    Status := PaymentStatusPending, StripePaymentIntentID := [], FailureReason := [],
    CreatedAt := 10, UpdatedAt := none,
    domainEvents := [DomainEvent.PaymentCreatedEvent 7 3 (str "user-1") 100 (str "usd")] }

/-- A cycle of the relay in which every publication succeeds and the update
that marks the entry with the id `failing` as processed fails. -/
def sampleMarkFailsEnv (failing : UUID) : RelayEnv :=
  { fetchErr := none
    publishErr := fun _ => none
    markErr := fun m =>
      if m.ID = failing then some (Error.External (str "connection reset")) else none
    now := fun _ => 100
    incrErr := fun _ => none }

/-! ## Lemmas on the aggregate -/

theorem Amount.zero_eq : (0 : Amount) = Amount.num 0 := by
  show Amount.num ((0 : Nat) : Rat) = Amount.num 0
  rw [Nat.cast_zero]

theorem Amount.not_le_zero_of_pos (a : Amount) (h : 0 < a) : ¬ a ≤ 0 := by
  rw [Amount.zero_eq] at h ⊢
  cases a with
  | num q =>
    have h1 : Amount.lt (Amount.num 0) (Amount.num q) = true := h
    intro h2
    have h3 : Amount.le (Amount.num q) (Amount.num 0) = true := h2
    simp [Amount.lt, Amount.le] at h1 h3
    exact absurd h3 (not_le.mpr h1.2)
  | posInf => exact fun h2 => Bool.noConfusion (h2 : Amount.le Amount.posInf (Amount.num 0) = true)
  | negInf => exact absurd (h : Amount.lt (Amount.num 0) Amount.negInf = true) (by decide)
  | nan => exact absurd (h : Amount.lt (Amount.num 0) Amount.nan = true) (by decide)

theorem ensureStatusLoop_eq_true_iff (status : PaymentStatus) (allowed : List PaymentStatus) :
    ensureStatusLoop status allowed = true ↔ status ∈ allowed := by
  induction allowed with
  | nil => simp [ensureStatusLoop]
  | cons s rest ih =>
    by_cases h : status = s
    · simp [ensureStatusLoop, h]
    · simp [ensureStatusLoop, h, ih]

theorem ensureStatus_eq_none_iff (p : Payment) (allowed : List PaymentStatus) :
    p.ensureStatus allowed = none ↔ p.Status ∈ allowed := by
  unfold Payment.ensureStatus
  by_cases h : ensureStatusLoop p.Status allowed = true
  · simp [h, (ensureStatusLoop_eq_true_iff _ _).mp h]
  · have hmem : ¬ p.Status ∈ allowed := fun hm => h ((ensureStatusLoop_eq_true_iff _ _).mpr hm)
    simp [h, hmem]

theorem ensureStatus_of_mem (p : Payment) (allowed : List PaymentStatus)
    (h : p.Status ∈ allowed) : p.ensureStatus allowed = none :=
  (ensureStatus_eq_none_iff p allowed).mpr h

theorem ensureStatus_of_not_mem (p : Payment) (allowed : List PaymentStatus)
    (h : ¬ p.Status ∈ allowed) :
    p.ensureStatus allowed = some (Error.ErrInvalidTransition p.Status allowed) := by
  unfold Payment.ensureStatus
  have hloop : ¬ ensureStatusLoop p.Status allowed = true :=
    fun hl => h ((ensureStatusLoop_eq_true_iff _ _).mp hl)
  simp [hloop]

theorem newPayment_ok (newID : UUID) (now : Time) (appointmentID : UUID)
    (userID : GoString) (amount : Amount) (currency : GoString)
    (hAmount : ¬ amount ≤ 0) (hCurrency : currency ≠ []) :
    ∃ p, NewPayment newID now appointmentID userID amount currency = Except.ok p ∧
      p.ID = newID ∧
      p.Status = PaymentStatusPending ∧
      p.StripePaymentIntentID = [] ∧
      p.FailureReason = [] ∧
      p.UpdatedAt = none ∧
      p.domainEvents =
        [DomainEvent.PaymentCreatedEvent p.ID appointmentID userID amount currency] := by
  have hA : ¬ amount ≤ 0 := hAmount
  simp [NewPayment, hA, hCurrency, Payment.addEvent]


theorem find_keys (l : List PaymentRow) (a : UUID) :
    (l.find? (fun r => r.appointment_id = a)).map (fun r => (r.id, r.appointment_id))
      = ((paymentKeys l).find? (fun k => k.2 = a)) := by
  induction l with
  | nil => simp [paymentKeys]
  | cons r rest ih =>
    by_cases h : r.appointment_id = a
    · simp [paymentKeys, List.find?, h]
    · simpa [paymentKeys, List.find?, h] using ih

theorem filter_keys_length (l : List PaymentRow) (a : UUID) :
    (l.filter (fun r => r.appointment_id = a)).length
      = ((paymentKeys l).filter (fun k => k.2 = a)).length := by
  induction l with
  | nil => simp [paymentKeys]
  | cons r rest ih =>
    by_cases h : r.appointment_id = a
    · simpa [paymentKeys, List.filter, h] using ih
    · simpa [paymentKeys, List.filter, h] using ih

theorem execUpdatePayment_keys (env : TxEnv) (t t1 : Database) (p : Payment)
    (h : execUpdatePayment env t p = Except.ok t1) :
    paymentKeys t1.payments = paymentKeys t.payments ∧ t1.outbox_messages = t.outbox_messages := by
  unfold execUpdatePayment at h
  cases he : env.execErr with
  | some e => simp [he] at h
  | none =>
    simp only [he] at h
    have h2 := (Except.ok.inj h).symm
    subst h2
    refine ⟨?_, rfl⟩
    simp only [paymentKeys, List.map_map]
    apply List.map_congr_left
    intro r _
    by_cases hr : r.id = p.ID <;> simp [hr]

theorem execInsertOutbox_payments (env : EventEnv) (t t1 : Database) (msg : Message)
    (h : execInsertOutbox env t msg = Except.ok t1) : t1.payments = t.payments := by
  unfold execInsertOutbox at h
  cases he : env.insertErr with
  | some e => simp [he] at h
  | none =>
    simp only [he] at h
    split at h
    · simp at h
    · have h2 := (Except.ok.inj h).symm
      subst h2
      rfl

theorem saveEventsLoop_payments (env : TxEnv) (events : List DomainEvent) (k : Nat)
    (t : Database) : (saveEventsLoop env k t events).2.payments = t.payments := by
  induction events generalizing k t with
  | nil => simp [saveEventsLoop]
  | cons event rest ih =>
    unfold saveEventsLoop
    split
    · rfl
    · exact ih _ _
    · split
      · rfl
      · rename_i t1 h1
        rw [ih, execInsertOutbox_payments _ _ _ _ h1]

theorem Update_keys (env : TxEnv) (w : World) (p : Payment) :
    paymentKeys (Update env w p).2.1.db.payments = paymentKeys w.db.payments ∧
    (Update env w p).2.2.ID = p.ID := by
  unfold Update withTransaction
  cases hb : env.beginErr with
  | some e => simp
  | none =>
    simp only []
    cases hu : execUpdatePayment env w.db p with
    | error e => simp [updateTx, hu]
    | ok t1 =>
      have hk := execUpdatePayment_keys env w.db t1 p hu
      have hs := saveEventsLoop_payments env p.DomainEvents 0 t1
      cases hse : SaveEvents env t1 p.DomainEvents with
      | mk r t2 =>
        have ht2 : t2.payments = t1.payments := by
          have := hs
          unfold SaveEvents at hse
          rw [hse] at this
          exact this
        cases r with
        | some e => simp [updateTx, hu, hse]
        | none =>
          cases hc : env.commitErr with
          | some e => simp [updateTx, hu, hse, Payment.ClearDomainEvents]
          | none => simp [updateTx, hu, hse, ht2, hk.1, Payment.ClearDomainEvents]

theorem MarkProcessing_ID (p : Payment) (ref : GoString) (now : Time) :
    (p.MarkProcessing ref now).2.ID = p.ID := by
  unfold Payment.MarkProcessing
  split <;> rfl

theorem MarkCompleted_ID (p : Payment) (now : Time) : (p.MarkCompleted now).2.ID = p.ID := by
  unfold Payment.MarkCompleted
  split <;> rfl

theorem MarkFailed_ID (p : Payment) (reason : GoString) (now : Time) :
    (p.MarkFailed reason now).2.ID = p.ID := by
  unfold Payment.MarkFailed
  split <;> rfl

theorem transition_ID (env : CompletePayment.Env) (p p1 : Payment)
    (h : CompletePayment.transition env p = Except.ok p1) : p1.ID = p.ID := by
  unfold CompletePayment.transition at h
  split at h
  · split at h
    · simp at h
    · rename_i q hq
      have h2 := (Except.ok.inj h).symm
      subst h2
      have := MarkFailed_ID p (str "Stripe error: " ++ Error.Error ‹Error›) env.now1
      rw [hq] at this
      exact this
  · split at h
    · simp at h
    · rename_i intentID _ _ q hq
      split at h
      · simp at h
      · rename_i q2 hq2
        have h2 := (Except.ok.inj h).symm
        subst h2
        have e1 := MarkProcessing_ID p intentID env.now1
        rw [hq] at e1
        have e2 := MarkCompleted_ID q env.now2
        rw [hq2] at e2
        exact e2.trans e1

theorem scanPayment_ID (queryErr : Option Error) (l : List PaymentRow) (id : UUID)
    (p : Payment)
    (h : scanPayment queryErr (l.find? (fun r => r.id = id)) = Except.ok (some p)) :
    p.ID = id := by
  unfold scanPayment at h
  split at h
  · simp at h
  · split at h
    · simp at h
    · rename_i r hr
      have h2 := (Option.some.inj (Except.ok.inj h)).symm
      subst h2
      simpa using List.find?_some hr

theorem completeHandle_keys (env : CompletePayment.Env) (w : World)
    (cmd : CompletePayment.Command) :
    paymentKeys (CompletePayment.Handle env w cmd).2.db.payments = paymentKeys w.db.payments ∧
    (∀ res, (CompletePayment.Handle env w cmd).1 = Except.ok res →
      res.PaymentID = uuidString cmd.PaymentID) := by
  unfold CompletePayment.Handle FindByID
  cases hs : scanPayment env.findErr (w.db.payments.find? (fun r => r.id = cmd.PaymentID)) with
  | error e => simp
  | ok o =>
    cases o with
    | none => simp
    | some payment =>
      have hid := scanPayment_ID _ _ _ _ hs
      simp only []
      cases ht : CompletePayment.transition env payment with
      | error e => simp
      | ok p1 =>
        have hid1 := transition_ID env payment p1 ht
        simp only []
        have hu := Update_keys env.update
          { db := w.db, log := (w.log ++ [Call.FindByID cmd.PaymentID]) ++
            [Call.CreatePaymentIntent payment.Amount payment.Currency payment.AppointmentID] } p1
        revert hu
        cases Update env.update
          { db := w.db, log := (w.log ++ [Call.FindByID cmd.PaymentID]) ++
            [Call.CreatePaymentIntent payment.Amount payment.Currency payment.AppointmentID] }
          p1 with
        | mk r rest =>
          cases rest with
          | mk w3 p2 =>
            cases r with
            | some e => intro hu; simpa using hu.1
            | none =>
              intro hu
              refine ⟨by simpa using hu.1, ?_⟩
              intro res hres
              have hres2 := (Except.ok.inj hres).symm
              subst hres2
              simp only []
              have : p2.ID = p1.ID := by simpa using hu.2
              rw [this, hid1, hid]

theorem send_keys (m : Mediator) (env : CompletePayment.Env) (w : World)
    (req : CompletePayment.Command) :
    paymentKeys (m.Send env w req).2.db.payments = paymentKeys w.db.payments ∧
    (∀ res, (m.Send env w req).1 = Except.ok res → res.PaymentID = uuidString req.PaymentID) := by
  unfold Mediator.Send
  cases m.completeRegistered with
  | true =>
    simpa using completeHandle_keys env { w with log := w.log ++ [Call.Send req.PaymentID] } req
  | false => simp

theorem any_eq_false_of_forall_ne {α : Type} (l : List α) (f : α → UUID) (x : UUID)
    (h : ∀ r ∈ l, f r ≠ x) : l.any (fun r => decide (f r = x)) = false := by
  simp only [List.any_eq_false, decide_eq_true_eq]
  exact h

theorem Create_new (env : TxEnv) (w : World) (p : Payment) (id appt : UUID) (user : GoString)
    (amount : Amount) (currency : GoString)
    (hEvents : p.domainEvents = [DomainEvent.PaymentCreatedEvent id appt user amount currency])
    (hBegin : env.beginErr = none) (hExec : env.execErr = none) (hCommit : env.commitErr = none)
    (hId : ∀ r ∈ w.db.payments, r.id ≠ p.ID)
    (hAppt : ∀ r ∈ w.db.payments, r.appointment_id ≠ p.AppointmentID) :
    Create env w p =
      (none,
        { db := { payments := w.db.payments ++ [p.toRow],
                  outbox_messages := w.db.outbox_messages },
          log := w.log ++ [Call.Create p.ID, Call.Begin, Call.Commit] },
        p.ClearDomainEvents) := by
  have h1 := any_eq_false_of_forall_ne w.db.payments (fun r => r.id) p.ID hId
  have h2 := any_eq_false_of_forall_ne w.db.payments (fun r => r.appointment_id)
    p.AppointmentID hAppt
  simp [Create, withTransaction, hBegin, createTx, execInsertPayment, hExec, h1, h2,
    SaveEvents, Payment.DomainEvents, hEvents, saveEventsLoop, toOutboxMessage, hCommit]

theorem handle_existing (mediator : Mediator) (env : CreatePayment.Env) (w : World)
    (cmd : CreatePayment.Command) (id : UUID)
    (hValid : cmd.Validate = none) (hFind : env.findErr = none)
    (hKey : (paymentKeys w.db.payments).find? (fun k => k.2 = cmd.AppointmentID)
      = some (id, cmd.AppointmentID)) :
    ∃ res, CreatePayment.Handle mediator env w cmd
        = (Except.ok res,
            { db := w.db, log := w.log ++ [Call.FindByAppointmentID cmd.AppointmentID] }) ∧
      res.PaymentID = uuidString id := by
  have hk := find_keys w.db.payments cmd.AppointmentID
  rw [hKey] at hk
  cases hr : w.db.payments.find? (fun r => r.appointment_id = cmd.AppointmentID) with
  | none => simp [hr] at hk
  | some row =>
    simp only [hr, Option.map_some', Option.some.injEq, Prod.mk.injEq] at hk
    refine ⟨{ PaymentID := uuidString row.id, Status := (PaymentStatus.mk row.status).String },
      ?_, by simp [hk.1]⟩
    simp [CreatePayment.Handle, hValid, FindByAppointmentID, scanPayment, hFind, hr]

theorem validate_amount_currency (cmd : CreatePayment.Command) (h : cmd.Validate = none) :
    ¬ cmd.Amount ≤ 0 ∧ cmd.Currency ≠ [] := by
  unfold CreatePayment.Command.Validate at h
  split at h
  · simp at h
  · split at h
    · simp at h
    · split at h
      · simp at h
      · split at h
        · simp at h
        · rename_i hA hC
          refine ⟨hA, ?_⟩
          intro hc
          rw [hc] at hC
          simp at hC

theorem handle_new (mediator : Mediator) (env : CreatePayment.Env) (w : World)
    (cmd : CreatePayment.Command)
    (hValid : cmd.Validate = none)
    (hNone : ∀ r ∈ w.db.payments, r.appointment_id ≠ cmd.AppointmentID)
    (hFresh : ∀ r ∈ w.db.payments, r.id ≠ env.newID)
    (hFind : env.findErr = none)
    (hBegin : env.create.beginErr = none)
    (hExec : env.create.execErr = none)
    (hCommit : env.create.commitErr = none) :
    ∃ res, (CreatePayment.Handle mediator env w cmd).1 = Except.ok res ∧
      res.PaymentID = uuidString env.newID ∧
      paymentKeys (CreatePayment.Handle mediator env w cmd).2.db.payments
        = paymentKeys w.db.payments ++ [(env.newID, cmd.AppointmentID)] := by
  obtain ⟨hA, hC⟩ := validate_amount_currency cmd hValid
  obtain ⟨p, hp, hpid, -, -, -, -, hpev⟩ :=
    newPayment_ok env.newID env.now cmd.AppointmentID cmd.UserID cmd.Amount cmd.Currency hA hC
  have hpappt : p.AppointmentID = cmd.AppointmentID := by
    have hA2 : ¬ cmd.Amount ≤ 0 := hA
    simp only [NewPayment, hA2, hC, if_false] at hp
    have := (Except.ok.inj hp).symm
    subst this
    rfl
  have hrow : w.db.payments.find? (fun r => r.appointment_id = cmd.AppointmentID) = none := by
    simp only [List.find?_eq_none, decide_eq_true_eq]
    exact hNone
  have hcreate := Create_new env.create
    { db := w.db, log := w.log ++ [Call.FindByAppointmentID cmd.AppointmentID] } p
    p.ID cmd.AppointmentID cmd.UserID cmd.Amount cmd.Currency hpev hBegin hExec hCommit
    (by rw [hpid]; exact hFresh) (by rw [hpappt]; exact hNone)
  have hsend := send_keys mediator env.complete
    { db := { payments := w.db.payments ++ [p.toRow],
              outbox_messages := w.db.outbox_messages },
      log := (w.log ++ [Call.FindByAppointmentID cmd.AppointmentID]) ++
        [Call.Create p.ID, Call.Begin, Call.Commit] }
    { PaymentID := p.ID }
  have hkeys : paymentKeys (w.db.payments ++ [p.toRow])
      = paymentKeys w.db.payments ++ [(env.newID, cmd.AppointmentID)] := by
    simp [paymentKeys, Payment.toRow, hpid, hpappt]
  simp only [CreatePayment.Handle, hValid, FindByAppointmentID, scanPayment, hFind, hrow, hp,
    hcreate]
  revert hsend
  simp only [Payment.ClearDomainEvents]
  cases mediator.Send env.complete
    { db := { payments := w.db.payments ++ [p.toRow],
              outbox_messages := w.db.outbox_messages },
      log := (w.log ++ [Call.FindByAppointmentID cmd.AppointmentID]) ++
        [Call.Create p.ID, Call.Begin, Call.Commit] }
    { PaymentID := p.ID } with
  | mk r w3 =>
    cases r with
    | error e =>
      intro hsend
      exact ⟨_, rfl, by simp [hpid], by rw [← hkeys]; exact hsend.1⟩
    | ok result =>
      intro hsend
      exact ⟨_, rfl, by simpa [hpid] using hsend.2 result rfl, by rw [← hkeys]; exact hsend.1⟩

/-! ## Claims on the aggregate -/

/-- C1: terminal states are absorbing. For a payment whose status is Completed
or Failed, each of MarkProcessing, MarkCompleted and MarkFailed (for every
reference, reason and clock value) returns an InvalidTransition error whose
From is the current status, and the payment after the call is the payment
before it (so status, processor reference, failure reason, update timestamp
and staged events are the same). -/
theorem terminal_states_absorbing (p : Payment) (ref reason : GoString) (now : Time)
    (h : p.Status = PaymentStatusCompleted ∨ p.Status = PaymentStatusFailed) :
    p.MarkProcessing ref now
        = (some (Error.ErrInvalidTransition p.Status [PaymentStatusPending]), p) ∧
    p.MarkCompleted now
        = (some (Error.ErrInvalidTransition p.Status
            [PaymentStatusProcessing, PaymentStatusPending]), p) ∧
    p.MarkFailed reason now
        = (some (Error.ErrInvalidTransition p.Status
            [PaymentStatusProcessing, PaymentStatusPending]), p) := by
  have h1 : ¬ p.Status ∈ [PaymentStatusPending] := by
    rcases h with h | h <;> rw [h] <;> decide
  have h2 : ¬ p.Status ∈ [PaymentStatusProcessing, PaymentStatusPending] := by
    rcases h with h | h <;> rw [h] <;> decide
  refine ⟨?_, ?_, ?_⟩
  · simp [Payment.MarkProcessing, ensureStatus_of_not_mem p _ h1]
  · simp [Payment.MarkCompleted, ensureStatus_of_not_mem p _ h2]
  · simp [Payment.MarkFailed, ensureStatus_of_not_mem p _ h2]

theorem terminal_states_absorbing_witness :
    (samplePayment PaymentStatusCompleted).MarkProcessing (str "pi_2") 20
        = (some (Error.ErrInvalidTransition PaymentStatusCompleted [PaymentStatusPending]),
            samplePayment PaymentStatusCompleted) ∧
    (samplePayment PaymentStatusCompleted).MarkCompleted 20
        = (some (Error.ErrInvalidTransition PaymentStatusCompleted
            [PaymentStatusProcessing, PaymentStatusPending]),
            samplePayment PaymentStatusCompleted) ∧
    (samplePayment PaymentStatusCompleted).MarkFailed (str "late") 20
        = (some (Error.ErrInvalidTransition PaymentStatusCompleted
            [PaymentStatusProcessing, PaymentStatusPending]),
            samplePayment PaymentStatusCompleted) :=
  terminal_states_absorbing (samplePayment PaymentStatusCompleted) (str "pi_2") (str "late") 20
    (Or.inl rfl)

/-- C2: MarkCompleted returns no error exactly when the status is Processing or
Pending. In that case the status becomes Completed, the update timestamp is
the current time, the staged events are the earlier ones followed by the one
event PaymentCompleted (payment id, appointment id, current processor
reference), and id, appointment id, payer, amount, currency, processor
reference, failure reason and creation timestamp are unchanged. In every
other status the error is InvalidTransition with From the current status and
Allowed = [Processing, Pending]. -/
theorem markCompleted_spec (p : Payment) (now : Time) :
    ((p.MarkCompleted now).1 = none ↔
      (p.Status = PaymentStatusProcessing ∨ p.Status = PaymentStatusPending)) ∧
    ((p.Status = PaymentStatusProcessing ∨ p.Status = PaymentStatusPending) →
      (p.MarkCompleted now).2.Status = PaymentStatusCompleted ∧
      (p.MarkCompleted now).2.UpdatedAt = some now ∧
      (p.MarkCompleted now).2.domainEvents = p.domainEvents ++
        [DomainEvent.PaymentCompletedEvent p.ID p.AppointmentID p.StripePaymentIntentID] ∧
      (p.MarkCompleted now).2.ID = p.ID ∧
      (p.MarkCompleted now).2.AppointmentID = p.AppointmentID ∧
      (p.MarkCompleted now).2.UserID = p.UserID ∧
      (p.MarkCompleted now).2.Amount = p.Amount ∧
      (p.MarkCompleted now).2.Currency = p.Currency ∧
      (p.MarkCompleted now).2.StripePaymentIntentID = p.StripePaymentIntentID ∧
      (p.MarkCompleted now).2.FailureReason = p.FailureReason ∧
      (p.MarkCompleted now).2.CreatedAt = p.CreatedAt) ∧
    (¬ (p.Status = PaymentStatusProcessing ∨ p.Status = PaymentStatusPending) →
      (p.MarkCompleted now).1 = some (Error.ErrInvalidTransition p.Status
        [PaymentStatusProcessing, PaymentStatusPending])) := by
  by_cases h : p.Status = PaymentStatusProcessing ∨ p.Status = PaymentStatusPending
  · have hm : p.Status ∈ [PaymentStatusProcessing, PaymentStatusPending] := by simpa using h
    simp [Payment.MarkCompleted, ensureStatus_of_mem p _ hm, Payment.addEvent, h]
  · have hm : ¬ p.Status ∈ [PaymentStatusProcessing, PaymentStatusPending] := by simpa using h
    simp [Payment.MarkCompleted, ensureStatus_of_not_mem p _ hm, h]

/-- C3: MarkFailed returns no error exactly when the status is Processing or
Pending. In that case the status becomes Failed, the failure reason is the
given reason, the update timestamp is the current time, the staged events are
the earlier ones followed by the one event PaymentFailed (payment id,
appointment id, reason), and every other field is unchanged. In every other
status the error is InvalidTransition with From the current status and
Allowed = [Processing, Pending]. -/
theorem markFailed_spec (p : Payment) (reason : GoString) (now : Time) :
    ((p.MarkFailed reason now).1 = none ↔
      (p.Status = PaymentStatusProcessing ∨ p.Status = PaymentStatusPending)) ∧
    ((p.Status = PaymentStatusProcessing ∨ p.Status = PaymentStatusPending) →
      (p.MarkFailed reason now).2.Status = PaymentStatusFailed ∧
      (p.MarkFailed reason now).2.FailureReason = reason ∧
      (p.MarkFailed reason now).2.UpdatedAt = some now ∧
      (p.MarkFailed reason now).2.domainEvents = p.domainEvents ++
        [DomainEvent.PaymentFailedEvent p.ID p.AppointmentID reason] ∧
      (p.MarkFailed reason now).2.ID = p.ID ∧
      (p.MarkFailed reason now).2.AppointmentID = p.AppointmentID ∧
      (p.MarkFailed reason now).2.UserID = p.UserID ∧
      (p.MarkFailed reason now).2.Amount = p.Amount ∧
      (p.MarkFailed reason now).2.Currency = p.Currency ∧
      (p.MarkFailed reason now).2.StripePaymentIntentID = p.StripePaymentIntentID ∧
      (p.MarkFailed reason now).2.CreatedAt = p.CreatedAt) ∧
    (¬ (p.Status = PaymentStatusProcessing ∨ p.Status = PaymentStatusPending) →
      (p.MarkFailed reason now).1 = some (Error.ErrInvalidTransition p.Status
        [PaymentStatusProcessing, PaymentStatusPending])) := by
  by_cases h : p.Status = PaymentStatusProcessing ∨ p.Status = PaymentStatusPending
  · have hm : p.Status ∈ [PaymentStatusProcessing, PaymentStatusPending] := by simpa using h
    simp [Payment.MarkFailed, ensureStatus_of_mem p _ hm, Payment.addEvent, h]
  · have hm : ¬ p.Status ∈ [PaymentStatusProcessing, PaymentStatusPending] := by simpa using h
    simp [Payment.MarkFailed, ensureStatus_of_not_mem p _ hm, h]

/-- C4: MarkProcessing returns no error exactly when the status is Pending (so
it fails from Processing). In that case the status becomes Processing, the
processor reference is the given one, the update timestamp is the current
time and the staged events are unchanged. In every other status the error is
InvalidTransition with From the current status and Allowed = [Pending]. -/
theorem markProcessing_spec (p : Payment) (ref : GoString) (now : Time) :
    ((p.MarkProcessing ref now).1 = none ↔ p.Status = PaymentStatusPending) ∧
    (p.Status = PaymentStatusProcessing → (p.MarkProcessing ref now).1 ≠ none) ∧
    (p.Status = PaymentStatusPending →
      (p.MarkProcessing ref now).2.Status = PaymentStatusProcessing ∧
      (p.MarkProcessing ref now).2.StripePaymentIntentID = ref ∧
      (p.MarkProcessing ref now).2.UpdatedAt = some now ∧
      (p.MarkProcessing ref now).2.domainEvents = p.domainEvents) ∧
    (p.Status ≠ PaymentStatusPending →
      (p.MarkProcessing ref now).1
        = some (Error.ErrInvalidTransition p.Status [PaymentStatusPending])) := by
  by_cases h : p.Status = PaymentStatusPending
  · have hm : p.Status ∈ [PaymentStatusPending] := by simpa using h
    have hne : ¬ PaymentStatusPending = PaymentStatusProcessing := by decide
    simp [Payment.MarkProcessing, ensureStatus_of_mem p _ hm, h, hne]
  · have hm : ¬ p.Status ∈ [PaymentStatusPending] := by simpa using h
    simp [Payment.MarkProcessing, ensureStatus_of_not_mem p _ hm, h]

/-- C5: for every appointment id, payer id, amount > 0 and non-empty currency
(and every fresh id and clock value), NewPayment returns a payment in status
Pending with empty processor reference, empty failure reason, no update
timestamp and exactly one staged event, which is PaymentCreated carrying the
new payment id and the appointment id, payer id, amount and currency as they
were given. -/
theorem newPayment_valid (newID : UUID) (now : Time) (appointmentID : UUID)
    (userID : GoString) (amount : Amount) (currency : GoString)
    (hAmount : 0 < amount) (hCurrency : currency ≠ []) :
    ∃ p, NewPayment newID now appointmentID userID amount currency = Except.ok p ∧
      p.ID = newID ∧
      p.Status = PaymentStatusPending ∧
      p.StripePaymentIntentID = [] ∧
      p.FailureReason = [] ∧
      p.UpdatedAt = none ∧
      p.domainEvents =
        [DomainEvent.PaymentCreatedEvent p.ID appointmentID userID amount currency] := by
  have hA : ¬ amount ≤ 0 := Amount.not_le_zero_of_pos amount hAmount
  simp [NewPayment, hA, hCurrency, Payment.addEvent]

theorem newPayment_valid_witness :
    ∃ p, NewPayment 7 10 3 (str "user-1") 100 (str "USD") = Except.ok p ∧
      p.ID = 7 ∧
      p.Status = PaymentStatusPending ∧
      p.StripePaymentIntentID = [] ∧
      p.FailureReason = [] ∧
      p.UpdatedAt = none ∧
      p.domainEvents =
        [DomainEvent.PaymentCreatedEvent p.ID 3 (str "user-1") 100 (str "USD")] :=
  newPayment_valid 7 10 3 (str "user-1") 100 (str "USD") (by decide) (by decide)

/-- C7: atomic write path. For every payment, if SaveEvents fails inside
Create (after the transaction was begun and the payment row was written in
it), then Create returns an error, the transaction is rolled back and never
committed, and the committed database is the one before the call: neither the
payment row nor any outbox entry written before the failure is persisted. -/
theorem create_rolls_back_when_saveEvents_fails (env : TxEnv) (w : World) (payment : Payment)
    (t1 t2 : Database) (err : Error)
    (hBegin : env.beginErr = none)
    (hRow : execInsertPayment env w.db payment = Except.ok t1)
    (hSave : SaveEvents env t1 payment.DomainEvents = (some err, t2)) :
    Create env w payment =
      (some (Error.Wrap (str "save outbox events") err),
        { db := w.db, log := w.log ++ [Call.Create payment.ID, Call.Begin, Call.Rollback] },
        payment) := by
  simp [Create, withTransaction, hBegin, createTx, hRow, hSave]

theorem create_rolls_back_when_saveEvents_fails_witness :
    Create sampleInsertFailsTxEnv emptyWorld sampleStagedPayment =
      (some (Error.Wrap (str "save outbox events")
        (Error.Wrap (str "insert outbox message") (Error.External (str "connection lost")))),
        { db := emptyWorld.db,
          log := emptyWorld.log ++ [Call.Create sampleStagedPayment.ID, Call.Begin, Call.Rollback] },
        sampleStagedPayment) :=
  create_rolls_back_when_saveEvents_fails sampleInsertFailsTxEnv emptyWorld sampleStagedPayment
    { payments := [sampleStagedPayment.toRow], outbox_messages := [] }
    { payments := [sampleStagedPayment.toRow],
      outbox_messages :=
        [{ ID := 1001, AggregateID := 7, Type_ := str "PaymentCompletedIntegrationEvent",
           Payload := str "payload", Processed := false, CreatedAt := 51, ProcessedAt := none,
           RetryCount := 0 }] }
    (Error.Wrap (str "insert outbox message") (Error.External (str "connection lost")))
    rfl rfl rfl

/-- C8, as stated, fails when the commit fails: Create (and Update) clear the
staged events inside the transaction function, before the commit. Here the
commit of Create fails, an error is returned, and the staged PaymentCreated
event is gone. -/
theorem staged_events_lost_when_commit_fails :
    (Create sampleCommitFailsTxEnv emptyWorld (samplePayment PaymentStatusPending)).1
        = some (Error.External (str "commit failed")) ∧
    (Create sampleCommitFailsTxEnv emptyWorld (samplePayment PaymentStatusPending)).2.2.domainEvents
        = [] ∧
    (samplePayment PaymentStatusPending).domainEvents
        = [DomainEvent.PaymentCreatedEvent 7 3 (str "user-1") 100 (str "usd")] ∧
    (Update sampleCommitFailsTxEnv sampleWorld (samplePayment PaymentStatusPending)).1
        = some (Error.External (str "commit failed")) ∧
    (Update sampleCommitFailsTxEnv sampleWorld (samplePayment PaymentStatusPending)).2.2.domainEvents
        = [] :=
  ⟨rfl, rfl, rfl, rfl, rfl⟩

/-- C8, amended: for every call of Create or Update in which the transaction
fails at begin, at the row write or at SaveEvents, the call returns an error
and the staged-event list of the aggregate after the call is the list before
the call. -/
theorem staged_events_kept_when_transaction_fails_before_commit (env : TxEnv) (w : World)
    (payment : Payment) :
    ((env.beginErr ≠ none ∨
      (∃ e, execInsertPayment env w.db payment = Except.error e) ∨
      (∃ t1 e t2, execInsertPayment env w.db payment = Except.ok t1 ∧
        SaveEvents env t1 payment.DomainEvents = (some e, t2))) →
      (Create env w payment).1 ≠ none ∧
      (Create env w payment).2.2.domainEvents = payment.domainEvents) ∧
    ((env.beginErr ≠ none ∨
      (∃ e, execUpdatePayment env w.db payment = Except.error e) ∨
      (∃ t1 e t2, execUpdatePayment env w.db payment = Except.ok t1 ∧
        SaveEvents env t1 payment.DomainEvents = (some e, t2))) →
      (Update env w payment).1 ≠ none ∧
      (Update env w payment).2.2.domainEvents = payment.domainEvents) := by
  constructor
  · intro h
    cases hb : env.beginErr with
    | some e => simp [Create, withTransaction, hb]
    | none =>
      rcases h with h | ⟨e, h⟩ | ⟨t1, e, t2, h1, h2⟩
      · exact absurd hb h
      · simp [Create, withTransaction, hb, createTx, h]
      · simp [Create, withTransaction, hb, createTx, h1, h2]
  · intro h
    cases hb : env.beginErr with
    | some e => simp [Update, withTransaction, hb]
    | none =>
      rcases h with h | ⟨e, h⟩ | ⟨t1, e, t2, h1, h2⟩
      · exact absurd hb h
      · simp [Update, withTransaction, hb, updateTx, h]
      · simp [Update, withTransaction, hb, updateTx, h1, h2]

theorem staged_events_kept_when_transaction_fails_before_commit_witness :
    ((Create sampleBeginFailsTxEnv emptyWorld sampleStagedPayment).1 ≠ none ∧
      (Create sampleBeginFailsTxEnv emptyWorld sampleStagedPayment).2.2.domainEvents
        = sampleStagedPayment.domainEvents) ∧
    ((Update sampleInsertFailsTxEnv sampleWorld sampleStagedPayment).1 ≠ none ∧
      (Update sampleInsertFailsTxEnv sampleWorld sampleStagedPayment).2.2.domainEvents
        = sampleStagedPayment.domainEvents) :=
  ⟨(staged_events_kept_when_transaction_fails_before_commit sampleBeginFailsTxEnv emptyWorld
      sampleStagedPayment).1 (Or.inl (by decide)),
   (staged_events_kept_when_transaction_fails_before_commit sampleInsertFailsTxEnv sampleWorld
      sampleStagedPayment).2
      (Or.inr (Or.inr ⟨{ payments := [sampleStagedPayment.toRow], outbox_messages := [] },
        Error.Wrap (str "insert outbox message") (Error.External (str "connection lost")),
        _, rfl, rfl⟩))⟩

/-! ## Claims on the CreatePayment handler -/

/-- C9: idempotent creation. For every valid command whose appointment id has a
stored payment (the lookup by appointment id returning it), the CreatePayment
handler returns that payment's id and current status with no error; the only
call it makes is the lookup, so there is no store Create, no store Update, no
dispatch of CompletePayment and no call of the processor, and the database is
unchanged. -/
theorem create_returns_existing_payment (mediator : Mediator) (env : CreatePayment.Env)
    (w : World) (cmd : CreatePayment.Command) (row : PaymentRow)
    (hValid : cmd.Validate = none)
    (hFind : env.findErr = none)
    (hRow : w.db.payments.find? (fun r => r.appointment_id = cmd.AppointmentID) = some row) :
    CreatePayment.Handle mediator env w cmd =
      (Except.ok
        { PaymentID := uuidString row.id, Status := (PaymentStatus.mk row.status).String },
        { db := w.db, log := w.log ++ [Call.FindByAppointmentID cmd.AppointmentID] }) := by
  simp [CreatePayment.Handle, hValid, FindByAppointmentID, scanPayment, hFind, hRow]

theorem create_returns_existing_payment_witness :
    CreatePayment.Handle (Mediator.mk true) (sampleCreateEnv 8) sampleWorld sampleCommand =
      (Except.ok { PaymentID := uuidString 7, Status := str "Completed" },
        { db := sampleWorld.db, log := [Call.FindByAppointmentID 3] }) :=
  create_returns_existing_payment (Mediator.mk true) (sampleCreateEnv 8) sampleWorld
    sampleCommand { (samplePayment PaymentStatusCompleted).toRow with id := 7 }
    (by decide) rfl rfl

/-- C10: for every valid command and every store state with no payment for its
appointment id, when the storage operations of creation succeed (whatever the
completion step and the processor do), running the CreatePayment handler
twice in sequence with the same command returns the same payment id both
times and leaves exactly one payment row for that appointment; the second run
leaves the database, and so the outbox, as the first run left it. -/
theorem create_twice_is_idempotent (mediator : Mediator) (env1 env2 : CreatePayment.Env)
    (w : World) (cmd : CreatePayment.Command)
    (hValid : cmd.Validate = none)
    (hNone : ∀ r ∈ w.db.payments, r.appointment_id ≠ cmd.AppointmentID)
    (hFresh : ∀ r ∈ w.db.payments, r.id ≠ env1.newID)
    (hFind1 : env1.findErr = none)
    (hBegin : env1.create.beginErr = none)
    (hExec : env1.create.execErr = none)
    (hCommit : env1.create.commitErr = none)
    (hFind2 : env2.findErr = none) :
    ∃ res1 res2,
      (CreatePayment.Handle mediator env1 w cmd).1 = Except.ok res1 ∧
      (CreatePayment.Handle mediator env2 (CreatePayment.Handle mediator env1 w cmd).2 cmd).1
        = Except.ok res2 ∧
      res1.PaymentID = res2.PaymentID ∧
      ((CreatePayment.Handle mediator env2
          (CreatePayment.Handle mediator env1 w cmd).2 cmd).2.db.payments.filter
        (fun r => r.appointment_id = cmd.AppointmentID)).length = 1 ∧
      (CreatePayment.Handle mediator env2
          (CreatePayment.Handle mediator env1 w cmd).2 cmd).2.db.outbox_messages
        = (CreatePayment.Handle mediator env1 w cmd).2.db.outbox_messages ∧
      (CreatePayment.Handle mediator env2 (CreatePayment.Handle mediator env1 w cmd).2 cmd).2.db
        = (CreatePayment.Handle mediator env1 w cmd).2.db := by
  obtain ⟨res1, h1, hid1, hkeys⟩ :=
    handle_new mediator env1 w cmd hValid hNone hFresh hFind1 hBegin hExec hCommit
  have hnoKey : ∀ k ∈ paymentKeys w.db.payments, ¬ k.2 = cmd.AppointmentID := by
    intro k hk
    simp only [paymentKeys, List.mem_map] at hk
    obtain ⟨r, hr, rfl⟩ := hk
    exact hNone r hr
  have hfind : (paymentKeys (CreatePayment.Handle mediator env1 w cmd).2.db.payments).find?
      (fun k => k.2 = cmd.AppointmentID) = some (env1.newID, cmd.AppointmentID) := by
    rw [hkeys, List.find?_append]
    have : (paymentKeys w.db.payments).find? (fun k => k.2 = cmd.AppointmentID) = none := by
      simp only [List.find?_eq_none, decide_eq_true_eq]
      exact hnoKey
    simp [this]
  obtain ⟨res2, h2, hid2⟩ := handle_existing mediator env2
    (CreatePayment.Handle mediator env1 w cmd).2 cmd env1.newID hValid hFind2 hfind
  refine ⟨res1, res2, h1, by rw [h2], by rw [hid1, hid2], ?_, by rw [h2], by rw [h2]⟩
  rw [h2]
  simp only []
  rw [filter_keys_length, hkeys, List.filter_append]
  have : (paymentKeys w.db.payments).filter (fun k => k.2 = cmd.AppointmentID) = [] := by
    simp only [List.filter_eq_nil_iff, decide_eq_true_eq]
    exact hnoKey
  simp [this]

theorem create_twice_is_idempotent_witness :
    ∃ res1 res2,
      (CreatePayment.Handle (Mediator.mk true) (sampleCreateEnv 7) emptyWorld sampleCommand).1
        = Except.ok res1 ∧
      (CreatePayment.Handle (Mediator.mk true) (sampleCreateEnv 8)
        (CreatePayment.Handle (Mediator.mk true) (sampleCreateEnv 7) emptyWorld
          sampleCommand).2 sampleCommand).1 = Except.ok res2 ∧
      res1.PaymentID = res2.PaymentID ∧
      ((CreatePayment.Handle (Mediator.mk true) (sampleCreateEnv 8)
        (CreatePayment.Handle (Mediator.mk true) (sampleCreateEnv 7) emptyWorld
          sampleCommand).2 sampleCommand).2.db.payments.filter
        (fun r => r.appointment_id = sampleCommand.AppointmentID)).length = 1 ∧
      (CreatePayment.Handle (Mediator.mk true) (sampleCreateEnv 8)
        (CreatePayment.Handle (Mediator.mk true) (sampleCreateEnv 7) emptyWorld
          sampleCommand).2 sampleCommand).2.db.outbox_messages
        = (CreatePayment.Handle (Mediator.mk true) (sampleCreateEnv 7) emptyWorld
          sampleCommand).2.db.outbox_messages ∧
      (CreatePayment.Handle (Mediator.mk true) (sampleCreateEnv 8)
        (CreatePayment.Handle (Mediator.mk true) (sampleCreateEnv 7) emptyWorld
          sampleCommand).2 sampleCommand).2.db
        = (CreatePayment.Handle (Mediator.mk true) (sampleCreateEnv 7) emptyWorld
          sampleCommand).2.db :=
  create_twice_is_idempotent (Mediator.mk true) (sampleCreateEnv 7) (sampleCreateEnv 8)
    emptyWorld sampleCommand (by decide) (by simp [emptyWorld]) (by simp [emptyWorld])
    rfl rfl rfl rfl rfl


/-! ## Lemmas on the completion step -/

theorem find_appended_row (l : List PaymentRow) (row : PaymentRow) (id : UUID)
    (hOld : ∀ r ∈ l, r.id ≠ id) (hRow : row.id = id) :
    (l ++ [row]).find? (fun r => r.id = id) = some row := by
  have hnone : l.find? (fun r => decide (r.id = id)) = none := by
    simp only [List.find?_eq_none, decide_eq_true_eq]
    exact hOld
  simp [List.find?_append, hnone, List.find?, hRow]

theorem map_appended_row (l : List PaymentRow) (row : PaymentRow) (f : PaymentRow → PaymentRow)
    (hOld : ∀ r ∈ l, f r = r) : (l ++ [row]).map f = l ++ [f row] := by
  rw [List.map_append]
  congr 1
  conv_rhs => rw [← List.map_id l]
  exact List.map_congr_left hOld

theorem saveEvents_completed (env : TxEnv) (t : Database) (id appt : UUID) (ref : GoString)
    (payload : List Nat)
    (hMarshal : env.marshal (IntegrationEvent.PaymentCompletedIntegrationEvent (uuidString id)
      (uuidString appt) (str "Completed") ref) = Except.ok payload)
    (hInsert : (env.events 0).insertErr = none)
    (hFresh : ∀ m ∈ t.outbox_messages, m.ID ≠ (env.events 0).newID) :
    SaveEvents env t [DomainEvent.PaymentCompletedEvent id appt ref] =
      (none, { t with outbox_messages := t.outbox_messages ++
        [{ ID := (env.events 0).newID, AggregateID := id,
           Type_ := str "PaymentCompletedIntegrationEvent", Payload := payload,
           Processed := false, CreatedAt := (env.events 0).now, ProcessedAt := none,
           RetryCount := 0 }] }) := by
  have hany := any_eq_false_of_forall_ne t.outbox_messages (fun m => m.ID)
    (env.events 0).newID hFresh
  simp [SaveEvents, saveEventsLoop, toOutboxMessage, hMarshal, execInsertOutbox, hInsert, hany]

theorem saveEvents_failed (env : TxEnv) (t : Database) (id appt : UUID) (reason : GoString)
    (payload : List Nat)
    (hMarshal : env.marshal (IntegrationEvent.PaymentFailedIntegrationEvent (uuidString id)
      (uuidString appt) reason) = Except.ok payload)
    (hInsert : (env.events 0).insertErr = none)
    (hFresh : ∀ m ∈ t.outbox_messages, m.ID ≠ (env.events 0).newID) :
    SaveEvents env t [DomainEvent.PaymentFailedEvent id appt reason] =
      (none, { t with outbox_messages := t.outbox_messages ++
        [{ ID := (env.events 0).newID, AggregateID := id,
           Type_ := str "PaymentFailedIntegrationEvent", Payload := payload,
           Processed := false, CreatedAt := (env.events 0).now, ProcessedAt := none,
           RetryCount := 0 }] }) := by
  have hany := any_eq_false_of_forall_ne t.outbox_messages (fun m => m.ID)
    (env.events 0).newID hFresh
  simp [SaveEvents, saveEventsLoop, toOutboxMessage, hMarshal, execInsertOutbox, hInsert, hany]

theorem completeHandle_failed (env : CompletePayment.Env) (w : World)
    (cmd : CompletePayment.Command) (row : PaymentRow) (e : Error) (payload : List Nat)
    (hFind : env.findErr = none)
    (hRow : w.db.payments.find? (fun r => r.id = cmd.PaymentID) = some row)
    (hPending : row.status = 0)
    (hStripe : env.stripe = Except.error e)
    (hBegin : env.update.beginErr = none)
    (hExec : env.update.execErr = none)
    (hCommit : env.update.commitErr = none)
    (hMarshal : env.update.marshal (IntegrationEvent.PaymentFailedIntegrationEvent
      (uuidString row.id) (uuidString row.appointment_id) (str "Stripe error: " ++ e.Error))
      = Except.ok payload)
    (hInsert : (env.update.events 0).insertErr = none)
    (hFresh : ∀ m ∈ w.db.outbox_messages, m.ID ≠ (env.update.events 0).newID) :
    CompletePayment.Handle env w cmd =
      (Except.ok
        { PaymentID := uuidString row.id
          Status := str "Failed"
          TransactionID := row.stripe_payment_intent_id.getD [] },
        { db :=
            { payments := w.db.payments.map (fun r =>
                if r.id = row.id then
                  { r with
                    status := 3
                    stripe_payment_intent_id := nilIfEmpty (row.stripe_payment_intent_id.getD [])
                    failure_reason := nilIfEmpty (str "Stripe error: " ++ e.Error)
                    updated_at := some env.now1 }
                else r)
              outbox_messages := w.db.outbox_messages ++
                [{ ID := (env.update.events 0).newID, AggregateID := row.id,
                   Type_ := str "PaymentFailedIntegrationEvent", Payload := payload,
                   Processed := false, CreatedAt := (env.update.events 0).now,
                   ProcessedAt := none, RetryCount := 0 }] }
          log := w.log ++
            [Call.FindByID cmd.PaymentID,
             Call.CreatePaymentIntent row.amount row.currency row.appointment_id,
             Call.Update row.id, Call.Begin, Call.Commit] }) := by
  have hs := saveEvents_failed env.update
    { payments := w.db.payments.map (fun r =>
        if r.id = row.id then
          { r with
            status := 3
            stripe_payment_intent_id := nilIfEmpty (row.stripe_payment_intent_id.getD [])
            failure_reason := nilIfEmpty (str "Stripe error: " ++ e.Error)
            updated_at := some env.now1 }
        else r)
      outbox_messages := w.db.outbox_messages }
    row.id row.appointment_id (str "Stripe error: " ++ e.Error) payload hMarshal hInsert hFresh
  have hst : ensureStatusLoop ⟨0⟩ [PaymentStatusProcessing, PaymentStatusPending] = true := by
    decide
  have hstr : PaymentStatusFailed.String = str "Failed" := by decide
  have hval : PaymentStatusFailed.val = 3 := rfl
  simp only [CompletePayment.Handle, FindByID, scanPayment, hFind, hRow,
    CompletePayment.transition, hStripe, Payment.MarkFailed, Payment.ensureStatus, hPending, hst,
    if_true, Payment.addEvent, Update, withTransaction, hBegin, updateTx, execUpdatePayment,
    hExec, Payment.DomainEvents, List.nil_append, hval, hs, hCommit, Payment.ClearDomainEvents,
    hstr, List.append_assoc, List.cons_append]

theorem completeHandle_completed (env : CompletePayment.Env) (w : World)
    (cmd : CompletePayment.Command) (row : PaymentRow) (ref : GoString) (payload : List Nat)
    (hFind : env.findErr = none)
    (hRow : w.db.payments.find? (fun r => r.id = cmd.PaymentID) = some row)
    (hPending : row.status = 0)
    (hStripe : env.stripe = Except.ok ref)
    (hBegin : env.update.beginErr = none)
    (hExec : env.update.execErr = none)
    (hCommit : env.update.commitErr = none)
    (hMarshal : env.update.marshal (IntegrationEvent.PaymentCompletedIntegrationEvent
      (uuidString row.id) (uuidString row.appointment_id) (str "Completed") ref)
      = Except.ok payload)
    (hInsert : (env.update.events 0).insertErr = none)
    (hFresh : ∀ m ∈ w.db.outbox_messages, m.ID ≠ (env.update.events 0).newID) :
    CompletePayment.Handle env w cmd =
      (Except.ok
        { PaymentID := uuidString row.id
          Status := str "Completed"
          TransactionID := ref },
        { db :=
            { payments := w.db.payments.map (fun r =>
                if r.id = row.id then
                  { r with
                    status := 2
                    stripe_payment_intent_id := nilIfEmpty ref
                    failure_reason := nilIfEmpty (row.failure_reason.getD [])
                    updated_at := some env.now2 }
                else r)
              outbox_messages := w.db.outbox_messages ++
                [{ ID := (env.update.events 0).newID, AggregateID := row.id,
                   Type_ := str "PaymentCompletedIntegrationEvent", Payload := payload,
                   Processed := false, CreatedAt := (env.update.events 0).now,
                   ProcessedAt := none, RetryCount := 0 }] }
          log := w.log ++
            [Call.FindByID cmd.PaymentID,
             Call.CreatePaymentIntent row.amount row.currency row.appointment_id,
             Call.Update row.id, Call.Begin, Call.Commit] }) := by
  have hs := saveEvents_completed env.update
    { payments := w.db.payments.map (fun r =>
        if r.id = row.id then
          { r with
            status := 2
            stripe_payment_intent_id := nilIfEmpty ref
            failure_reason := nilIfEmpty (row.failure_reason.getD [])
            updated_at := some env.now2 }
        else r)
      outbox_messages := w.db.outbox_messages }
    row.id row.appointment_id ref payload hMarshal hInsert hFresh
  have hst1 : ensureStatusLoop ⟨0⟩ [PaymentStatusPending] = true := by decide
  have hst2 : ensureStatusLoop PaymentStatusProcessing
      [PaymentStatusProcessing, PaymentStatusPending] = true := by decide
  have hstr : PaymentStatusCompleted.String = str "Completed" := by decide
  have hval : PaymentStatusCompleted.val = 2 := rfl
  simp only [CompletePayment.Handle, FindByID, scanPayment, hFind, hRow,
    CompletePayment.transition, hStripe, Payment.MarkProcessing, Payment.MarkCompleted,
    Payment.ensureStatus, hPending, hst1, hst2,
    if_true, Payment.addEvent, Update, withTransaction, hBegin, updateTx, execUpdatePayment,
    hExec, Payment.DomainEvents, List.nil_append, hval, hs, hCommit, Payment.ClearDomainEvents,
    hstr, List.append_assoc, List.cons_append]

theorem find_updated_row (l : List PaymentRow) (row : PaymentRow) (id : UUID)
    (f : PaymentRow → PaymentRow) (hf : ∀ r, (f r).id = r.id)
    (h : l.find? (fun r => r.id = id) = some row) :
    (l.map f).find? (fun r => r.id = id) = some (f row) := by
  induction l with
  | nil => simp at h
  | cons r rest ih =>
    by_cases hr : r.id = id
    · simp only [List.find?, hr, decide_True, Option.some.injEq] at h
      subst h
      simp [List.find?, hf, hr]
    · simp only [List.find?, hr, decide_False] at h
      simp [List.find?, hf, hr, ih h]

/-! ## Claims on the handlers: races, end-to-end outcomes, errors -/

/-- C11, as stated, fails: when the pre-check finds no payment and another task
then commits a payment for the same appointment, the insert of the handler
fails on the uniqueness constraint of `appointment_id` and the handler returns
that error, not the id and status of the winner (id 9, Completed). -/
theorem lost_race_returns_error :
    (CreatePayment.HandleRaced (Mediator.mk true) (sampleCreateEnv 7) sampleWinner emptyWorld
        sampleCommand).1
      = Except.error (Error.Wrap (str "persist payment") (Error.Wrap (str "insert payment")
          (uniqueViolation "payments_appointment_id_key"))) ∧
    (CreatePayment.HandleRaced (Mediator.mk true) (sampleCreateEnv 7) sampleWinner emptyWorld
        sampleCommand).1
      ≠ Except.ok { PaymentID := uuidString 9, Status := str "Completed" } ∧
    (FindByAppointmentID none emptyWorld sampleCommand.AppointmentID).1 = Except.ok none :=
  ⟨rfl,
   fun h => Except.noConfusion
     (show (Except.error (Error.Wrap (str "persist payment") (Error.Wrap (str "insert payment")
         (uniqueViolation "payments_appointment_id_key"))) : Except Error CreatePayment.Result)
       = Except.ok { PaymentID := uuidString 9, Status := str "Completed" } from h),
   rfl⟩

/-- C11, amended: when the pre-check of the CreatePayment handler finds no
payment for the appointment id but the subsequent insert fails on the
appointment-id uniqueness constraint (another task committed a payment for the
appointment in between), the handler returns an error that wraps the
constraint violation; the transaction is rolled back, CompletePayment is not
dispatched, and the database is as the other task left it. -/
theorem lost_race_is_reported (mediator : Mediator) (env : CreatePayment.Env)
    (concurrent : Database → Database) (w : World) (cmd : CreatePayment.Command)
    (hValid : cmd.Validate = none)
    (hFind : env.findErr = none)
    (hNone : ∀ r ∈ w.db.payments, r.appointment_id ≠ cmd.AppointmentID)
    (hBegin : env.create.beginErr = none)
    (hExec : env.create.execErr = none)
    (hFresh : ∀ r ∈ (concurrent w.db).payments, r.id ≠ env.newID)
    (hWinner : ∃ r ∈ (concurrent w.db).payments, r.appointment_id = cmd.AppointmentID) :
    CreatePayment.HandleRaced mediator env concurrent w cmd =
      (Except.error (Error.Wrap (str "persist payment") (Error.Wrap (str "insert payment")
          (uniqueViolation "payments_appointment_id_key"))),
        { db := concurrent w.db,
          log := w.log ++ [Call.FindByAppointmentID cmd.AppointmentID, Call.Create env.newID,
            Call.Begin, Call.Rollback] }) := by
  obtain ⟨hA, hC⟩ := validate_amount_currency cmd hValid
  have hA2 : ¬ cmd.Amount ≤ 0 := hA
  have hrow : w.db.payments.find? (fun r => r.appointment_id = cmd.AppointmentID) = none := by
    simp only [List.find?_eq_none, decide_eq_true_eq]
    exact hNone
  have h1 := any_eq_false_of_forall_ne (concurrent w.db).payments (fun r => r.id) env.newID hFresh
  have h2 : (concurrent w.db).payments.any (fun r => decide (r.appointment_id = cmd.AppointmentID))
      = true := by
    simp only [List.any_eq_true, decide_eq_true_eq]
    exact hWinner
  simp [CreatePayment.HandleRaced, hValid, FindByAppointmentID, scanPayment, hFind, hrow,
    NewPayment, hA2, hC, Payment.addEvent, Create, withTransaction, hBegin, createTx,
    execInsertPayment, hExec, h1, h2]

theorem lost_race_is_reported_witness :
    CreatePayment.HandleRaced (Mediator.mk true) (sampleCreateEnv 7) sampleWinner emptyWorld
        sampleCommand =
      (Except.error (Error.Wrap (str "persist payment") (Error.Wrap (str "insert payment")
          (uniqueViolation "payments_appointment_id_key"))),
        { db := sampleWinner emptyWorld.db,
          log := emptyWorld.log ++ [Call.FindByAppointmentID sampleCommand.AppointmentID,
            Call.Create (sampleCreateEnv 7).newID, Call.Begin, Call.Rollback] }) :=
  lost_race_is_reported (Mediator.mk true) (sampleCreateEnv 7) sampleWinner emptyWorld
    sampleCommand (by decide) rfl (by simp [emptyWorld]) rfl rfl (by decide) (by decide)

theorem handleRaced_without_interference (mediator : Mediator) (env : CreatePayment.Env)
    (w : World) (cmd : CreatePayment.Command) :
    CreatePayment.HandleRaced mediator env (fun db => db) w cmd
      = CreatePayment.Handle mediator env w cmd := rfl

/-- C12: end-to-end success. For every valid command for an appointment with no
stored payment, when the storage operations succeed (queries, both
transactions, the encoding and the insert of the outbox entry, fresh ids) and
the processor returns the reference `ref`, the CreatePayment handler (wired
to the CompletePayment handler as in main.go) returns the new payment id with
status "Completed"; the stored payment has status Completed and processor
reference `ref`; and the outbox gains exactly one entry, of type
"PaymentCompletedIntegrationEvent" with the payment id as aggregate id (the
PaymentCreated event adds none). -/
theorem create_then_complete_succeeds (mediator : Mediator) (env : CreatePayment.Env)
    (w : World) (cmd : CreatePayment.Command) (ref : GoString) (payload : List Nat)
    (hValid : cmd.Validate = none)
    (hNone : ∀ r ∈ w.db.payments, r.appointment_id ≠ cmd.AppointmentID)
    (hFresh : ∀ r ∈ w.db.payments, r.id ≠ env.newID)
    (hWired : mediator.completeRegistered = true)
    (hFind : env.findErr = none)
    (hBegin : env.create.beginErr = none)
    (hExec : env.create.execErr = none)
    (hCommit : env.create.commitErr = none)
    (hFind2 : env.complete.findErr = none)
    (hStripe : env.complete.stripe = Except.ok ref)
    (hBegin2 : env.complete.update.beginErr = none)
    (hExec2 : env.complete.update.execErr = none)
    (hCommit2 : env.complete.update.commitErr = none)
    (hMarshal : env.complete.update.marshal (IntegrationEvent.PaymentCompletedIntegrationEvent
      (uuidString env.newID) (uuidString cmd.AppointmentID) (str "Completed") ref)
      = Except.ok payload)
    (hInsert : (env.complete.update.events 0).insertErr = none)
    (hFreshMsg : ∀ m ∈ w.db.outbox_messages, m.ID ≠ (env.complete.update.events 0).newID) :
    (CreatePayment.Handle mediator env w cmd).1
      = Except.ok { PaymentID := uuidString env.newID, Status := str "Completed" } ∧
    (∃ row, (CreatePayment.Handle mediator env w cmd).2.db.payments.find?
        (fun r => r.id = env.newID) = some row ∧
      row.appointment_id = cmd.AppointmentID ∧
      row.status = PaymentStatusCompleted.val ∧
      row.stripe_payment_intent_id.getD [] = ref) ∧
    (∃ entry, (CreatePayment.Handle mediator env w cmd).2.db.outbox_messages
        = w.db.outbox_messages ++ [entry] ∧
      entry.Type_ = str "PaymentCompletedIntegrationEvent" ∧
      entry.AggregateID = env.newID ∧
      entry.Payload = payload ∧
      entry.Processed = false ∧
      entry.RetryCount = 0) := by
  obtain ⟨hA, hC⟩ := validate_amount_currency cmd hValid
  have hA2 : ¬ cmd.Amount ≤ 0 := hA
  have hrow : w.db.payments.find? (fun r => r.appointment_id = cmd.AppointmentID) = none := by
    simp only [List.find?_eq_none, decide_eq_true_eq]
    exact hNone
  obtain ⟨p, hp, hpid, hpst, hpref, hpfail, hpupd, hpev⟩ :=
    newPayment_ok env.newID env.now cmd.AppointmentID cmd.UserID cmd.Amount cmd.Currency hA hC
  have hpappt : p.AppointmentID = cmd.AppointmentID := by
    simp only [NewPayment, hA2, hC, if_false] at hp
    have := (Except.ok.inj hp).symm
    subst this
    rfl
  have hcreate := Create_new env.create
    { db := w.db, log := w.log ++ [Call.FindByAppointmentID cmd.AppointmentID] } p
    p.ID cmd.AppointmentID cmd.UserID cmd.Amount cmd.Currency hpev hBegin hExec hCommit
    (by rw [hpid]; exact hFresh) (by rw [hpappt]; exact hNone)
  have hfound : (w.db.payments ++ [p.toRow]).find? (fun r => r.id = p.ID) = some p.toRow :=
    find_appended_row w.db.payments p.toRow p.ID (by rw [hpid]; exact hFresh) rfl
  have hcomplete := completeHandle_completed env.complete
    { db := { payments := w.db.payments ++ [p.toRow],
              outbox_messages := w.db.outbox_messages },
      log := ((w.log ++ [Call.FindByAppointmentID cmd.AppointmentID]) ++
        [Call.Create p.ID, Call.Begin, Call.Commit]) ++ [Call.Send p.ID] }
    { PaymentID := p.ID } p.toRow ref payload hFind2 hfound
    (by simp [Payment.toRow, hpst, PaymentStatusPending]) hStripe hBegin2 hExec2 hCommit2
    (by simpa [Payment.toRow, hpid, hpappt] using hMarshal) hInsert hFreshMsg
  have hmap := map_appended_row w.db.payments p.toRow (fun r =>
      if r.id = p.toRow.id then
        { r with
          status := 2
          stripe_payment_intent_id := nilIfEmpty ref
          failure_reason := nilIfEmpty (p.toRow.failure_reason.getD [])
          updated_at := some env.complete.now2 }
      else r)
    (by
      intro r hr
      have : ¬ r.id = p.toRow.id := by
        simp only [Payment.toRow, hpid]
        exact hFresh r hr
      simp [this])
  have hhandle : CreatePayment.Handle mediator env w cmd =
      (Except.ok { PaymentID := uuidString p.toRow.id, Status := str "Completed" },
        { db :=
            { payments := w.db.payments ++
                [{ p.toRow with
                    status := 2
                    stripe_payment_intent_id := nilIfEmpty ref
                    failure_reason := nilIfEmpty (p.toRow.failure_reason.getD [])
                    updated_at := some env.complete.now2 }]
              outbox_messages := w.db.outbox_messages ++
                [{ ID := (env.complete.update.events 0).newID, AggregateID := p.toRow.id,
                   Type_ := str "PaymentCompletedIntegrationEvent", Payload := payload,
                   Processed := false, CreatedAt := (env.complete.update.events 0).now,
                   ProcessedAt := none, RetryCount := 0 }] }
          log := (((w.log ++ [Call.FindByAppointmentID cmd.AppointmentID]) ++
              [Call.Create p.ID, Call.Begin, Call.Commit]) ++ [Call.Send p.ID]) ++
            [Call.FindByID p.ID,
             Call.CreatePaymentIntent p.toRow.amount p.toRow.currency p.toRow.appointment_id,
             Call.Update p.toRow.id, Call.Begin, Call.Commit] }) := by
    simp only [CreatePayment.Handle, hValid, FindByAppointmentID, scanPayment, hFind, hrow, hp,
      hcreate, Mediator.Send, hWired, if_true, Payment.ClearDomainEvents, hcomplete]
    rw [hmap]
    simp
  rw [hhandle]
  have hrid : p.toRow.id = env.newID := by simp [Payment.toRow, hpid]
  refine ⟨by simp [hrid], ?_, ?_⟩
  · refine ⟨_, find_appended_row w.db.payments _ env.newID hFresh hrid, ?_, rfl, ?_⟩
    · simp [Payment.toRow, hpappt]
    · unfold nilIfEmpty
      by_cases hr : ref = [] <;> simp [hr]
  · exact ⟨_, rfl, rfl, hrid, rfl, rfl, rfl⟩

theorem create_then_complete_succeeds_witness :
    (CreatePayment.Handle (Mediator.mk true) (sampleCreateEnv 7) emptyWorld sampleCommand).1
      = Except.ok { PaymentID := uuidString (sampleCreateEnv 7).newID, Status := str "Completed" } ∧
    (∃ row, (CreatePayment.Handle (Mediator.mk true) (sampleCreateEnv 7) emptyWorld
        sampleCommand).2.db.payments.find?
        (fun r => r.id = (sampleCreateEnv 7).newID) = some row ∧
      row.appointment_id = sampleCommand.AppointmentID ∧
      row.status = PaymentStatusCompleted.val ∧
      row.stripe_payment_intent_id.getD [] = str "pi_abc") ∧
    (∃ entry, (CreatePayment.Handle (Mediator.mk true) (sampleCreateEnv 7) emptyWorld
        sampleCommand).2.db.outbox_messages
        = emptyWorld.db.outbox_messages ++ [entry] ∧
      entry.Type_ = str "PaymentCompletedIntegrationEvent" ∧
      entry.AggregateID = (sampleCreateEnv 7).newID ∧
      entry.Payload = str "payload" ∧
      entry.Processed = false ∧
      entry.RetryCount = 0) :=
  create_then_complete_succeeds (Mediator.mk true) (sampleCreateEnv 7) emptyWorld sampleCommand
    (str "pi_abc") (str "payload") (by decide) (by simp [emptyWorld]) (by simp [emptyWorld])
    rfl rfl rfl rfl rfl rfl rfl rfl rfl rfl rfl rfl (by simp [emptyWorld])

/-- C13: processor errors are recovered locally. For every stored payment in
status Pending, when the processor call fails and the storage operations
succeed (the query, the transaction of Update, the encoding and the insert of
the outbox entry, a fresh entry id), the CompletePayment handler returns no
error, the status of its result is "Failed", the stored payment has status
Failed, and the outbox gains exactly one entry, of type
"PaymentFailedIntegrationEvent". -/
theorem complete_recovers_processor_error (env : CompletePayment.Env) (w : World)
    (cmd : CompletePayment.Command) (row : PaymentRow) (e : Error) (payload : List Nat)
    (hFind : env.findErr = none)
    (hRow : w.db.payments.find? (fun r => r.id = cmd.PaymentID) = some row)
    (hPending : row.status = PaymentStatusPending.val)
    (hStripe : env.stripe = Except.error e)
    (hBegin : env.update.beginErr = none)
    (hExec : env.update.execErr = none)
    (hCommit : env.update.commitErr = none)
    (hMarshal : env.update.marshal (IntegrationEvent.PaymentFailedIntegrationEvent
      (uuidString row.id) (uuidString row.appointment_id) (str "Stripe error: " ++ e.Error))
      = Except.ok payload)
    (hInsert : (env.update.events 0).insertErr = none)
    (hFresh : ∀ m ∈ w.db.outbox_messages, m.ID ≠ (env.update.events 0).newID) :
    (∃ result, (CompletePayment.Handle env w cmd).1 = Except.ok result ∧
      result.PaymentID = uuidString cmd.PaymentID ∧ result.Status = str "Failed") ∧
    (∃ stored, (CompletePayment.Handle env w cmd).2.db.payments.find?
        (fun r => r.id = cmd.PaymentID) = some stored ∧
      stored.status = PaymentStatusFailed.val) ∧
    (∀ r ∈ (CompletePayment.Handle env w cmd).2.db.payments,
      r.id = cmd.PaymentID → r.status = PaymentStatusFailed.val) ∧
    (∃ entry, (CompletePayment.Handle env w cmd).2.db.outbox_messages
        = w.db.outbox_messages ++ [entry] ∧
      entry.Type_ = str "PaymentFailedIntegrationEvent" ∧
      entry.AggregateID = cmd.PaymentID ∧
      entry.Processed = false ∧
      entry.RetryCount = 0) := by
  have hid : row.id = cmd.PaymentID := by simpa using List.find?_some hRow
  rw [completeHandle_failed env w cmd row e payload hFind hRow hPending hStripe hBegin hExec
    hCommit hMarshal hInsert hFresh]
  refine ⟨⟨_, rfl, by simp [hid], rfl⟩, ?_, ?_, ⟨_, rfl, rfl, hid, rfl, rfl⟩⟩
  · refine ⟨_, find_updated_row w.db.payments row cmd.PaymentID _ ?_ hRow, ?_⟩
    · intro r
      by_cases hr : r.id = row.id <;> simp [hr]
    · simp [PaymentStatusFailed]
  · intro r hr hrid
    simp only [List.mem_map] at hr
    obtain ⟨r0, _, rfl⟩ := hr
    by_cases h0 : r0.id = row.id
    · simp [h0, PaymentStatusFailed]
    · simp only [h0, if_false] at hrid
      exact absurd (hrid.trans hid.symm) h0

theorem complete_recovers_processor_error_witness :
    (∃ result, (CompletePayment.Handle sampleDeclinedEnv samplePendingWorld
        (CompletePayment.Command.mk 7)).1 = Except.ok result ∧
      result.PaymentID = uuidString 7 ∧ result.Status = str "Failed") ∧
    (∃ stored, (CompletePayment.Handle sampleDeclinedEnv samplePendingWorld
        (CompletePayment.Command.mk 7)).2.db.payments.find?
        (fun r => r.id = 7) = some stored ∧
      stored.status = PaymentStatusFailed.val) ∧
    (∀ r ∈ (CompletePayment.Handle sampleDeclinedEnv samplePendingWorld
        (CompletePayment.Command.mk 7)).2.db.payments,
      r.id = 7 → r.status = PaymentStatusFailed.val) ∧
    (∃ entry, (CompletePayment.Handle sampleDeclinedEnv samplePendingWorld
        (CompletePayment.Command.mk 7)).2.db.outbox_messages
        = samplePendingWorld.db.outbox_messages ++ [entry] ∧
      entry.Type_ = str "PaymentFailedIntegrationEvent" ∧
      entry.AggregateID = 7 ∧
      entry.Processed = false ∧
      entry.RetryCount = 0) :=
  complete_recovers_processor_error sampleDeclinedEnv samplePendingWorld
    (CompletePayment.Command.mk 7)
    { id := 7, appointment_id := 3, user_id := str "user-1", amount := 50,
      currency := str "usd", status := 0, stripe_payment_intent_id := none,
      failure_reason := none, created_at := 20, updated_at := none }
    (Error.External (str "card_declined")) (str "payload")
    rfl rfl rfl rfl rfl rfl rfl rfl rfl (by simp [samplePendingWorld])

/-- C14, as stated, fails: the handler records the processor's message behind
the text "Stripe error: ". With the processor failing with the message
`card_declined`, the failure reason of the payment, the reason carried by the
PaymentFailed event and the stored failure reason are all
"Stripe error: card_declined". -/
theorem failure_reason_is_not_the_bare_message :
    (Error.External (str "card_declined")).Error = str "card_declined" ∧
    (CompletePayment.transition sampleDeclinedEnv (samplePayment PaymentStatusPending)).toOption.map
        (fun p => (p.FailureReason, p.domainEvents.getLast?))
      = some (str "Stripe error: card_declined",
          some (DomainEvent.PaymentFailedEvent 7 3 (str "Stripe error: card_declined"))) ∧
    (CompletePayment.Handle sampleDeclinedEnv samplePendingWorld
        (CompletePayment.Command.mk 7)).2.db.payments.map (fun r => r.failure_reason)
      = [some (str "Stripe error: card_declined")] ∧
    str "Stripe error: card_declined" ≠ str "card_declined" :=
  ⟨rfl, rfl, rfl, by decide⟩

/-- C14, amended: when the processor fails with an error whose message is m,
the failure reason that the CompletePayment handler records on a payment in
status Pending or Processing, and that the staged PaymentFailed event
carries, is "Stripe error: " followed by m; and for a stored Pending payment,
when the storage operations succeed, that text is the stored failure reason
and the reason of the integration event encoded in the outbox entry. -/
theorem failure_reason_is_prefixed_message (env : CompletePayment.Env) (w : World)
    (cmd : CompletePayment.Command) (row : PaymentRow) (e : Error) (payload : List Nat)
    (hFind : env.findErr = none)
    (hRow : w.db.payments.find? (fun r => r.id = cmd.PaymentID) = some row)
    (hPending : row.status = PaymentStatusPending.val)
    (hStripe : env.stripe = Except.error e)
    (hBegin : env.update.beginErr = none)
    (hExec : env.update.execErr = none)
    (hCommit : env.update.commitErr = none)
    (hMarshal : env.update.marshal (IntegrationEvent.PaymentFailedIntegrationEvent
      (uuidString row.id) (uuidString row.appointment_id) (str "Stripe error: " ++ e.Error))
      = Except.ok payload)
    (hInsert : (env.update.events 0).insertErr = none)
    (hFresh : ∀ m ∈ w.db.outbox_messages, m.ID ≠ (env.update.events 0).newID) :
    (∀ p : Payment, (p.Status = PaymentStatusPending ∨ p.Status = PaymentStatusProcessing) →
      ∃ p1, CompletePayment.transition env p = Except.ok p1 ∧
        p1.FailureReason = str "Stripe error: " ++ e.Error ∧
        p1.domainEvents = p.domainEvents ++
          [DomainEvent.PaymentFailedEvent p.ID p.AppointmentID
            (str "Stripe error: " ++ e.Error)]) ∧
    (∃ stored, (CompletePayment.Handle env w cmd).2.db.payments.find?
        (fun r => r.id = cmd.PaymentID) = some stored ∧
      stored.failure_reason = some (str "Stripe error: " ++ e.Error)) ∧
    (∃ entry, (CompletePayment.Handle env w cmd).2.db.outbox_messages
        = w.db.outbox_messages ++ [entry] ∧
      Except.ok entry.Payload = env.update.marshal
        (IntegrationEvent.PaymentFailedIntegrationEvent (uuidString row.id)
          (uuidString row.appointment_id) (str "Stripe error: " ++ e.Error))) := by
  refine ⟨?_, ?_, ?_⟩
  · intro p hp
    have hm : p.Status ∈ [PaymentStatusProcessing, PaymentStatusPending] := by
      rcases hp with h | h <;> simp [h]
    refine ⟨(p.MarkFailed (str "Stripe error: " ++ e.Error) env.now1).2, ?_, ?_, ?_⟩
    · simp only [CompletePayment.transition, hStripe, Payment.MarkFailed,
        ensureStatus_of_mem p _ hm]
    · simp [Payment.MarkFailed, ensureStatus_of_mem p _ hm, Payment.addEvent]
    · simp [Payment.MarkFailed, ensureStatus_of_mem p _ hm, Payment.addEvent]
  · rw [completeHandle_failed env w cmd row e payload hFind hRow hPending hStripe hBegin hExec
      hCommit hMarshal hInsert hFresh]
    refine ⟨_, find_updated_row w.db.payments row cmd.PaymentID _ ?_ hRow, ?_⟩
    · intro r
      by_cases hr : r.id = row.id <;> simp [hr]
    · have hne : str "Stripe error: " ++ e.Error ≠ [] := by
        have : str "Stripe error: " = 83 :: (str "tripe error: ") := by decide
        rw [this]
        simp
      simp [nilIfEmpty, hne]
  · rw [completeHandle_failed env w cmd row e payload hFind hRow hPending hStripe hBegin hExec
      hCommit hMarshal hInsert hFresh]
    exact ⟨_, rfl, hMarshal.symm⟩

theorem failure_reason_is_prefixed_message_witness :
    (∀ p : Payment, (p.Status = PaymentStatusPending ∨ p.Status = PaymentStatusProcessing) →
      ∃ p1, CompletePayment.transition sampleDeclinedEnv p = Except.ok p1 ∧
        p1.FailureReason = str "Stripe error: " ++ (Error.External (str "card_declined")).Error ∧
        p1.domainEvents = p.domainEvents ++
          [DomainEvent.PaymentFailedEvent p.ID p.AppointmentID
            (str "Stripe error: " ++ (Error.External (str "card_declined")).Error)]) ∧
    (∃ stored, (CompletePayment.Handle sampleDeclinedEnv samplePendingWorld
        (CompletePayment.Command.mk 7)).2.db.payments.find?
        (fun r => r.id = 7) = some stored ∧
      stored.failure_reason
        = some (str "Stripe error: " ++ (Error.External (str "card_declined")).Error)) ∧
    (∃ entry, (CompletePayment.Handle sampleDeclinedEnv samplePendingWorld
        (CompletePayment.Command.mk 7)).2.db.outbox_messages
        = samplePendingWorld.db.outbox_messages ++ [entry] ∧
      Except.ok entry.Payload = sampleDeclinedEnv.update.marshal
        (IntegrationEvent.PaymentFailedIntegrationEvent (uuidString 7)
          (uuidString 3)
          (str "Stripe error: " ++ (Error.External (str "card_declined")).Error))) :=
  failure_reason_is_prefixed_message sampleDeclinedEnv samplePendingWorld
    (CompletePayment.Command.mk 7)
    { id := 7, appointment_id := 3, user_id := str "user-1", amount := 50,
      currency := str "usd", status := 0, stripe_payment_intent_id := none,
      failure_reason := none, created_at := 20, updated_at := none }
    (Error.External (str "card_declined")) (str "payload")
    rfl rfl rfl rfl rfl rfl rfl rfl rfl (by simp [samplePendingWorld])

theorem Create_payment_kept (env : TxEnv) (w : World) (p : Payment) :
    (Create env w p).2.2.ID = p.ID ∧ (Create env w p).2.2.Status = p.Status := by
  unfold Create withTransaction
  cases hb : env.beginErr with
  | some e => simp
  | none =>
    simp only []
    unfold createTx
    cases execInsertPayment env w.db p with
    | error e => simp
    | ok t1 =>
      simp only []
      cases SaveEvents env t1 p.DomainEvents with
      | mk r t2 =>
        cases r with
        | some e => simp
        | none =>
          cases hc : env.commitErr with
          | some e => simp [Payment.ClearDomainEvents]
          | none => simp [Payment.ClearDomainEvents]

/-- C15: a failure of the synchronous completion step is not a failure of
creation. For every valid command for an appointment with no stored payment,
if the store Create of the new payment succeeds and the dispatched
CompletePayment returns an error, the CreatePayment handler returns no error
and its result carries the id of the new payment and the status "Pending". -/
theorem completion_failure_is_not_creation_failure (mediator : Mediator)
    (env : CreatePayment.Env) (w w2 : World) (cmd : CreatePayment.Command)
    (payment payment1 : Payment) (err : Error)
    (hValid : cmd.Validate = none)
    (hFind : env.findErr = none)
    (hNone : ∀ r ∈ w.db.payments, r.appointment_id ≠ cmd.AppointmentID)
    (hNew : NewPayment env.newID env.now cmd.AppointmentID cmd.UserID cmd.Amount cmd.Currency
      = Except.ok payment)
    (hCreate : Create env.create
      { db := w.db, log := w.log ++ [Call.FindByAppointmentID cmd.AppointmentID] } payment
      = (none, w2, payment1))
    (hSend : (mediator.Send env.complete w2 { PaymentID := env.newID }).1 = Except.error err) :
    CreatePayment.Handle mediator env w cmd =
      (Except.ok { PaymentID := uuidString env.newID, Status := str "Pending" },
        (mediator.Send env.complete w2 { PaymentID := env.newID }).2) := by
  obtain ⟨hA, hC⟩ := validate_amount_currency cmd hValid
  obtain ⟨p, hp, hpid, hpst, -⟩ :=
    newPayment_ok env.newID env.now cmd.AppointmentID cmd.UserID cmd.Amount cmd.Currency hA hC
  have hpp : p = payment := Except.ok.inj (hp.symm.trans hNew)
  subst hpp
  have hkept := Create_payment_kept env.create
    { db := w.db, log := w.log ++ [Call.FindByAppointmentID cmd.AppointmentID] } p
  rw [hCreate] at hkept
  simp only [] at hkept
  have hrow : w.db.payments.find? (fun r => r.appointment_id = cmd.AppointmentID) = none := by
    simp only [List.find?_eq_none, decide_eq_true_eq]
    exact hNone
  have hid1 : payment1.ID = env.newID := hkept.1.trans hpid
  have hst1 : payment1.Status.String = str "Pending" := by
    rw [hkept.2, hpst]
    decide
  simp only [CreatePayment.Handle, hValid, FindByAppointmentID, scanPayment, hFind, hrow, hp,
    hCreate, hid1, hst1]
  revert hSend
  cases mediator.Send env.complete w2 { PaymentID := env.newID } with
  | mk r w3 =>
    cases r with
    | error e => intro _; rfl
    | ok result => intro h; simp at h

theorem completion_failure_is_not_creation_failure_witness :
    CreatePayment.Handle (Mediator.mk true) sampleCompletionFailsEnv emptyWorld sampleCommand =
      (Except.ok
        { PaymentID := uuidString sampleCompletionFailsEnv.newID, Status := str "Pending" },
        ((Mediator.mk true).Send sampleCompletionFailsEnv.complete
          { db :=
              { payments :=
                  [{ id := 7, appointment_id := 3, user_id := str "user-1", amount := 50,
                     currency := str "usd", status := 0, stripe_payment_intent_id := none,
                     failure_reason := none, created_at := 20, updated_at := none }]
                outbox_messages := [] }
            log := [Call.FindByAppointmentID 3, Call.Create 7, Call.Begin, Call.Commit] }
          { PaymentID := sampleCompletionFailsEnv.newID }).2) :=
  completion_failure_is_not_creation_failure (Mediator.mk true) sampleCompletionFailsEnv
    emptyWorld _ sampleCommand
    { ID := 7, AppointmentID := 3, UserID := str "user-1", Amount := 50, Currency := str "usd",
      Status := PaymentStatusPending, StripePaymentIntentID := [], FailureReason := [],
      CreatedAt := 20, UpdatedAt := none,
      domainEvents := [DomainEvent.PaymentCreatedEvent 7 3 (str "user-1") 50 (str "usd")] }
    { ID := 7, AppointmentID := 3, UserID := str "user-1", Amount := 50, Currency := str "usd",
      Status := PaymentStatusPending, StripePaymentIntentID := [], FailureReason := [],
      CreatedAt := 20, UpdatedAt := none, domainEvents := [] }
    (Error.Wrap (str "update payment")
      (Error.Wrap (str "begin transaction") (Error.External (str "no connection"))))
    (by decide) rfl (by simp [emptyWorld]) rfl rfl rfl

/-- C16: for every payment id with no stored payment (the lookup by id itself
not failing), the CompletePayment handler returns the error ErrPaymentNotFound
carrying that id; the only call it makes is the lookup, so the processor is
not called and nothing is written to the store. -/
theorem complete_unknown_payment_not_found (env : CompletePayment.Env) (w : World)
    (cmd : CompletePayment.Command)
    (hFind : env.findErr = none)
    (hNone : ∀ r ∈ w.db.payments, r.id ≠ cmd.PaymentID) :
    CompletePayment.Handle env w cmd =
      (Except.error (Error.ErrPaymentNotFound cmd.PaymentID),
        { db := w.db, log := w.log ++ [Call.FindByID cmd.PaymentID] }) := by
  have hrow : w.db.payments.find? (fun r => r.id = cmd.PaymentID) = none := by
    simp only [List.find?_eq_none, decide_eq_true_eq]
    exact hNone
  simp [CompletePayment.Handle, FindByID, scanPayment, hFind, hrow]

theorem complete_unknown_payment_not_found_witness :
    CompletePayment.Handle sampleCompleteEnv samplePendingWorld (CompletePayment.Command.mk 8) =
      (Except.error (Error.ErrPaymentNotFound 8),
        { db := samplePendingWorld.db,
          log := samplePendingWorld.log ++ [Call.FindByID 8] }) :=
  complete_unknown_payment_not_found sampleCompleteEnv samplePendingWorld
    (CompletePayment.Command.mk 8) rfl (by decide)

/-! ## Claims on the translation of events -/

/-- C17: toOutboxMessage maps a PaymentCreated event, and every event other than
PaymentCompleted and PaymentFailed, to no entry and no error. With a JSON
encoder that encodes every integration event (as `json.Marshal` does for these
structs of strings), it maps PaymentCompleted to an entry of type
"PaymentCompletedIntegrationEvent" and PaymentFailed to an entry of type
"PaymentFailedIntegrationEvent", each with the payment id of the event as
aggregate id, processed = false, retry counter 0 and no processed
timestamp. -/
theorem toOutboxMessage_spec (marshal : IntegrationEvent → Except Error (List Nat))
    (env : EventEnv) (hMarshal : ∀ v, ∃ payload, marshal v = Except.ok payload) :
    (∀ id appt user amount currency, toOutboxMessage marshal env
      (DomainEvent.PaymentCreatedEvent id appt user amount currency) = Except.ok none) ∧
    (∀ event, (∀ id appt ref, event ≠ DomainEvent.PaymentCompletedEvent id appt ref) →
      (∀ id appt reason, event ≠ DomainEvent.PaymentFailedEvent id appt reason) →
      toOutboxMessage marshal env event = Except.ok none) ∧
    (∀ id appt ref, ∃ entry,
      toOutboxMessage marshal env (DomainEvent.PaymentCompletedEvent id appt ref)
        = Except.ok (some entry) ∧
      entry.Type_ = str "PaymentCompletedIntegrationEvent" ∧
      entry.AggregateID = id ∧ entry.Processed = false ∧ entry.RetryCount = 0 ∧
      entry.ProcessedAt = none ∧ entry.ID = env.newID ∧ entry.CreatedAt = env.now) ∧
    (∀ id appt reason, ∃ entry,
      toOutboxMessage marshal env (DomainEvent.PaymentFailedEvent id appt reason)
        = Except.ok (some entry) ∧
      entry.Type_ = str "PaymentFailedIntegrationEvent" ∧
      entry.AggregateID = id ∧ entry.Processed = false ∧ entry.RetryCount = 0 ∧
      entry.ProcessedAt = none ∧ entry.ID = env.newID ∧ entry.CreatedAt = env.now) := by
  refine ⟨?_, ?_, ?_, ?_⟩
  · intros
    rfl
  · intro event h1 h2
    cases event with
    | PaymentCreatedEvent => rfl
    | PaymentCompletedEvent id appt ref => exact absurd rfl (h1 id appt ref)
    | PaymentFailedEvent id appt reason => exact absurd rfl (h2 id appt reason)
    | Other => rfl
  · intro id appt ref
    obtain ⟨payload, hp⟩ := hMarshal (IntegrationEvent.PaymentCompletedIntegrationEvent
      (uuidString id) (uuidString appt) (str "Completed") ref)
    exact ⟨Message.mk env.newID id (str "PaymentCompletedIntegrationEvent") payload false env.now none 0,
      by simp only [toOutboxMessage, hp], rfl, rfl, rfl, rfl, rfl, rfl, rfl⟩
  · intro id appt reason
    obtain ⟨payload, hp⟩ := hMarshal (IntegrationEvent.PaymentFailedIntegrationEvent
      (uuidString id) (uuidString appt) reason)
    exact ⟨Message.mk env.newID id (str "PaymentFailedIntegrationEvent") payload false env.now none 0,
      by simp only [toOutboxMessage, hp], rfl, rfl, rfl, rfl, rfl, rfl, rfl⟩

theorem toOutboxMessage_spec_witness :
    (∀ id appt user amount currency, toOutboxMessage sampleMarshal (sampleEventEnv 0)
      (DomainEvent.PaymentCreatedEvent id appt user amount currency) = Except.ok none) ∧
    (∀ event, (∀ id appt ref, event ≠ DomainEvent.PaymentCompletedEvent id appt ref) →
      (∀ id appt reason, event ≠ DomainEvent.PaymentFailedEvent id appt reason) →
      toOutboxMessage sampleMarshal (sampleEventEnv 0) event = Except.ok none) ∧
    (∀ id appt ref, ∃ entry,
      toOutboxMessage sampleMarshal (sampleEventEnv 0)
          (DomainEvent.PaymentCompletedEvent id appt ref)
        = Except.ok (some entry) ∧
      entry.Type_ = str "PaymentCompletedIntegrationEvent" ∧
      entry.AggregateID = id ∧ entry.Processed = false ∧ entry.RetryCount = 0 ∧
      entry.ProcessedAt = none ∧ entry.ID = (sampleEventEnv 0).newID ∧
      entry.CreatedAt = (sampleEventEnv 0).now) ∧
    (∀ id appt reason, ∃ entry,
      toOutboxMessage sampleMarshal (sampleEventEnv 0)
          (DomainEvent.PaymentFailedEvent id appt reason)
        = Except.ok (some entry) ∧
      entry.Type_ = str "PaymentFailedIntegrationEvent" ∧
      entry.AggregateID = id ∧ entry.Processed = false ∧ entry.RetryCount = 0 ∧
      entry.ProcessedAt = none ∧ entry.ID = (sampleEventEnv 0).newID ∧
      entry.CreatedAt = (sampleEventEnv 0).now) :=
  toOutboxMessage_spec sampleMarshal (sampleEventEnv 0)
    (fun v => by cases v <;> exact ⟨_, rfl⟩)

/-! ## Lemmas on the JSON text of the payloads -/
/-- The shapes of a string by the width of its first code point. -/
theorem runeWidth_cases (s : GoString) :
    runeWidth s = 1 ∨
    (∃ b0 b1 rest, s = b0 :: b1 :: rest ∧ runeWidth s = 2 ∧ 0xC2 ≤ b0 ∧ b0 ≤ 0xDF ∧
      0x80 ≤ b1 ∧ b1 ≤ 0xBF) ∨
    (∃ b0 b1 b2 rest, s = b0 :: b1 :: b2 :: rest ∧ runeWidth s = 3 ∧ 0xE0 ≤ b0 ∧ b0 ≤ 0xEF ∧
      (if b0 = 0xE0 then 0xA0 else 0x80) ≤ b1 ∧ b1 ≤ (if b0 = 0xED then 0x9F else 0xBF) ∧
      0x80 ≤ b2 ∧ b2 ≤ 0xBF) ∨
    (∃ b0 b1 b2 b3 rest, s = b0 :: b1 :: b2 :: b3 :: rest ∧ runeWidth s = 4 ∧ 0xF0 ≤ b0 ∧
      b0 ≤ 0xF4 ∧
      (if b0 = 0xF0 then 0x90 else 0x80) ≤ b1 ∧ b1 ≤ (if b0 = 0xF4 then 0x8F else 0xBF) ∧
      0x80 ≤ b2 ∧ b2 ≤ 0xBF ∧ 0x80 ≤ b3 ∧ b3 ≤ 0xBF) := by
  cases s with
  | nil => exact Or.inl rfl
  | cons b0 rest =>
    by_cases h1 : b0 < 0xC2
    · exact Or.inl (by simp [runeWidth, h1])
    · by_cases h2 : b0 ≤ 0xDF
      · cases rest with
        | nil => exact Or.inl (by simp [runeWidth, h1, h2])
        | cons b1 rest =>
          by_cases hc : 0x80 ≤ b1 ∧ b1 ≤ 0xBF
          · exact Or.inr (Or.inl ⟨b0, b1, rest, rfl, by simp [runeWidth, h1, h2, hc],
              by omega, h2, hc.1, hc.2⟩)
          · exact Or.inl (by simp [runeWidth, h1, h2, hc])
      · by_cases h3 : b0 ≤ 0xEF
        · rcases rest with _ | ⟨b1, _ | ⟨b2, rest⟩⟩
          · exact Or.inl (by simp [runeWidth, h1, h2, h3])
          · exact Or.inl (by simp [runeWidth, h1, h2, h3])
          · by_cases hc : (if b0 = 0xE0 then 0xA0 else 0x80) ≤ b1 ∧
                b1 ≤ (if b0 = 0xED then 0x9F else 0xBF) ∧ 0x80 ≤ b2 ∧ b2 ≤ 0xBF
            · exact Or.inr (Or.inr (Or.inl ⟨b0, b1, b2, rest, rfl,
                by simp [runeWidth, h1, h2, h3, hc], by omega, h3, hc.1, hc.2.1, hc.2.2.1,
                hc.2.2.2⟩))
            · exact Or.inl (by simp [runeWidth, h1, h2, h3, hc])
        · by_cases h4 : b0 ≤ 0xF4
          · rcases rest with _ | ⟨b1, _ | ⟨b2, _ | ⟨b3, rest⟩⟩⟩
            · exact Or.inl (by simp [runeWidth, h1, h2, h3, h4])
            · exact Or.inl (by simp [runeWidth, h1, h2, h3, h4])
            · exact Or.inl (by simp [runeWidth, h1, h2, h3, h4])
            · by_cases hc : (if b0 = 0xF0 then 0x90 else 0x80) ≤ b1 ∧
                  b1 ≤ (if b0 = 0xF4 then 0x8F else 0xBF) ∧ (0x80 ≤ b2 ∧ b2 ≤ 0xBF) ∧
                  0x80 ≤ b3 ∧ b3 ≤ 0xBF
              · exact Or.inr (Or.inr (Or.inr ⟨b0, b1, b2, b3, rest, rfl,
                  by simp [runeWidth, h1, h2, h3, h4, hc], by omega, h4, hc.1, hc.2.1,
                  hc.2.2.1.1, hc.2.2.1.2, hc.2.2.2.1, hc.2.2.2.2⟩))
              · exact Or.inl (by simp [runeWidth, h1, h2, h3, h4, hc])
          · exact Or.inl (by simp [runeWidth, h1, h2, h3, h4])

/-- A well-formed sequence of several bytes is read as one code point, whatever
follows it, and `encodeRune` writes the same bytes again. -/
theorem multiByte_facts (s : GoString) (hw : runeWidth s ≠ 1) :
    ∃ b chunk rest, s = (b :: chunk) ++ rest ∧ 0x80 ≤ b ∧
      chunk.length = runeWidth s - 1 ∧
      (decodeRune s).2 = runeWidth s ∧
      encodeRune (decodeRune s).1 = b :: chunk ∧
      0x80 ≤ (decodeRune s).1 ∧
      (∀ t, decodeRune ((b :: chunk) ++ t) = decodeRune s) := by
  rcases runeWidth_cases s with h | ⟨b0, b1, rest, hs, hw2, h0, h0', h1, h1'⟩ |
    ⟨b0, b1, b2, rest, hs, hw3, h0, h0', h1, h1', h2, h2'⟩ |
    ⟨b0, b1, b2, b3, rest, hs, hw4, h0, h0', h1, h1', h2, h2', h3, h3'⟩
  · exact absurd h hw
  · subst hs
    have hd : ∀ t, decodeRune (b0 :: b1 :: t) = (b0 % 32 * 64 + b1 % 64, 2) := by
      intro t
      have hwt : runeWidth (b0 :: b1 :: t) = 2 := by
        have hb : ¬ b0 < 0xC2 := by omega
        simp [runeWidth, hb, h0', h1, h1']
      simp [decodeRune, hwt]
    refine ⟨b0, [b1], rest, rfl, by omega, by rw [hw2]; rfl, by rw [hd, hw2], ?_, ?_, ?_⟩
    · rw [hd]
      have ha : ¬ (b0 % 32 * 64 + b1 % 64 ≤ 0x7F) := by omega
      have hb : b0 % 32 * 64 + b1 % 64 ≤ 0x7FF := by omega
      simp only [encodeRune, ha, hb, if_true, if_false]
      congr 1
      · omega
      · congr 1
        omega
    · rw [hd]
      show 0x80 ≤ b0 % 32 * 64 + b1 % 64
      omega
    · intro t
      show decodeRune (b0 :: b1 :: t) = _
      rw [hd, hd]
  · subst hs
    have hb1 : 0x80 ≤ b1 ∧ b1 ≤ 0xBF ∧ (b0 = 0xE0 → 0xA0 ≤ b1) ∧ (b0 = 0xED → b1 ≤ 0x9F) := by
      split_ifs at h1 h1' <;> omega
    have hd : ∀ t, decodeRune (b0 :: b1 :: b2 :: t)
        = (b0 % 16 * 4096 + b1 % 64 * 64 + b2 % 64, 3) := by
      intro t
      have hwt : runeWidth (b0 :: b1 :: b2 :: t) = 3 := by
        have hb : ¬ b0 < 0xC2 := by omega
        have hb2 : ¬ b0 ≤ 0xDF := by omega
        simp [runeWidth, hb, hb2, h0', h1, h1', h2, h2']
      simp [decodeRune, hwt]
    refine ⟨b0, [b1, b2], rest, rfl, by omega, by rw [hw3]; rfl, by rw [hd, hw3], ?_, ?_, ?_⟩
    · rw [hd]
      have ha : ¬ (b0 % 16 * 4096 + b1 % 64 * 64 + b2 % 64 ≤ 0x7F) := by
        omega
      have hb : ¬ (b0 % 16 * 4096 + b1 % 64 * 64 + b2 % 64 ≤ 0x7FF) := by
        omega
      have hc : ¬ (0x10FFFF < b0 % 16 * 4096 + b1 % 64 * 64 + b2 % 64 ∨
          (0xD800 ≤ b0 % 16 * 4096 + b1 % 64 * 64 + b2 % 64 ∧
            b0 % 16 * 4096 + b1 % 64 * 64 + b2 % 64 ≤ 0xDFFF)) := by
        omega
      have he : b0 % 16 * 4096 + b1 % 64 * 64 + b2 % 64 ≤ 0xFFFF := by omega
      simp only [encodeRune, ha, hb, hc, he, if_true, if_false]
      congr 1
      · omega
      · congr 1
        · omega
        · congr 1
          omega
    · rw [hd]
      show 0x80 ≤ b0 % 16 * 4096 + b1 % 64 * 64 + b2 % 64
      omega
    · intro t
      show decodeRune (b0 :: b1 :: b2 :: t) = _
      rw [hd, hd]
  · subst hs
    have hb1 : 0x80 ≤ b1 ∧ b1 ≤ 0xBF ∧ (b0 = 0xF0 → 0x90 ≤ b1) ∧ (b0 = 0xF4 → b1 ≤ 0x8F) := by
      split_ifs at h1 h1' <;> omega
    have hd : ∀ t, decodeRune (b0 :: b1 :: b2 :: b3 :: t)
        = (b0 % 8 * 262144 + b1 % 64 * 4096 + b2 % 64 * 64 + b3 % 64, 4) := by
      intro t
      have hwt : runeWidth (b0 :: b1 :: b2 :: b3 :: t) = 4 := by
        have hb : ¬ b0 < 0xC2 := by omega
        have hb2 : ¬ b0 ≤ 0xDF := by omega
        have hb3 : ¬ b0 ≤ 0xEF := by omega
        simp [runeWidth, hb, hb2, hb3, h0', h1, h1', h2, h2', h3, h3']
      simp [decodeRune, hwt]
    refine ⟨b0, [b1, b2, b3], rest, rfl, by omega, by rw [hw4]; rfl, by rw [hd, hw4],
      ?_, ?_, ?_⟩
    · rw [hd]
      have ha : ¬ (b0 % 8 * 262144 + b1 % 64 * 4096 + b2 % 64 * 64 + b3 % 64 ≤ 0x7F) := by
        omega
      have hb : ¬ (b0 % 8 * 262144 + b1 % 64 * 4096 + b2 % 64 * 64 + b3 % 64 ≤ 0x7FF) := by
        omega
      have hc : ¬ (0x10FFFF < b0 % 8 * 262144 + b1 % 64 * 4096 + b2 % 64 * 64 + b3 % 64 ∨
          (0xD800 ≤ b0 % 8 * 262144 + b1 % 64 * 4096 + b2 % 64 * 64 + b3 % 64 ∧
            b0 % 8 * 262144 + b1 % 64 * 4096 + b2 % 64 * 64 + b3 % 64 ≤ 0xDFFF)) := by
        omega
      have he : ¬ (b0 % 8 * 262144 + b1 % 64 * 4096 + b2 % 64 * 64 + b3 % 64 ≤ 0xFFFF) := by
        omega
      simp only [encodeRune, ha, hb, hc, he, if_true, if_false]
      congr 1
      · omega
      · congr 1
        · omega
        · congr 1
          · omega
          · congr 1
            omega
    · rw [hd]
      show 0x80 ≤ b0 % 8 * 262144 + b1 % 64 * 4096 + b2 % 64 * 64 + b3 % 64
      omega
    · intro t
      show decodeRune (b0 :: b1 :: b2 :: b3 :: t) = _
      rw [hd, hd]

theorem hexValue_hexDigit (d : Nat) (h : d < 16) : hexValue (hexDigit d) = some d := by
  interval_cases d <;> rfl

theorem getu4_escape (b : Nat) (hb : b < 0x80) (tail : GoString) :
    getu4 (0x5C :: 0x75 :: 0x30 :: 0x30 :: hexDigit (b / 16) :: hexDigit (b % 16) :: tail)
      = some b := by
  have h1 : hexValue (hexDigit (b / 16)) = some (b / 16) := hexValue_hexDigit _ (by omega)
  have h2 : hexValue (hexDigit (b % 16)) = some (b % 16) := hexValue_hexDigit _ (by omega)
  have h0 : hexValue 0x30 = some 0 := rfl
  simp only [getu4, h0, h1, h2]
  congr 1
  omega

/-- Reading an escape `u` with four digits that is not a surrogate. -/
theorem unquote_escape (a b c d rr fuel : Nat) (tail : GoString)
    (hg : getu4 (0x5C :: 0x75 :: a :: b :: c :: d :: tail) = some rr)
    (hns : ¬ (0xD800 ≤ rr ∧ rr < 0xE000)) :
    unquoteLoop (fuel + 1) (0x5C :: 0x75 :: a :: b :: c :: d :: tail)
      = withDecoded (encodeRune rr) (unquoteLoop fuel tail) := by
  have h1 : ¬ ((0x5C : Nat) = 0x22) := by decide
  have h2 : ¬ ((0x75 : Nat) = 0x22 ∨ (0x75 : Nat) = 0x5C ∨ (0x75 : Nat) = 0x2F) := by decide
  have h3 : ¬ ((0x75 : Nat) = 0x62) := by decide
  have h4 : ¬ ((0x75 : Nat) = 0x66) := by decide
  have h5 : ¬ ((0x75 : Nat) = 0x6E) := by decide
  have h6 : ¬ ((0x75 : Nat) = 0x72) := by decide
  have h7 : ¬ ((0x75 : Nat) = 0x74) := by decide
  rw [unquoteLoop]
  simp only [h1, h2, h3, h4, h5, h6, h7, if_true, if_false]
  rw [hg]
  simp only [hns, if_false, List.drop]

/-- Reading back what `appendString` writes for one ASCII byte. -/
theorem unquote_ascii (b : Nat) (hb : b < 0x80) (fuel : Nat) (tail : GoString) :
    unquoteLoop (fuel + 1) ((if htmlSafe b then [b] else escapeByte b) ++ tail)
      = withDecoded [b] (unquoteLoop fuel tail) := by
  by_cases hs : htmlSafe b = true
  · have h1 : ¬ b = 0x22 := by
      intro h; rw [h] at hs; exact absurd hs (by decide)
    have h2 : ¬ b = 0x5C := by
      intro h; rw [h] at hs; exact absurd hs (by decide)
    have h3 : ¬ b < 0x20 := by
      intro h
      simp [htmlSafe] at hs
      omega
    simp only [hs, if_true, List.singleton_append, unquoteLoop, h1, h2, h3, hb, if_false]
  · simp only [hs, if_false]
    unfold escapeByte
    by_cases e1 : b = 0x5C ∨ b = 0x22
    · rcases e1 with e | e <;> subst e <;> rfl
    · by_cases e2 : b = 0x08
      · subst e2; rfl
      · by_cases e3 : b = 0x0C
        · subst e3; rfl
        · by_cases e4 : b = 0x0A
          · subst e4; rfl
          · by_cases e5 : b = 0x0D
            · subst e5; rfl
            · by_cases e6 : b = 0x09
              · subst e6; rfl
              · simp only [e1, e2, e3, e4, e5, e6, if_false]
                have henc : encodeRune b = [b] := by
                  have : b ≤ 0x7F := by omega
                  simp [encodeRune, this]
                have := unquote_escape 0x30 0x30 (hexDigit (b / 16)) (hexDigit (b % 16)) b fuel
                  tail (getu4_escape b hb tail) (by omega)
                rw [henc] at this
                exact this

/-- Reading back what `appendString` writes for a well-formed sequence of
several bytes. -/
theorem unquote_multi (s : GoString) (hw : runeWidth s ≠ 1) (fuel : Nat) (tail : GoString) :
    unquoteLoop (fuel + 1)
        ((if (decodeRune s).1 = 0x2028 ∨ (decodeRune s).1 = 0x2029 then
            [0x5C, 0x75, 0x32, 0x30, 0x32, hexDigit ((decodeRune s).1 % 16)]
          else s.take (decodeRune s).2) ++ tail)
      = withDecoded (s.take (runeWidth s)) (unquoteLoop fuel tail) := by
  obtain ⟨b, chunk, rest, hs, hb, hlen, hsize, henc, hrune, hpre⟩ := multiByte_facts s hw
  have htake : s.take (runeWidth s) = b :: chunk := by
    have hl : (b :: chunk).length = runeWidth s := by
      rw [List.length_cons, hlen]
      have := Nat.pos_of_ne_zero (fun h0 : runeWidth s = 0 => by
        rcases runeWidth_cases s with h | ⟨_, _, _, _, h, _⟩ | ⟨_, _, _, _, _, h, _⟩ |
          ⟨_, _, _, _, _, _, h, _⟩ <;> omega)
      omega
    rw [← hl]
    conv => lhs; arg 2; rw [hs]
    exact List.take_left _ _
  rw [htake]
  by_cases hsep : (decodeRune s).1 = 0x2028 ∨ (decodeRune s).1 = 0x2029
  · simp only [hsep, if_true]
    rw [← henc]
    rcases hsep with h | h
    · rw [h]
      exact unquote_escape 0x32 0x30 0x32 (hexDigit (0x2028 % 16)) 0x2028 fuel tail rfl
        (by decide)
    · rw [h]
      exact unquote_escape 0x32 0x30 0x32 (hexDigit (0x2029 % 16)) 0x2029 fuel tail rfl
        (by decide)
  · simp only [hsep, if_false, hsize, htake]
    have h1 : ¬ b = 0x22 := by omega
    have h2 : ¬ b = 0x5C := by omega
    have h3 : ¬ b < 0x20 := by omega
    have h4 : ¬ b < 0x80 := by omega
    have hd := hpre tail
    rw [List.cons_append] at hd
    rw [List.cons_append]
    simp only [unquoteLoop, h1, h2, h3, h4, if_false]
    rw [hd, henc, hsize, ← hlen, List.drop_left]

theorem appendStringLoop_nil (fuel : Nat) : appendStringLoop fuel [] = [] := by
  cases fuel <;> rfl

theorem runeWidth_pos (s : GoString) : 1 ≤ runeWidth s := by
  rcases runeWidth_cases s with h | ⟨_, _, _, _, h, _⟩ | ⟨_, _, _, _, _, h, _⟩ |
    ⟨_, _, _, _, _, _, h, _⟩ <;> omega

/-- The string literal that `appendString` writes for a well-formed string is
read back as that string. -/
theorem unquote_appendStringLoop (n : Nat) : ∀ (s : GoString),
    validStringLoop n s = true →
    ∀ (fe fd : Nat) (tail : GoString), s.length ≤ fe → (appendStringLoop fe s).length < fd →
      unquoteLoop fd (appendStringLoop fe s ++ 0x22 :: tail) = some (s, tail) := by
  have hnil : ∀ (fe fd : Nat) (tail : GoString), (appendStringLoop fe []).length < fd →
      unquoteLoop fd (appendStringLoop fe [] ++ 0x22 :: tail) = some ([], tail) := by
    intro fe fd tail hfd
    rw [appendStringLoop_nil] at hfd ⊢
    cases fd with
    | zero => simp at hfd
    | succ k => simp [unquoteLoop]
  induction n with
  | zero =>
    intro s hv fe fd tail _ hfd
    have hs : s = [] := by simpa [validStringLoop] using hv
    subst hs
    exact hnil fe fd tail hfd
  | succ n ih =>
    intro s hv fe fd tail hfe hfd
    cases s with
    | nil => exact hnil fe fd tail hfd
    | cons b rest =>
      cases fe with
      | zero => simp at hfe
      | succ fe =>
        have hfe2 : rest.length ≤ fe := by simpa using hfe
        by_cases hb : b < 0x80
        · have hv2 : validStringLoop n rest = true := by simpa [validStringLoop, hb] using hv
          have henc : appendStringLoop (fe + 1) (b :: rest)
              = (if htmlSafe b then [b] else escapeByte b) ++ appendStringLoop fe rest := by
            simp only [appendStringLoop, hb, if_true]
          have hpos : 0 < (if htmlSafe b then [b] else escapeByte b).length := by
            unfold escapeByte
            split_ifs <;> simp
          rw [henc, List.length_append] at hfd
          rw [henc]
          cases fd with
          | zero => omega
          | succ fd =>
            rw [List.append_assoc, unquote_ascii b hb fd,
              ih rest hv2 fe fd tail hfe2 (by omega)]
            rfl
        · have hw : runeWidth (b :: rest) ≠ 1 := by
            intro h1
            simp [validStringLoop, hb, h1] at hv
          have hv2 : validStringLoop n (rest.drop (runeWidth (b :: rest) - 1)) = true := by
            simpa [validStringLoop, hb, hw] using hv
          obtain ⟨b', chunk, rest', hs, -, hlen, hsize, -, -, -⟩ :=
            multiByte_facts (b :: rest) hw
          have hne : ¬ ((decodeRune (b :: rest)).1 = 0xFFFD ∧ (decodeRune (b :: rest)).2 = 1) := by
            rintro ⟨_, h2⟩
            rw [hsize] at h2
            exact hw h2
          have henc : appendStringLoop (fe + 1) (b :: rest)
              = (if (decodeRune (b :: rest)).1 = 0x2028 ∨ (decodeRune (b :: rest)).1 = 0x2029 then
                  [0x5C, 0x75, 0x32, 0x30, 0x32, hexDigit ((decodeRune (b :: rest)).1 % 16)]
                else (b :: rest).take (decodeRune (b :: rest)).2)
                ++ appendStringLoop fe (rest.drop (runeWidth (b :: rest) - 1)) := by
            simp only [appendStringLoop, hb, hne, if_false]
            by_cases hsep : (decodeRune (b :: rest)).1 = 0x2028 ∨
                (decodeRune (b :: rest)).1 = 0x2029
            · simp only [hsep, if_true, hsize]
            · simp only [hsep, if_false, hsize]
          have hpos : 0 < (if (decodeRune (b :: rest)).1 = 0x2028 ∨
                (decodeRune (b :: rest)).1 = 0x2029 then
                  [0x5C, 0x75, 0x32, 0x30, 0x32, hexDigit ((decodeRune (b :: rest)).1 % 16)]
                else (b :: rest).take (decodeRune (b :: rest)).2).length := by
            have := runeWidth_pos (b :: rest)
            split
            · simp
            · rw [hsize, List.length_take, List.length_cons]
              omega
          rw [henc, List.length_append] at hfd
          rw [henc]
          cases fd with
          | zero => omega
          | succ fd =>
            have hdrop : (rest.drop (runeWidth (b :: rest) - 1)).length ≤ fe := by
              rw [List.length_drop]
              omega
            rw [List.append_assoc, unquote_multi (b :: rest) hw fd,
              ih _ hv2 fe fd tail hdrop (by omega)]
            have hsplit : (b :: rest).take (runeWidth (b :: rest))
                ++ rest.drop (runeWidth (b :: rest) - 1) = b :: rest := by
              have := runeWidth_pos (b :: rest)
              obtain ⟨k, hk⟩ : ∃ k, runeWidth (b :: rest) = k + 1 := ⟨runeWidth (b :: rest) - 1, by omega⟩
              rw [hk, List.take_succ_cons, Nat.add_sub_cancel, List.cons_append,
                List.take_append_drop]
            simp only [withDecoded, hsplit]

/-- Reading a string literal written by `appendString`. -/
theorem readString_appendString (s : GoString) (hv : validString s = true) (fuel : Nat)
    (tail : GoString) (hfuel : (appendString s).length ≤ fuel) :
    readString fuel (appendString s ++ tail) = some (s, tail) := by
  have h1 : skipSpace (appendString s ++ tail)
      = 0x22 :: (appendStringLoop s.length s ++ 0x22 :: tail) := by
    simp [appendString, skipSpace]
  rw [readString, h1]
  simp only []
  apply unquote_appendStringLoop s.length s hv s.length fuel tail (Nat.le_refl _)
  simp [appendString] at hfuel
  omega

theorem appendString_length_pos (s : GoString) : 0 < (appendString s).length := by
  simp [appendString]

/-- Reading one member written by `appendMembers`, whatever follows it. -/
theorem readMember (key value : GoString) (hk : validString key = true)
    (hv : validString value = true) (fuel : Nat) (tail : GoString)
    (hfuel : (appendString key ++ [0x3A] ++ appendString value).length ≤ fuel) :
    readString fuel (appendString key ++ [0x3A] ++ appendString value ++ tail)
        = some (key, 0x3A :: (appendString value ++ tail)) ∧
      readString fuel (appendString value ++ tail) = some (value, tail) := by
  simp only [List.length_append, List.length_singleton] at hfuel
  constructor
  · have := readString_appendString key hk fuel ([0x3A] ++ appendString value ++ tail)
      (by omega)
    simpa [List.append_assoc] using this
  · exact readString_appendString value hv fuel tail (by omega)

/-- The members that `appendMembers` writes are read back as they were. -/
theorem readMembers_appendMembers : ∀ (ms : List (GoString × GoString)), ms ≠ [] →
    (∀ m ∈ ms, validString m.1 = true ∧ validString m.2 = true) →
    ∀ fuel, (appendMembers ms).length ≤ fuel →
      readMembers fuel (appendMembers ms ++ [0x7D]) = some ms := by
  intro ms
  induction ms with
  | nil => intro h; exact absurd rfl h
  | cons m rest ih =>
    intro _ hvalid fuel hfuel
    obtain ⟨hk, hv⟩ := hvalid m (List.mem_cons_self _ _)
    cases rest with
    | nil =>
      have hlen : (appendString m.1 ++ [0x3A] ++ appendString m.2).length ≤ fuel := hfuel
      cases fuel with
      | zero =>
        have := appendString_length_pos m.1
        simp only [List.length_append] at hlen
        omega
      | succ k =>
        obtain ⟨h1, h2⟩ := readMember m.1 m.2 hk hv (k + 1) [0x7D] hlen
        show readMembers (k + 1) (appendString m.1 ++ [0x3A] ++ appendString m.2 ++ [0x7D]) = _
        simp only [readMembers, h1, skipSpace]
        simp only [Nat.reduceEqDiff, or_self, if_false]
        rw [h2]
        simp [skipSpace]
    | cons m2 rest2 =>
      have hlen : (appendString m.1 ++ [0x3A] ++ appendString m.2 ++ [0x2C]
          ++ appendMembers (m2 :: rest2)).length ≤ fuel := hfuel
      simp only [List.length_append, List.length_singleton] at hlen
      cases fuel with
      | zero => omega
      | succ k =>
        obtain ⟨h1, h2⟩ := readMember m.1 m.2 hk hv (k + 1)
          (0x2C :: (appendMembers (m2 :: rest2) ++ [0x7D]))
          (by simp only [List.length_append, List.length_singleton]; omega)
        have hrest := ih (by simp) (fun x hx => hvalid x (List.mem_cons_of_mem _ hx)) k
          (by omega)
        show readMembers (k + 1) (appendString m.1 ++ [0x3A] ++ appendString m.2 ++ [0x2C]
          ++ appendMembers (m2 :: rest2) ++ [0x7D]) = _
        have hassoc : appendString m.1 ++ [0x3A] ++ appendString m.2 ++ [0x2C]
            ++ appendMembers (m2 :: rest2) ++ [0x7D]
            = appendString m.1 ++ [0x3A] ++ appendString m.2
              ++ (0x2C :: (appendMembers (m2 :: rest2) ++ [0x7D])) := by
          simp [List.append_assoc]
        rw [hassoc]
        simp only [readMembers, h1, skipSpace]
        simp only [Nat.reduceEqDiff, or_self, if_false]
        rw [h2]
        simp [skipSpace, hrest]

/-- The object that `json.Marshal` writes for members of well-formed strings is
read back as these members. -/
theorem jsonUnmarshal_jsonObject (ms : List (GoString × GoString)) (hne : ms ≠ [])
    (hvalid : ∀ m ∈ ms, validString m.1 = true ∧ validString m.2 = true) :
    jsonUnmarshal (jsonObject ms) = some ms := by
  have hhead : ∃ t, appendMembers ms ++ [0x7D] = 0x22 :: t := by
    cases ms with
    | nil => exact absurd rfl hne
    | cons m rest =>
      cases rest with
      | nil => exact ⟨_, by simp [appendMembers, appendString]; rfl⟩
      | cons m2 rest2 => exact ⟨_, by simp [appendMembers, appendString]; rfl⟩
  obtain ⟨t, ht⟩ := hhead
  have hread := readMembers_appendMembers ms hne hvalid ((jsonObject ms).length + 1)
    (by simp [jsonObject]; omega)
  have hobj : skipSpace (jsonObject ms) = 0x7B :: (appendMembers ms ++ [0x7D]) := by
    simp [jsonObject, skipSpace]
  have hskip : skipSpace (appendMembers ms ++ [0x7D]) = 0x22 :: t := by
    rw [ht]
    simp [skipSpace]
  simp only [jsonUnmarshal]
  rw [hobj]
  simp only []
  rw [hskip]
  simp only []
  exact hread

theorem validStringLoop_ascii (n : Nat) : ∀ (s : GoString), s.length ≤ n →
    (∀ b ∈ s, b < 0x80) → validStringLoop n s = true := by
  induction n with
  | zero =>
    intro s hl _
    have : s = [] := List.length_eq_zero.mp (Nat.le_zero.mp hl)
    subst this
    rfl
  | succ n ih =>
    intro s hl hs
    cases s with
    | nil => rfl
    | cons b rest =>
      have hb : b < 0x80 := hs b (List.mem_cons_self _ _)
      simp only [validStringLoop, hb, if_true]
      exact ih rest (by simpa using hl) (fun x hx => hs x (List.mem_cons_of_mem _ hx))

theorem validString_ascii (s : GoString) (hs : ∀ b ∈ s, b < 0x80) : validString s = true :=
  validStringLoop_ascii s.length s (Nat.le_refl _) hs

theorem uuidString_ascii (u : UUID) : ∀ b ∈ uuidString u, b < 0x80 := by
  have hd : ∀ d, d < 16 → hexDigit d < 0x80 := by
    intro d h
    unfold hexDigit
    split <;> omega
  have key : ∀ (is : List Nat), ∀ b ∈ is.flatMap (uuidHexByte u), b < 0x80 := by
    intro is b hb
    obtain ⟨i, -, hi⟩ := List.mem_flatMap.mp hb
    simp only [uuidHexByte, List.mem_cons, List.mem_singleton, List.not_mem_nil,
      or_false] at hi
    rcases hi with h | h <;> rw [h] <;> apply hd <;> omega
  intro b hb
  simp only [uuidString, List.mem_append, List.mem_singleton] at hb
  casesm* _ ∨ _
  all_goals first
    | exact key _ b (by assumption)
    | omega

set_option maxRecDepth 8192 in
/-- Claim C18, as stated, fails for a processor reference that is not well-formed
UTF-8. For the PaymentCompleted event whose reference is the single byte FF,
`json.Marshal` writes the escape of U+FFFD in its place, and reading the
payload of the entry gives a message whose transactionId is the three bytes
EF BF BD, not the reference. -/
theorem malformed_reference_is_not_recovered :
    ∃ entry, toOutboxMessage jsonMarshal (sampleEventEnv 0)
        (DomainEvent.PaymentCompletedEvent 7 3 [0xFF]) = Except.ok (some entry) ∧
      jsonUnmarshal entry.Payload = some
        [(str "paymentId", uuidString 7), (str "appointmentId", uuidString 3),
         (str "status", str "Completed"), (str "transactionId", [0xEF, 0xBF, 0xBD])] ∧
      jsonUnmarshal entry.Payload ≠ some
        [(str "paymentId", uuidString 7), (str "appointmentId", uuidString 3),
         (str "status", str "Completed"), (str "transactionId", [0xFF])] :=
  ⟨_, rfl, by decide, by decide⟩

/-- Claim C18, amended: payload round trip. For every PaymentCompleted event
(id, apptId, ref) whose ref is well-formed UTF-8, toOutboxMessage with
`json.Marshal` returns an entry, and reading its payload yields the message
with paymentId the string form of id, appointmentId the string form of
apptId, status "Completed" and transactionId ref. -/
theorem completed_payload_round_trip (env : EventEnv) (id appt : UUID) (ref : GoString)
    (hRef : validString ref = true) :
    ∃ entry, toOutboxMessage jsonMarshal env (DomainEvent.PaymentCompletedEvent id appt ref)
        = Except.ok (some entry) ∧
      jsonUnmarshal entry.Payload = some
        [(str "paymentId", uuidString id), (str "appointmentId", uuidString appt),
         (str "status", str "Completed"), (str "transactionId", ref)] := by
  refine ⟨Message.mk env.newID id (str "PaymentCompletedIntegrationEvent")
    (jsonObject [(str "paymentId", uuidString id), (str "appointmentId", uuidString appt),
      (str "status", str "Completed"), (str "transactionId", ref)]) false env.now none 0,
    rfl, ?_⟩
  apply jsonUnmarshal_jsonObject _ (by simp)
  intro m hm
  simp only [List.mem_cons, List.mem_singleton, List.not_mem_nil, or_false] at hm
  have k1 : validString (str "paymentId") = true := by decide
  have k2 : validString (str "appointmentId") = true := by decide
  have k3 : validString (str "status") = true := by decide
  have k4 : validString (str "transactionId") = true := by decide
  have k5 : validString (str "Completed") = true := by decide
  rcases hm with h | h | h | h <;> subst h
  · exact ⟨k1, validString_ascii _ (uuidString_ascii id)⟩
  · exact ⟨k2, validString_ascii _ (uuidString_ascii appt)⟩
  · exact ⟨k3, k5⟩
  · exact ⟨k4, hRef⟩

theorem completed_payload_round_trip_witness :
    validString (str "pi_123") = true ∧
    ∃ entry, toOutboxMessage jsonMarshal (sampleEventEnv 0)
        (DomainEvent.PaymentCompletedEvent 7 3 (str "pi_123"))
        = Except.ok (some entry) ∧
      jsonUnmarshal entry.Payload = some
        [(str "paymentId", uuidString 7), (str "appointmentId", uuidString 3),
         (str "status", str "Completed"), (str "transactionId", str "pi_123")] :=
  ⟨by decide, completed_payload_round_trip (sampleEventEnv 0) 7 3 (str "pi_123") (by decide)⟩

/-! ## Lemmas on the relay worker -/

theorem processLoop_eq (env : RelayEnv) (b : List Message) (w : World) :
    processLoop env w b =
      { db :=
          { payments := w.db.payments
            outbox_messages := w.db.outbox_messages.map (fun r => b.foldl (relayUpdate env) r) }
        log := w.log ++ b.flatMap (relayCalls env) } := by
  induction b generalizing w with
  | nil => simp [processLoop]
  | cons m rest ih =>
    unfold processLoop
    simp only []
    cases hp : env.publishErr m with
    | some e =>
      simp only []
      rw [ih]
      cases hi : env.incrErr m with
      | some e2 =>
        simp [IncrementRetry, hi, relayUpdate, relayCalls, hp, List.foldl_cons]
      | none =>
        simp [IncrementRetry, hi, relayUpdate, relayCalls, hp, List.foldl_cons, List.map_map,
          Function.comp_def]
    | none =>
      simp only []
      rw [ih]
      cases hm : env.markErr m with
      | some e2 =>
        simp [MarkProcessed, hm, relayUpdate, relayCalls, hp, List.foldl_cons]
      | none =>
        simp [MarkProcessed, hm, relayUpdate, relayCalls, hp, List.foldl_cons, List.map_map,
          Function.comp_def]

theorem relayUpdate_ID (env : RelayEnv) (r m : Message) : (relayUpdate env r m).ID = r.ID := by
  unfold relayUpdate
  split
  · split
    · split <;> rfl
    · split <;> rfl
  · rfl

theorem foldl_relayUpdate_ID (env : RelayEnv) (b : List Message) (r : Message) :
    (b.foldl (relayUpdate env) r).ID = r.ID := by
  induction b generalizing r with
  | nil => rfl
  | cons m rest ih => rw [List.foldl_cons, ih, relayUpdate_ID]

theorem foldl_relayUpdate_of_ne (env : RelayEnv) (b : List Message) (r : Message)
    (h : ∀ m ∈ b, m.ID ≠ r.ID) : b.foldl (relayUpdate env) r = r := by
  induction b with
  | nil => rfl
  | cons m rest ih =>
    have hm : ¬ r.ID = m.ID := fun e => h m (List.mem_cons_self _ _) e.symm
    rw [List.foldl_cons]
    have : relayUpdate env r m = r := by simp [relayUpdate, hm]
    rw [this]
    exact ih (fun m2 h2 => h m2 (List.mem_cons_of_mem _ h2))

theorem foldl_relayUpdate_of_mem (env : RelayEnv) (b : List Message) (r : Message)
    (hNodup : (b.map (fun m => m.ID)).Nodup) (hr : r ∈ b) :
    b.foldl (relayUpdate env) r = relayUpdate env r r := by
  induction b with
  | nil => simp at hr
  | cons m rest ih =>
    simp only [List.map_cons, List.nodup_cons, List.mem_map, not_exists, not_and] at hNodup
    rw [List.foldl_cons]
    rcases List.mem_cons.mp hr with h | h
    · subst h
      apply foldl_relayUpdate_of_ne
      intro m2 h2 e
      rw [relayUpdate_ID] at e
      exact hNodup.1 m2 h2 e
    · have hne : ¬ r.ID = m.ID := fun e => hNodup.1 r h e
      have : relayUpdate env r m = r := by simp [relayUpdate, hne]
      rw [this]
      exact ih hNodup.2 h

theorem processBatch_eq (env : RelayEnv) (w : World) :
    processBatch env w =
      { db :=
          { payments := w.db.payments
            outbox_messages := w.db.outbox_messages.map
              (fun r => (fetchedBatch env w).foldl (relayUpdate env) r) }
        log := w.log ++ Call.GetUnprocessed 50 :: (fetchedBatch env w).flatMap (relayCalls env) } := by
  unfold processBatch fetchedBatch GetUnprocessed
  cases hf : env.fetchErr with
  | some e => simp [batchSize]
  | none =>
    have h50 : ¬ (batchSize < 0) := by decide
    have ht : batchSize.toNat = 50 := by decide
    simp only [h50, if_false, ht]
    split
    · rename_i hlen
      have := List.length_eq_zero.mp hlen
      rw [this]
      simp [batchSize]
    · rw [processLoop_eq]
      simp [batchSize]

theorem fetchedBatch_mem (env : RelayEnv) (w : World) (m : Message)
    (h : m ∈ fetchedBatch env w) : m ∈ w.db.outbox_messages ∧ unprocessedFilter m = true := by
  unfold fetchedBatch at h
  cases hf : env.fetchErr with
  | some e => simp [hf] at h
  | none =>
    simp only [hf] at h
    have h1 := List.mem_of_mem_take h
    have h2 := (List.perm_insertionSort _ _).mem_iff.mp h1
    exact List.mem_filter.mp h2

theorem fetchedBatch_nodup (env : RelayEnv) (w : World)
    (h : (w.db.outbox_messages.map (fun m => m.ID)).Nodup) :
    ((fetchedBatch env w).map (fun m => m.ID)).Nodup := by
  unfold fetchedBatch
  cases hf : env.fetchErr with
  | some e => simp
  | none =>
    simp only []
    have h1 : ((w.db.outbox_messages.filter unprocessedFilter).map (fun m => m.ID)).Nodup :=
      h.sublist ((List.filter_sublist _).map _)
    have h2 : (((w.db.outbox_messages.filter unprocessedFilter).insertionSort
        (fun a b => a.CreatedAt ≤ b.CreatedAt)).map (fun m => m.ID)).Nodup :=
      ((List.perm_insertionSort _ _).map _).nodup_iff.mpr h1
    exact h2.sublist ((List.take_sublist _ _).map _)

theorem processBatch_nodup (env : RelayEnv) (w : World) :
    (processBatch env w).db.outbox_messages.map (fun m => m.ID)
      = w.db.outbox_messages.map (fun m => m.ID) := by
  rw [processBatch_eq]
  simp [List.map_map, Function.comp_def, foldl_relayUpdate_ID]

theorem fetchedBatch_of_fresh (env : RelayEnv) (w : World)
    (hLen : w.db.outbox_messages.length ≤ 50)
    (hFresh : ∀ m ∈ w.db.outbox_messages, m.Processed = false ∧ m.RetryCount = 0)
    (hFetch : env.fetchErr = none) :
    fetchedBatch env w
      = w.db.outbox_messages.insertionSort (fun a b => a.CreatedAt ≤ b.CreatedAt) := by
  unfold fetchedBatch
  simp only [hFetch]
  have hfilter : w.db.outbox_messages.filter unprocessedFilter = w.db.outbox_messages := by
    apply List.filter_eq_self.mpr
    intro m hm
    obtain ⟨h1, h2⟩ := hFresh m hm
    simp [unprocessedFilter, h1, h2]
  rw [hfilter]
  apply List.take_of_length_le
  rw [List.length_insertionSort]
  exact hLen

theorem count_publish_flatMap (env : RelayEnv) (b : List Message) (m : Message)
    (hNodup : (b.map (fun x => x.ID)).Nodup) (hm : m ∈ b) :
    (b.flatMap (relayCalls env)).count (Call.Publish m.ID m.Type_ m.Payload) = 1 := by
  induction b with
  | nil => simp at hm
  | cons x rest ih =>
    simp only [List.map_cons, List.nodup_cons, List.mem_map, not_exists, not_and] at hNodup
    have hother : ∀ y : Message,
        (match env.publishErr y with
          | some _ => Call.IncrementRetry y.ID
          | none => Call.MarkProcessed y.ID) ≠ Call.Publish m.ID m.Type_ m.Payload := by
      intro y
      split <;> simp
    rw [List.flatMap_cons, List.count_append]
    rcases List.mem_cons.mp hm with h | h
    · subst h
      have hrest : (rest.flatMap (relayCalls env)).count (Call.Publish m.ID m.Type_ m.Payload)
          = 0 := by
        rw [List.count_eq_zero]
        intro hc
        simp only [List.mem_flatMap, relayCalls, List.mem_cons, List.mem_singleton,
          List.not_mem_nil, or_false] at hc
        obtain ⟨y, hy, hc⟩ := hc
        rcases hc with hc | hc
        · simp only [Call.Publish.injEq] at hc
          exact hNodup.1 y hy hc.1.symm
        · exact hother y hc.symm
      rw [hrest]
      simp only [relayCalls, List.count_cons_self, List.count_cons, List.count_nil, beq_iff_eq,
        hother m, if_false]
    · have hne : x.ID ≠ m.ID := fun e => hNodup.1 m h e.symm
      have hx : (relayCalls env x).count (Call.Publish m.ID m.Type_ m.Payload) = 0 := by
        rw [List.count_eq_zero]
        intro hc
        simp only [relayCalls, List.mem_cons, List.mem_singleton, List.not_mem_nil,
          or_false] at hc
        rcases hc with hc | hc
        · simp only [Call.Publish.injEq] at hc
          exact hne hc.1.symm
        · exact hother x hc.symm
      rw [hx, ih hNodup.2 h]

theorem filter_eq_singleton_of_nodup (l : List Message) (E : Message)
    (hNodup : (l.map (fun m => m.ID)).Nodup) (hE : E ∈ l) :
    l.filter (fun r => decide (r = E)) = [E] := by
  have hnd : l.Nodup := List.Nodup.of_map _ hNodup
  have h1 : l.filter (fun r => decide (r = E)) = l.filter (fun r => r == E) := by
    apply List.filter_congr
    intro x _
    rfl
  rw [h1, List.filter_beq, List.count_eq_one_of_mem hnd hE]
  rfl

theorem relay_after_one_failure (env : RelayEnv) (w : World) (E : Message)
    (hLen : w.db.outbox_messages.length ≤ 50)
    (hFresh : ∀ m ∈ w.db.outbox_messages, m.Processed = false ∧ m.RetryCount = 0)
    (hNodup : (w.db.outbox_messages.map (fun m => m.ID)).Nodup)
    (hFetch : env.fetchErr = none)
    (hPublish : ∀ m ∈ w.db.outbox_messages, (env.publishErr m ≠ none ↔ m = E))
    (hMark : ∀ m ∈ w.db.outbox_messages, env.markErr m = none)
    (hIncr : env.incrErr E = none) :
    (processBatch env w).db.outbox_messages = w.db.outbox_messages.map (fun r =>
      if r = E then { E with RetryCount := 1 }
      else { r with Processed := true, ProcessedAt := some (env.now r) }) := by
  have hb := fetchedBatch_of_fresh env w hLen hFresh hFetch
  have hbn := fetchedBatch_nodup env w hNodup
  rw [processBatch_eq]
  simp only []
  apply List.map_congr_left
  intro r hr
  have hrb : r ∈ fetchedBatch env w := by
    rw [hb]
    exact (List.perm_insertionSort _ _).mem_iff.mpr hr
  rw [foldl_relayUpdate_of_mem env _ r hbn hrb]
  by_cases hrE : r = E
  · subst hrE
    have hp : env.publishErr r ≠ none := (hPublish r hr).mpr rfl
    have hr0 := (hFresh r hr).2
    cases hpe : env.publishErr r with
    | none => exact absurd hpe hp
    | some e => simp [relayUpdate, hpe, hIncr, hr0]
  · have hp : env.publishErr r = none := by
      by_contra hcon
      exact hrE ((hPublish r hr).mp hcon)
    simp [relayUpdate, hp, hMark r hr, hrE]

/-! ## Claims on the relay worker -/

/-- C19: relay cycle. Given an outbox of at most 50 entries with distinct ids,
all unprocessed with retry counter 0, a publisher that fails exactly for the
entry E, and fetch and storage updates that succeed, after one processBatch
cycle: the outbox holds the same entries in the same places, E with its retry
counter increased by exactly 1 and nothing else changed, every other entry
with processed = true and its processed timestamp set and nothing else
changed, so none is lost or added, and the payments are untouched; hence
every entry other than E has processed = true; E is still unprocessed; E is
still returned by GetUnprocessed; and in that cycle each entry was published
exactly once, with its type as routing key and its payload as body. -/
theorem relay_cycle_with_one_failure (env : RelayEnv) (w : World) (E : Message)
    (hLen : w.db.outbox_messages.length ≤ 50)
    (hFresh : ∀ m ∈ w.db.outbox_messages, m.Processed = false ∧ m.RetryCount = 0)
    (hNodup : (w.db.outbox_messages.map (fun m => m.ID)).Nodup)
    (hE : E ∈ w.db.outbox_messages)
    (hFetch : env.fetchErr = none)
    (hPublish : ∀ m ∈ w.db.outbox_messages, (env.publishErr m ≠ none ↔ m = E))
    (hMark : ∀ m ∈ w.db.outbox_messages, env.markErr m = none)
    (hIncr : env.incrErr E = none) :
    ((processBatch env w).db.outbox_messages = w.db.outbox_messages.map (fun r =>
        if r = E then { E with RetryCount := E.RetryCount + 1 }
        else { r with Processed := true, ProcessedAt := some (env.now r) }) ∧
      (processBatch env w).db.payments = w.db.payments) ∧
    (∀ m ∈ w.db.outbox_messages, m ≠ E →
      { m with Processed := true, ProcessedAt := some (env.now m) }
        ∈ (processBatch env w).db.outbox_messages) ∧
    (∀ m ∈ (processBatch env w).db.outbox_messages, m.ID ≠ E.ID → m.Processed = true) ∧
    ({ E with RetryCount := E.RetryCount + 1 } ∈ (processBatch env w).db.outbox_messages ∧
      E.Processed = false ∧ E.RetryCount + 1 = 1) ∧
    (∀ m ∈ (processBatch env w).db.outbox_messages, m.ID = E.ID →
      m = { E with RetryCount := E.RetryCount + 1 }) ∧
    (∀ limit : Int, 1 ≤ limit →
      (GetUnprocessed none (processBatch env w) limit).1
        = Except.ok [{ E with RetryCount := E.RetryCount + 1 }]) ∧
    (∃ batch : List Message, batch.Perm w.db.outbox_messages ∧
      (processBatch env w).log = w.log ++ Call.GetUnprocessed batchSize ::
        batch.flatMap (fun m =>
          [Call.Publish m.ID m.Type_ m.Payload,
           if m = E then Call.IncrementRetry m.ID else Call.MarkProcessed m.ID])) ∧
    (∀ m ∈ w.db.outbox_messages,
      ((processBatch env w).log.drop w.log.length).count (Call.Publish m.ID m.Type_ m.Payload)
        = 1) := by
  have hout := relay_after_one_failure env w E hLen hFresh hNodup hFetch hPublish hMark hIncr
  have hE0 := hFresh E hE
  have hE1 : ({ E with RetryCount := 1 } : Message) = { E with RetryCount := E.RetryCount + 1 } := by
    rw [hE0.2]
    rfl
  have hinj : ∀ a ∈ w.db.outbox_messages, ∀ b ∈ w.db.outbox_messages, a.ID = b.ID → a = b :=
    fun a ha b hb hab => List.inj_on_of_nodup_map hNodup ha hb hab
  have hb := fetchedBatch_of_fresh env w hLen hFresh hFetch
  have hbn := fetchedBatch_nodup env w hNodup
  have hperm : (fetchedBatch env w).Perm w.db.outbox_messages := by
    rw [hb]
    exact List.perm_insertionSort _ _
  refine ⟨⟨?_, ?_⟩, ?_, ?_, ⟨?_, hE0.1, by rw [hE0.2]; rfl⟩, ?_, ?_,
    ⟨fetchedBatch env w, hperm, ?_⟩, ?_⟩
  · rw [hout, hE1]
  · rw [processBatch_eq]
  · intro m hm hne
    rw [hout]
    exact List.mem_map.mpr ⟨m, hm, by simp [hne]⟩
  · intro m hm hne
    rw [hout] at hm
    obtain ⟨r, hr, rfl⟩ := List.mem_map.mp hm
    by_cases hrE : r = E
    · simp [hrE] at hne
    · simp [hrE]
  · rw [hout, ← hE1]
    exact List.mem_map.mpr ⟨E, hE, by simp⟩
  · intro m hm hid
    rw [hout] at hm
    obtain ⟨r, hr, rfl⟩ := List.mem_map.mp hm
    by_cases hrE : r = E
    · simp [hrE, hE0.2]
    · simp only [hrE, if_false] at hid
      exact absurd (hinj r hr E hE hid) hrE
  · intro limit hlimit
    have hneg : ¬ limit < 0 := by omega
    simp only [GetUnprocessed, hneg, if_false]
    rw [hout, List.filter_map]
    have hfil : w.db.outbox_messages.filter
        (unprocessedFilter ∘ fun r =>
          if r = E then { E with RetryCount := 1 }
          else { r with Processed := true, ProcessedAt := some (env.now r) })
        = w.db.outbox_messages.filter (fun r => decide (r = E)) := by
      apply List.filter_congr
      intro r _
      by_cases hrE : r = E
      · simp [hrE, unprocessedFilter, hE0.1]
      · simp [hrE, unprocessedFilter]
    rw [hfil, filter_eq_singleton_of_nodup _ E hNodup hE]
    have h1 : 1 ≤ limit.toNat := by omega
    simp only [List.map_cons, List.map_nil, if_true, List.insertionSort, List.orderedInsert, hE1]
    rw [List.take_of_length_le (by simpa using h1)]
  · rw [processBatch_eq]
    simp only [batchSize]
    congr 2
    apply List.flatMap_congr
    intro m hm
    have hmo : m ∈ w.db.outbox_messages := hperm.mem_iff.mp hm
    by_cases hmE : m = E
    · subst hmE
      have hp : env.publishErr m ≠ none := (hPublish m hmo).mpr rfl
      cases hpe : env.publishErr m with
      | none => exact absurd hpe hp
      | some e => simp [relayCalls, hpe]
    · have hp : env.publishErr m = none := by
        by_contra hcon
        exact hmE ((hPublish m hmo).mp hcon)
      simp [relayCalls, hp, hmE]
  · intro m hm
    rw [processBatch_eq]
    simp only [List.drop_left, List.count_cons]
    have hne : (Call.GetUnprocessed 50 == Call.Publish m.ID m.Type_ m.Payload) = false := by
      simp
    rw [hne, count_publish_flatMap env _ m hbn (hperm.mem_iff.mpr hm)]
    rfl

theorem relay_cycle_with_one_failure_witness :
    ((processBatch (sampleRelayEnv 1003) sampleOutboxWorld).db.outbox_messages
        = sampleOutboxWorld.db.outbox_messages.map (fun r =>
            if r = sampleEntry 1003 51 then
              { sampleEntry 1003 51 with RetryCount := (sampleEntry 1003 51).RetryCount + 1 }
            else { r with Processed := true,
                          ProcessedAt := some ((sampleRelayEnv 1003).now r) }) ∧
      (processBatch (sampleRelayEnv 1003) sampleOutboxWorld).db.payments
        = sampleOutboxWorld.db.payments) ∧
    (∀ m ∈ sampleOutboxWorld.db.outbox_messages, m ≠ sampleEntry 1003 51 →
      { m with Processed := true, ProcessedAt := some ((sampleRelayEnv 1003).now m) }
        ∈ (processBatch (sampleRelayEnv 1003) sampleOutboxWorld).db.outbox_messages) ∧
    (∀ m ∈ (processBatch (sampleRelayEnv 1003) sampleOutboxWorld).db.outbox_messages,
      m.ID ≠ (sampleEntry 1003 51).ID → m.Processed = true) ∧
    ({ sampleEntry 1003 51 with RetryCount := (sampleEntry 1003 51).RetryCount + 1 }
        ∈ (processBatch (sampleRelayEnv 1003) sampleOutboxWorld).db.outbox_messages ∧
      (sampleEntry 1003 51).Processed = false ∧ (sampleEntry 1003 51).RetryCount + 1 = 1) ∧
    (∀ m ∈ (processBatch (sampleRelayEnv 1003) sampleOutboxWorld).db.outbox_messages,
      m.ID = (sampleEntry 1003 51).ID →
      m = { sampleEntry 1003 51 with RetryCount := (sampleEntry 1003 51).RetryCount + 1 }) ∧
    (∀ limit : Int, 1 ≤ limit →
      (GetUnprocessed none (processBatch (sampleRelayEnv 1003) sampleOutboxWorld) limit).1
        = Except.ok
          [{ sampleEntry 1003 51 with RetryCount := (sampleEntry 1003 51).RetryCount + 1 }]) ∧
    (∃ batch : List Message, batch.Perm sampleOutboxWorld.db.outbox_messages ∧
      (processBatch (sampleRelayEnv 1003) sampleOutboxWorld).log
        = sampleOutboxWorld.log ++ Call.GetUnprocessed batchSize ::
          batch.flatMap (fun m =>
            [Call.Publish m.ID m.Type_ m.Payload,
             if m = sampleEntry 1003 51 then Call.IncrementRetry m.ID
             else Call.MarkProcessed m.ID])) ∧
    (∀ m ∈ sampleOutboxWorld.db.outbox_messages,
      ((processBatch (sampleRelayEnv 1003) sampleOutboxWorld).log.drop
          sampleOutboxWorld.log.length).count (Call.Publish m.ID m.Type_ m.Payload)
        = 1) :=
  relay_cycle_with_one_failure (sampleRelayEnv 1003) sampleOutboxWorld (sampleEntry 1003 51)
    (by decide) (by decide) (by decide) (by decide) rfl (by decide) (fun _ _ => rfl) rfl

theorem relayUpdate_eligible (env : RelayEnv) (r m : Message)
    (h : unprocessedFilter (relayUpdate env r m) = true) : unprocessedFilter r = true := by
  unfold relayUpdate at h
  split at h
  · split at h
    · split at h
      · exact h
      · simp only [unprocessedFilter, Bool.and_eq_true, Bool.not_eq_true', decide_eq_true_eq]
          at h ⊢
        exact ⟨h.1, by omega⟩
    · split at h
      · exact h
      · simp [unprocessedFilter] at h
  · exact h

theorem foldl_relayUpdate_eligible (env : RelayEnv) (b : List Message) (r : Message)
    (h : unprocessedFilter (b.foldl (relayUpdate env) r) = true) :
    unprocessedFilter r = true := by
  induction b generalizing r with
  | nil => exact h
  | cons m rest ih =>
    rw [List.foldl_cons] at h
    exact relayUpdate_eligible env r m (ih _ h)

theorem filter_map_length_le (l : List Message) (f : Message → Message)
    (hf : ∀ r, unprocessedFilter (f r) = true → unprocessedFilter r = true) :
    ((l.map f).filter unprocessedFilter).length ≤ (l.filter unprocessedFilter).length := by
  induction l with
  | nil => simp
  | cons r rest ih =>
    cases h1 : unprocessedFilter (f r) with
    | true =>
      have h2 := hf r h1
      simp only [List.map_cons, List.filter_cons, h1, h2, if_true, List.length_cons]
      omega
    | false =>
      cases h2 : unprocessedFilter r with
      | true =>
        simp only [List.map_cons, List.filter_cons, h1, h2, if_true, List.length_cons]
        simp only [Bool.false_eq_true, if_false]
        omega
      | false =>
        simp only [List.map_cons, List.filter_cons, h1, h2]
        simpa using ih

theorem fetchedBatch_of_few (env : RelayEnv) (w : World)
    (hFew : (w.db.outbox_messages.filter unprocessedFilter).length ≤ 50)
    (hFetch : env.fetchErr = none) (m : Message)
    (hm : m ∈ w.db.outbox_messages) (he : unprocessedFilter m = true) :
    m ∈ fetchedBatch env w := by
  unfold fetchedBatch
  simp only [hFetch]
  rw [List.take_of_length_le (by rw [List.length_insertionSort]; exact hFew)]
  exact (List.perm_insertionSort _ _).mem_iff.mpr (List.mem_filter.mpr ⟨hm, he⟩)

theorem relay_retry_step (env : RelayEnv) (w : World) (E : Message) (k : Int)
    (hk : k < 5)
    (hEp : E.Processed = false)
    (hE : { E with RetryCount := k } ∈ w.db.outbox_messages)
    (hNodup : (w.db.outbox_messages.map (fun m => m.ID)).Nodup)
    (hFew : (w.db.outbox_messages.filter unprocessedFilter).length ≤ 50)
    (hFetch : env.fetchErr = none)
    (hFail : ∀ m : Message, m.ID = E.ID → env.publishErr m ≠ none ∧ env.incrErr m = none) :
    { E with RetryCount := k + 1 } ∈ (processBatch env w).db.outbox_messages ∧
    ((processBatch env w).db.outbox_messages.map (fun m => m.ID)).Nodup ∧
    ((processBatch env w).db.outbox_messages.filter unprocessedFilter).length ≤ 50 := by
  have hel : unprocessedFilter { E with RetryCount := k } = true := by
    simp [unprocessedFilter, hEp, hk]
  have hb := fetchedBatch_of_few env w hFew hFetch _ hE hel
  have hbn := fetchedBatch_nodup env w hNodup
  refine ⟨?_, by rw [processBatch_nodup]; exact hNodup, ?_⟩
  · rw [processBatch_eq]
    simp only []
    refine List.mem_map.mpr ⟨_, hE, ?_⟩
    rw [foldl_relayUpdate_of_mem env _ _ hbn hb]
    obtain ⟨hp, hi⟩ := hFail { E with RetryCount := k } rfl
    cases hpe : env.publishErr { E with RetryCount := k } with
    | none => exact absurd hpe hp
    | some e => simp [relayUpdate, hpe, hi]
  · rw [processBatch_eq]
    simp only []
    exact le_trans (filter_map_length_le _ _ (fun r => foldl_relayUpdate_eligible env _ r)) hFew

theorem relay_retry_steps (ticks : List RelayEnv) (w : World) (E : Message) (k : Int)
    (hk : k + ticks.length ≤ 5)
    (hEp : E.Processed = false)
    (hE : { E with RetryCount := k } ∈ w.db.outbox_messages)
    (hNodup : (w.db.outbox_messages.map (fun m => m.ID)).Nodup)
    (hFew : (w.db.outbox_messages.filter unprocessedFilter).length ≤ 50)
    (hFail : ∀ env ∈ ticks, env.fetchErr = none ∧
      ∀ m : Message, m.ID = E.ID → env.publishErr m ≠ none ∧ env.incrErr m = none) :
    { E with RetryCount := k + ticks.length } ∈ (Run ticks w).db.outbox_messages ∧
    ((Run ticks w).db.outbox_messages.map (fun m => m.ID)).Nodup := by
  induction ticks generalizing w k with
  | nil => simpa [Run] using And.intro hE hNodup
  | cons env rest ih =>
    have hlen : ((env :: rest).length : Int) = 1 + rest.length := by
      simp only [List.length_cons]
      push_cast
      ring
    rw [hlen] at hk
    obtain ⟨hf, hfail⟩ := hFail env (List.mem_cons_self _ _)
    obtain ⟨h1, h2, h3⟩ := relay_retry_step env w E k (by omega) hEp hE hNodup hFew hf hfail
    have := ih (processBatch env w) (k + 1) (by omega) h1 h2 h3
      (fun e he => hFail e (List.mem_cons_of_mem _ he))
    have hrw : k + 1 + (rest.length : Int) = k + ((env :: rest).length : Int) := by
      rw [hlen]
      ring
    rw [hrw] at this
    simpa [Run] using this

theorem getUnprocessed_mem (fetchErr : Option Error) (w : World) (limit : Int)
    (batch : List Message) (h : (GetUnprocessed fetchErr w limit).1 = Except.ok batch)
    (m : Message) (hm : m ∈ batch) :
    m ∈ w.db.outbox_messages ∧ unprocessedFilter m = true := by
  unfold GetUnprocessed at h
  cases fetchErr with
  | some e => simp at h
  | none =>
    simp only [] at h
    split at h
    · simp at h
    · have hb := (Except.ok.inj h).symm
      subst hb
      have h1 := List.mem_of_mem_take hm
      have h2 := (List.perm_insertionSort _ _).mem_iff.mp h1
      exact List.mem_filter.mp h2

theorem exhausted_not_eligible (w : World) (D m : Message)
    (hD : D ∈ w.db.outbox_messages) (hDr : 5 ≤ D.RetryCount)
    (hNodup : (w.db.outbox_messages.map (fun x => x.ID)).Nodup)
    (hm : m ∈ w.db.outbox_messages) (he : unprocessedFilter m = true) : m.ID ≠ D.ID := by
  intro hid
  have := List.inj_on_of_nodup_map hNodup hm hD hid
  subst this
  simp only [unprocessedFilter, Bool.and_eq_true, Bool.not_eq_true', decide_eq_true_eq] at he
  omega

theorem exhausted_stays (env : RelayEnv) (w : World) (D : Message)
    (hD : D ∈ w.db.outbox_messages) (hDr : 5 ≤ D.RetryCount)
    (hNodup : (w.db.outbox_messages.map (fun x => x.ID)).Nodup) :
    D ∈ (processBatch env w).db.outbox_messages ∧
    ((processBatch env w).db.outbox_messages.map (fun x => x.ID)).Nodup ∧
    ∃ added, (processBatch env w).log = w.log ++ added ∧
      ∀ c ∈ added, ∀ rk body, c ≠ Call.Publish D.ID rk body := by
  have hne : ∀ m ∈ fetchedBatch env w, m.ID ≠ D.ID := by
    intro m hm
    obtain ⟨h1, h2⟩ := fetchedBatch_mem env w m hm
    exact exhausted_not_eligible w D m hD hDr hNodup h1 h2
  refine ⟨?_, by rw [processBatch_nodup]; exact hNodup, ?_⟩
  · rw [processBatch_eq]
    simp only []
    exact List.mem_map.mpr ⟨D, hD, foldl_relayUpdate_of_ne env _ D hne⟩
  · rw [processBatch_eq]
    refine ⟨_, rfl, ?_⟩
    intro c hc rk body hcon
    subst hcon
    simp only [List.mem_cons, List.mem_flatMap, relayCalls, List.mem_singleton,
      List.not_mem_nil, or_false] at hc
    rcases hc with hc | ⟨m, hm, hc | hc⟩
    · simp at hc
    · simp only [Call.Publish.injEq] at hc
      exact hne m hm hc.1.symm
    · revert hc
      split <;> simp

theorem exhausted_stays_run (later : List RelayEnv) (w : World) (D : Message)
    (hD : D ∈ w.db.outbox_messages) (hDr : 5 ≤ D.RetryCount)
    (hNodup : (w.db.outbox_messages.map (fun x => x.ID)).Nodup) :
    D ∈ (Run later w).db.outbox_messages ∧
    ((Run later w).db.outbox_messages.map (fun x => x.ID)).Nodup ∧
    ∃ added, (Run later w).log = w.log ++ added ∧
      ∀ c ∈ added, ∀ rk body, c ≠ Call.Publish D.ID rk body := by
  induction later generalizing w with
  | nil => exact ⟨hD, hNodup, [], by simp [Run], by simp⟩
  | cons env rest ih =>
    obtain ⟨h1, h2, added1, hl1, hp1⟩ := exhausted_stays env w D hD hDr hNodup
    obtain ⟨h3, h4, added2, hl2, hp2⟩ := ih (processBatch env w) h1 h2
    refine ⟨by simpa [Run] using h3, by simpa [Run] using h4, added1 ++ added2, ?_, ?_⟩
    · have : Run (env :: rest) w = Run rest (processBatch env w) := rfl
      rw [this, hl2, hl1, List.append_assoc]
    · intro c hc
      rcases List.mem_append.mp hc with h | h
      · exact hp1 c h
      · exact hp2 c h

/-- C20: dead-lettering. For an entry E, unprocessed with retry counter 0, in an
outbox with distinct ids and at most 50 fetchable entries, after maxRetries
(= 5) consecutive relay cycles in which the fetch succeeds, publishing E
fails and the retry update succeeds, E has retry counter 5 and is still
present and unprocessed; and after any further cycles, whatever happens in
them, E is still there unchanged, is not returned by GetUnprocessed for any
limit, and no Publish call is made for it. The threshold of the fetch
predicate is the worker's maxRetries. -/
theorem dead_letter_after_max_retries (w : World) (E : Message) (ticks : List RelayEnv)
    (hE : E ∈ w.db.outbox_messages)
    (hEp : E.Processed = false)
    (hEr : E.RetryCount = 0)
    (hNodup : (w.db.outbox_messages.map (fun m => m.ID)).Nodup)
    (hFew : (w.db.outbox_messages.filter unprocessedFilter).length ≤ 50)
    (hTicks : (ticks.length : Int) = maxRetries)
    (hFail : ∀ env ∈ ticks, env.fetchErr = none ∧
      ∀ m : Message, m.ID = E.ID → env.publishErr m ≠ none ∧ env.incrErr m = none) :
    ({ E with RetryCount := 5 } ∈ (Run ticks w).db.outbox_messages ∧ E.Processed = false) ∧
    (∀ later : List RelayEnv,
      { E with RetryCount := 5 } ∈ (Run later (Run ticks w)).db.outbox_messages ∧
      (∀ (fetchErr : Option Error) (limit : Int) (batch : List Message),
        (GetUnprocessed fetchErr (Run later (Run ticks w)) limit).1 = Except.ok batch →
        ∀ m ∈ batch, m.ID ≠ E.ID) ∧
      (∀ c ∈ (Run later (Run ticks w)).log.drop (Run ticks w).log.length,
        ∀ rk body, c ≠ Call.Publish E.ID rk body)) ∧
    (∀ m : Message,
      unprocessedFilter m = true ↔ (m.Processed = false ∧ m.RetryCount < maxRetries)) := by
  have hE0 : ({ E with RetryCount := 0 } : Message) = E := by
    cases E
    simp only [Message.mk.injEq, true_and]
    exact hEr.symm
  have hmax : maxRetries = 5 := rfl
  rw [hmax] at hTicks
  obtain ⟨h5, hnd5⟩ := relay_retry_steps ticks w E 0 (by omega) hEp (by rw [hE0]; exact hE)
    hNodup hFew hFail
  rw [hTicks] at h5
  simp only [zero_add] at h5
  refine ⟨⟨h5, hEp⟩, ?_, ?_⟩
  · intro later
    obtain ⟨h1, h2, added, hl, hp⟩ := exhausted_stays_run later (Run ticks w)
      { E with RetryCount := 5 } h5 (by simp) hnd5
    refine ⟨h1, ?_, ?_⟩
    · intro fetchErr limit batch hb m hm
      obtain ⟨hm1, hm2⟩ := getUnprocessed_mem fetchErr _ limit batch hb m hm
      exact exhausted_not_eligible _ { E with RetryCount := 5 } m h1 (by simp) h2 hm1 hm2
    · rw [hl, List.drop_left]
      exact hp
  · intro m
    simp [unprocessedFilter, maxRetries]

theorem dead_letter_after_max_retries_witness :
    ({ sampleEntry 1003 51 with RetryCount := 5 }
        ∈ (Run (List.replicate 5 (sampleRelayEnv 1003)) sampleOutboxWorld).db.outbox_messages ∧
      (sampleEntry 1003 51).Processed = false) ∧
    (∀ later : List RelayEnv,
      { sampleEntry 1003 51 with RetryCount := 5 }
        ∈ (Run later (Run (List.replicate 5 (sampleRelayEnv 1003))
            sampleOutboxWorld)).db.outbox_messages ∧
      (∀ (fetchErr : Option Error) (limit : Int) (batch : List Message),
        (GetUnprocessed fetchErr (Run later (Run (List.replicate 5 (sampleRelayEnv 1003))
          sampleOutboxWorld)) limit).1 = Except.ok batch →
        ∀ m ∈ batch, m.ID ≠ (sampleEntry 1003 51).ID) ∧
      (∀ c ∈ (Run later (Run (List.replicate 5 (sampleRelayEnv 1003))
            sampleOutboxWorld)).log.drop
          (Run (List.replicate 5 (sampleRelayEnv 1003)) sampleOutboxWorld).log.length,
        ∀ rk body, c ≠ Call.Publish (sampleEntry 1003 51).ID rk body)) ∧
    (∀ m : Message,
      unprocessedFilter m = true ↔ (m.Processed = false ∧ m.RetryCount < maxRetries)) :=
  dead_letter_after_max_retries sampleOutboxWorld (sampleEntry 1003 51)
    (List.replicate 5 (sampleRelayEnv 1003)) (by decide) rfl rfl (by decide) (by decide)
    (by decide)
    (fun env he => by
      have h := List.eq_of_mem_replicate he
      subst h
      exact ⟨rfl, fun m hm => ⟨by simp [sampleRelayEnv, hm, sampleEntry], rfl⟩⟩)


/-! ## Claims on validation -/

/-- Claim C24, evaluated on two commands: `Validate`, whose message for a
refused currency is "currency must be a 3-letter ISO code", accepts the
currency "12$", three bytes none of which is a letter, and the currency made
of the euro sign, one character of three bytes. -/
theorem validate_accepts_non_letters :
    sampleDigitsCommand.Validate = none ∧
    sampleDigitsCommand.Currency = [49, 50, 36] ∧
    sampleDigitsCommand.Currency.all isAsciiLetter = false ∧
    sampleEuroCommand.Validate = none ∧
    sampleEuroCommand.Currency = [0xE2, 0x82, 0xAC] ∧
    sampleEuroCommand.Currency.all isAsciiLetter = false := by
  decide

/-- What `Validate` does check of the currency: every command that it accepts
has a currency of exactly three bytes. -/
theorem validate_accepts_only_three_bytes (c : CreatePayment.Command)
    (h : c.Validate = none) : c.Currency.length = 3 := by
  unfold CreatePayment.Command.Validate at h
  split at h
  · simp at h
  · split at h
    · simp at h
    · split at h
      · simp at h
      · split at h
        · simp at h
        · rename_i hlen
          simpa using hlen

/-- C25: validation fails fast. For every command that Command.Validate rejects,
the CreatePayment handler returns the validation error, wrapped, and leaves
the world as it was: no call is made, so no FindByAppointmentID, Create or
Update and no dispatch of CompletePayment. -/
theorem invalid_command_fails_fast (mediator : Mediator) (env : CreatePayment.Env)
    (w : World) (cmd : CreatePayment.Command) (err : Error)
    (h : cmd.Validate = some err) :
    CreatePayment.Handle mediator env w cmd
      = (Except.error (Error.Wrap (str "validation error") err), w) := by
  simp only [CreatePayment.Handle, h]

theorem invalid_command_fails_fast_witness :
    CreatePayment.Handle (Mediator.mk true) (sampleCreateEnv 7) sampleWorld sampleInvalidCommand
      = (Except.error (Error.Wrap (str "validation error")
          (Error.Errorf (str "appointmentId is required"))), sampleWorld) :=
  invalid_command_fails_fast (Mediator.mk true) (sampleCreateEnv 7) sampleWorld
    sampleInvalidCommand (Error.Errorf (str "appointmentId is required")) (by decide)

/-! ## Claims on the CompletePayment handler: what reaches the store -/

theorem transition_terminal (env : CompletePayment.Env) (p p1 : Payment)
    (h : CompletePayment.transition env p = Except.ok p1) :
    (p1.Status = PaymentStatusCompleted ∧
      p1.domainEvents.getLast? = some (DomainEvent.PaymentCompletedEvent p1.ID p1.AppointmentID
        p1.StripePaymentIntentID)) ∨
    (p1.Status = PaymentStatusFailed ∧
      p1.domainEvents.getLast? = some (DomainEvent.PaymentFailedEvent p1.ID p1.AppointmentID
        p1.FailureReason)) := by
  unfold CompletePayment.transition at h
  split at h
  · rename_i stripeErr _
    cases hm : p.ensureStatus [PaymentStatusProcessing, PaymentStatusPending] with
    | some e => simp [Payment.MarkFailed, hm] at h
    | none =>
      simp only [Payment.MarkFailed, hm, Payment.addEvent] at h
      have h2 := (Except.ok.inj h).symm
      subst h2
      right
      simp
  · rename_i intentID _
    cases hm : p.ensureStatus [PaymentStatusPending] with
    | some e => simp [Payment.MarkProcessing, hm] at h
    | none =>
      simp only [Payment.MarkProcessing, hm] at h
      have hm2 : Payment.ensureStatus
          { p with StripePaymentIntentID := intentID, Status := PaymentStatusProcessing,
                   UpdatedAt := some env.now1 }
          [PaymentStatusProcessing, PaymentStatusPending] = none := by
        apply ensureStatus_of_mem
        simp
      simp only [Payment.MarkCompleted, hm2, Payment.addEvent] at h
      have h2 := (Except.ok.inj h).symm
      subst h2
      left
      simp

/-- C28: the Processing status is never persisted by the CompletePayment
handler. For every world, command and environment (any processor outcome):
the handler calls the store's Update only with the payment that the
transitions return for the loaded payment, and that payment has status
Completed with PaymentCompleted as its last staged event, or status Failed
with PaymentFailed as its last staged event; when the lookup fails, finds
nothing, or a transition is refused, Update is not called and the database is
unchanged. -/
theorem update_receives_terminal_payment (env : CompletePayment.Env) (w : World)
    (cmd : CompletePayment.Command) :
    (∀ loaded p1,
      scanPayment env.findErr (w.db.payments.find? (fun r => r.id = cmd.PaymentID))
        = Except.ok (some loaded) →
      CompletePayment.transition env loaded = Except.ok p1 →
      (CompletePayment.Handle env w cmd).2
        = (Update env.update
            { db := w.db,
              log := w.log ++ [Call.FindByID cmd.PaymentID,
                Call.CreatePaymentIntent loaded.Amount loaded.Currency loaded.AppointmentID] }
            p1).2.1 ∧
      ((p1.Status = PaymentStatusCompleted ∧
          p1.domainEvents.getLast? = some (DomainEvent.PaymentCompletedEvent p1.ID
            p1.AppointmentID p1.StripePaymentIntentID)) ∨
        (p1.Status = PaymentStatusFailed ∧
          p1.domainEvents.getLast? = some (DomainEvent.PaymentFailedEvent p1.ID
            p1.AppointmentID p1.FailureReason)))) ∧
    ((¬ ∃ loaded p1,
        scanPayment env.findErr (w.db.payments.find? (fun r => r.id = cmd.PaymentID))
          = Except.ok (some loaded) ∧
        CompletePayment.transition env loaded = Except.ok p1) →
      (CompletePayment.Handle env w cmd).2.db = w.db ∧
      ∀ id, Call.Update id ∉ (CompletePayment.Handle env w cmd).2.log.drop w.log.length) := by
  constructor
  · intro loaded p1 hscan htrans
    refine ⟨?_, transition_terminal env loaded p1 htrans⟩
    simp only [CompletePayment.Handle, FindByID, hscan, htrans, List.append_assoc,
      List.singleton_append]
    cases hU : Update env.update
        { db := w.db,
          log := w.log ++ [Call.FindByID cmd.PaymentID,
            Call.CreatePaymentIntent loaded.Amount loaded.Currency loaded.AppointmentID] }
        p1 with
    | mk r rest =>
      cases rest with
      | mk w3 p2 =>
        cases r <;> simp
  · intro hno
    cases hscan : scanPayment env.findErr
        (w.db.payments.find? (fun r => r.id = cmd.PaymentID)) with
    | error e => simp [CompletePayment.Handle, FindByID, hscan]
    | ok o =>
      cases o with
      | none => simp [CompletePayment.Handle, FindByID, hscan]
      | some loaded =>
        cases htrans : CompletePayment.transition env loaded with
        | error e => simp [CompletePayment.Handle, FindByID, hscan, htrans]
        | ok p1 => exact absurd ⟨loaded, p1, hscan, htrans⟩ hno

/-- C29: for every stored payment already in status Completed or Failed (the
lookup by id returning it) and for either processor outcome, the
CompletePayment handler still calls the payment processor, exactly once, and
then returns an error wrapping InvalidTransition with From the stored
status: from MarkProcessing (Allowed = [Pending]) when the processor
succeeds, from MarkFailed (Allowed = [Processing, Pending]) when it fails.
The store's Update is not called: after the lookup and the processor call no
further call is made, and the database (payments and outbox) is unchanged. -/
theorem complete_terminal_payment_is_refused (env : CompletePayment.Env) (w : World)
    (cmd : CompletePayment.Command) (row : PaymentRow)
    (hFind : env.findErr = none)
    (hRow : w.db.payments.find? (fun r => r.id = cmd.PaymentID) = some row)
    (hTerminal : row.status = PaymentStatusCompleted.val ∨
      row.status = PaymentStatusFailed.val) :
    ∃ label allowed,
      CompletePayment.Handle env w cmd =
        (Except.error (Error.Wrap label (Error.ErrInvalidTransition ⟨row.status⟩ allowed)),
          { db := w.db,
            log := w.log ++ [Call.FindByID cmd.PaymentID,
              Call.CreatePaymentIntent row.amount row.currency row.appointment_id] }) ∧
      ((∃ ref, env.stripe = Except.ok ref ∧ label = str "mark payment processing" ∧
          allowed = [PaymentStatusPending]) ∨
        (∃ e, env.stripe = Except.error e ∧ label = str "mark payment failed" ∧
          allowed = [PaymentStatusProcessing, PaymentStatusPending])) := by
  have h1 : ensureStatusLoop ⟨row.status⟩ [PaymentStatusPending] = false := by
    rcases hTerminal with h | h <;> rw [h] <;> decide
  have h2 : ensureStatusLoop ⟨row.status⟩ [PaymentStatusProcessing, PaymentStatusPending]
      = false := by
    rcases hTerminal with h | h <;> rw [h] <;> decide
  cases hs : env.stripe with
  | ok ref =>
    refine ⟨str "mark payment processing", [PaymentStatusPending], ?_, Or.inl ⟨ref, rfl, rfl, rfl⟩⟩
    simp [CompletePayment.Handle, FindByID, scanPayment, hFind, hRow,
      CompletePayment.transition, hs, Payment.MarkProcessing, Payment.ensureStatus, h1]
  | error e =>
    refine ⟨str "mark payment failed", [PaymentStatusProcessing, PaymentStatusPending], ?_,
      Or.inr ⟨e, rfl, rfl, rfl⟩⟩
    simp [CompletePayment.Handle, FindByID, scanPayment, hFind, hRow,
      CompletePayment.transition, hs, Payment.MarkFailed, Payment.ensureStatus, h2]

theorem complete_terminal_payment_is_refused_witness :
    ∃ label allowed,
      CompletePayment.Handle sampleCompleteEnv sampleWorld (CompletePayment.Command.mk 7) =
        (Except.error (Error.Wrap label (Error.ErrInvalidTransition
            ⟨(samplePayment PaymentStatusCompleted).toRow.status⟩ allowed)),
          { db := sampleWorld.db,
            log := sampleWorld.log ++ [Call.FindByID 7,
              Call.CreatePaymentIntent (samplePayment PaymentStatusCompleted).toRow.amount
                (samplePayment PaymentStatusCompleted).toRow.currency
                (samplePayment PaymentStatusCompleted).toRow.appointment_id] }) ∧
      ((∃ ref, sampleCompleteEnv.stripe = Except.ok ref ∧
          label = str "mark payment processing" ∧ allowed = [PaymentStatusPending]) ∨
        (∃ e, sampleCompleteEnv.stripe = Except.error e ∧ label = str "mark payment failed" ∧
          allowed = [PaymentStatusProcessing, PaymentStatusPending])) :=
  complete_terminal_payment_is_refused sampleCompleteEnv sampleWorld
    (CompletePayment.Command.mk 7) (samplePayment PaymentStatusCompleted).toRow
    rfl rfl (Or.inl rfl)

/-! ## Claims on the history of staged events -/

theorem history_step (p : Payment) (created : DomainEvent) (t : Transition)
    (h : ((p.Status = PaymentStatusPending ∨ p.Status = PaymentStatusProcessing) ∧
          p.domainEvents = [created]) ∨
        (p.Status = PaymentStatusCompleted ∧ ∃ id appt ref,
          p.domainEvents = [created, DomainEvent.PaymentCompletedEvent id appt ref]) ∨
        (p.Status = PaymentStatusFailed ∧ ∃ id appt reason,
          p.domainEvents = [created, DomainEvent.PaymentFailedEvent id appt reason])) :
    (((p.after t).Status = PaymentStatusPending ∨ (p.after t).Status = PaymentStatusProcessing) ∧
          (p.after t).domainEvents = [created]) ∨
        ((p.after t).Status = PaymentStatusCompleted ∧ ∃ id appt ref,
          (p.after t).domainEvents = [created, DomainEvent.PaymentCompletedEvent id appt ref]) ∨
        ((p.after t).Status = PaymentStatusFailed ∧ ∃ id appt reason,
          (p.after t).domainEvents = [created, DomainEvent.PaymentFailedEvent id appt reason]) := by
  cases t with
  | MarkProcessing ref now =>
    simp only [Payment.after, Payment.MarkProcessing]
    cases hm : p.ensureStatus [PaymentStatusPending] with
    | some e => simpa using h
    | none =>
      have hst : p.Status = PaymentStatusPending := by
        simpa using (ensureStatus_eq_none_iff p _).mp hm
      rcases h with ⟨_, hev⟩ | ⟨hc, _⟩ | ⟨hf, _⟩
      · left
        exact ⟨Or.inr rfl, hev⟩
      · rw [hst] at hc
        exact absurd hc (by decide)
      · rw [hst] at hf
        exact absurd hf (by decide)
  | MarkCompleted now =>
    simp only [Payment.after, Payment.MarkCompleted]
    cases hm : p.ensureStatus [PaymentStatusProcessing, PaymentStatusPending] with
    | some e => simpa using h
    | none =>
      have hst : p.Status = PaymentStatusProcessing ∨ p.Status = PaymentStatusPending := by
        simpa using (ensureStatus_eq_none_iff p _).mp hm
      rcases h with ⟨_, hev⟩ | ⟨hc, _⟩ | ⟨hf, _⟩
      · right
        left
        exact ⟨rfl, p.ID, p.AppointmentID, p.StripePaymentIntentID,
          by simp [Payment.addEvent, hev]⟩
      · rcases hst with hst | hst <;> rw [hst] at hc <;> exact absurd hc (by decide)
      · rcases hst with hst | hst <;> rw [hst] at hf <;> exact absurd hf (by decide)
  | MarkFailed reason now =>
    simp only [Payment.after, Payment.MarkFailed]
    cases hm : p.ensureStatus [PaymentStatusProcessing, PaymentStatusPending] with
    | some e => simpa using h
    | none =>
      have hst : p.Status = PaymentStatusProcessing ∨ p.Status = PaymentStatusPending := by
        simpa using (ensureStatus_eq_none_iff p _).mp hm
      rcases h with ⟨_, hev⟩ | ⟨hc, _⟩ | ⟨hf, _⟩
      · right
        right
        exact ⟨rfl, p.ID, p.AppointmentID, reason, by simp [Payment.addEvent, hev]⟩
      · rcases hst with hst | hst <;> rw [hst] at hc <;> exact absurd hc (by decide)
      · rcases hst with hst | hst <;> rw [hst] at hf <;> exact absurd hf (by decide)

theorem history_all (calls : List Transition) (p : Payment) (created : DomainEvent)
    (h : ((p.Status = PaymentStatusPending ∨ p.Status = PaymentStatusProcessing) ∧
          p.domainEvents = [created]) ∨
        (p.Status = PaymentStatusCompleted ∧ ∃ id appt ref,
          p.domainEvents = [created, DomainEvent.PaymentCompletedEvent id appt ref]) ∨
        (p.Status = PaymentStatusFailed ∧ ∃ id appt reason,
          p.domainEvents = [created, DomainEvent.PaymentFailedEvent id appt reason])) :
    (((p.afterAll calls).Status = PaymentStatusPending ∨
          (p.afterAll calls).Status = PaymentStatusProcessing) ∧
          (p.afterAll calls).domainEvents = [created]) ∨
        ((p.afterAll calls).Status = PaymentStatusCompleted ∧ ∃ id appt ref,
          (p.afterAll calls).domainEvents
            = [created, DomainEvent.PaymentCompletedEvent id appt ref]) ∨
        ((p.afterAll calls).Status = PaymentStatusFailed ∧ ∃ id appt reason,
          (p.afterAll calls).domainEvents
            = [created, DomainEvent.PaymentFailedEvent id appt reason]) := by
  induction calls generalizing p with
  | nil => exact h
  | cons t rest ih =>
    have : p.afterAll (t :: rest) = (p.after t).afterAll rest := rfl
    rw [this]
    exact ih (p.after t) (history_step p created t h)

/-- C27: event-history invariant. For every payment returned by NewPayment and
every finite sequence of MarkProcessing, MarkCompleted and MarkFailed calls
applied to it (successful or not, the events never cleared), the staged
events are the PaymentCreated event followed by at most one further event;
the further event is there if and only if the status is Completed or Failed;
it is a PaymentCompleted event exactly when the status is Completed and a
PaymentFailed event exactly when the status is Failed. -/
theorem event_history_invariant (newID : UUID) (now : Time) (appointmentID : UUID)
    (userID : GoString) (amount : Amount) (currency : GoString) (p0 : Payment)
    (calls : List Transition)
    (hNew : NewPayment newID now appointmentID userID amount currency = Except.ok p0) :
    ∃ further,
      (p0.afterAll calls).domainEvents
        = DomainEvent.PaymentCreatedEvent newID appointmentID userID amount currency
            :: further ∧
      further.length ≤ 1 ∧
      (further ≠ [] ↔ ((p0.afterAll calls).Status = PaymentStatusCompleted ∨
        (p0.afterAll calls).Status = PaymentStatusFailed)) ∧
      ((∃ id appt ref, further = [DomainEvent.PaymentCompletedEvent id appt ref]) ↔
        (p0.afterAll calls).Status = PaymentStatusCompleted) ∧
      ((∃ id appt reason, further = [DomainEvent.PaymentFailedEvent id appt reason]) ↔
        (p0.afterAll calls).Status = PaymentStatusFailed) := by
  have hinit : p0.Status = PaymentStatusPending ∧ p0.domainEvents
      = [DomainEvent.PaymentCreatedEvent newID appointmentID userID amount currency] := by
    unfold NewPayment at hNew
    split at hNew
    · simp at hNew
    · split at hNew
      · simp at hNew
      · have := (Except.ok.inj hNew).symm
        subst this
        exact ⟨rfl, rfl⟩
  have hpc : PaymentStatusPending ≠ PaymentStatusCompleted := by decide
  have hpf : PaymentStatusPending ≠ PaymentStatusFailed := by decide
  have hrc : PaymentStatusProcessing ≠ PaymentStatusCompleted := by decide
  have hrf : PaymentStatusProcessing ≠ PaymentStatusFailed := by decide
  have hcf : PaymentStatusCompleted ≠ PaymentStatusFailed := by decide
  rcases history_all calls p0 _ (Or.inl ⟨Or.inl hinit.1, hinit.2⟩) with
    ⟨hst, hev⟩ | ⟨hst, id, appt, ref, hev⟩ | ⟨hst, id, appt, reason, hev⟩
  · refine ⟨[], hev, by simp, ?_, ?_, ?_⟩
    · rcases hst with h | h <;> simp [h, hpc, hpf, hrc, hrf]
    · rcases hst with h | h <;> simp [h, hpc, hrc]
    · rcases hst with h | h <;> simp [h, hpf, hrf]
  · refine ⟨[DomainEvent.PaymentCompletedEvent id appt ref], hev, by simp, ?_, ?_, ?_⟩
    · simp [hst]
    · simp [hst]
    · simp [hst, hcf]
  · refine ⟨[DomainEvent.PaymentFailedEvent id appt reason], hev, by simp, ?_, ?_, ?_⟩
    · simp [hst]
    · simp [hst, hcf.symm]
    · simp [hst]

theorem event_history_invariant_witness :
    ∃ further,
      ((sampleNewPayment).afterAll
          [Transition.MarkProcessing (str "pi_2") 20, Transition.MarkProcessing (str "pi_3") 21,
           Transition.MarkFailed (str "declined") 22, Transition.MarkCompleted 23]).domainEvents
        = DomainEvent.PaymentCreatedEvent 7 3 (str "user-1") 100 (str "usd") :: further ∧
      further.length ≤ 1 ∧
      (further ≠ [] ↔ (((sampleNewPayment).afterAll
          [Transition.MarkProcessing (str "pi_2") 20, Transition.MarkProcessing (str "pi_3") 21,
           Transition.MarkFailed (str "declined") 22, Transition.MarkCompleted 23]).Status
            = PaymentStatusCompleted ∨
        ((sampleNewPayment).afterAll
          [Transition.MarkProcessing (str "pi_2") 20, Transition.MarkProcessing (str "pi_3") 21,
           Transition.MarkFailed (str "declined") 22, Transition.MarkCompleted 23]).Status
            = PaymentStatusFailed)) ∧
      ((∃ id appt ref, further = [DomainEvent.PaymentCompletedEvent id appt ref]) ↔
        ((sampleNewPayment).afterAll
          [Transition.MarkProcessing (str "pi_2") 20, Transition.MarkProcessing (str "pi_3") 21,
           Transition.MarkFailed (str "declined") 22, Transition.MarkCompleted 23]).Status
            = PaymentStatusCompleted) ∧
      ((∃ id appt reason, further = [DomainEvent.PaymentFailedEvent id appt reason]) ↔
        ((sampleNewPayment).afterAll
          [Transition.MarkProcessing (str "pi_2") 20, Transition.MarkProcessing (str "pi_3") 21,
           Transition.MarkFailed (str "declined") 22, Transition.MarkCompleted 23]).Status
            = PaymentStatusFailed) :=
  event_history_invariant 7 10 3 (str "user-1") 100 (str "usd")
    (sampleNewPayment)
    [Transition.MarkProcessing (str "pi_2") 20, Transition.MarkProcessing (str "pi_3") 21,
     Transition.MarkFailed (str "declined") 22, Transition.MarkCompleted 23]
    rfl

/-! ## Claims on the relay worker: frozen entries, the fetch, failed bookkeeping -/

theorem ineligible_not_fetched (w : World) (D m : Message)
    (hD : D ∈ w.db.outbox_messages) (hDe : unprocessedFilter D = false)
    (hNodup : (w.db.outbox_messages.map (fun x => x.ID)).Nodup)
    (hm : m ∈ w.db.outbox_messages) (he : unprocessedFilter m = true) : m.ID ≠ D.ID := by
  intro hid
  have := List.inj_on_of_nodup_map hNodup hm hD hid
  subst this
  rw [he] at hDe
  exact absurd hDe (by decide)

theorem ineligible_stays (env : RelayEnv) (w : World) (D : Message)
    (hD : D ∈ w.db.outbox_messages) (hDe : unprocessedFilter D = false)
    (hNodup : (w.db.outbox_messages.map (fun x => x.ID)).Nodup) :
    D ∈ (processBatch env w).db.outbox_messages ∧
    ((processBatch env w).db.outbox_messages.map (fun x => x.ID)).Nodup ∧
    ∀ c ∈ (processBatch env w).log.drop w.log.length,
      ∀ rk body, c ≠ Call.Publish D.ID rk body := by
  have hne : ∀ m ∈ fetchedBatch env w, m.ID ≠ D.ID := by
    intro m hm
    obtain ⟨h1, h2⟩ := fetchedBatch_mem env w m hm
    exact ineligible_not_fetched w D m hD hDe hNodup h1 h2
  refine ⟨?_, by rw [processBatch_nodup]; exact hNodup, ?_⟩
  · rw [processBatch_eq]
    simp only []
    exact List.mem_map.mpr ⟨D, hD, foldl_relayUpdate_of_ne env _ D hne⟩
  · rw [processBatch_eq]
    simp only [List.drop_left]
    intro c hc rk body hcon
    subst hcon
    simp only [List.mem_cons, List.mem_flatMap, relayCalls, List.mem_singleton,
      List.not_mem_nil, or_false] at hc
    rcases hc with hc | ⟨m, hm, hc | hc⟩
    · simp at hc
    · simp only [Call.Publish.injEq] at hc
      exact hne m hm hc.1.symm
    · revert hc
      split <;> simp

/-- C21: processed entries are frozen. For every outbox state (ids distinct, as
the primary key makes them) and every relay cycle, whatever the outcomes of
the fetch, of the publisher and of the storage updates: an entry that has
processed = true before the cycle is in the outbox after the cycle, it is the
only entry with its id, so its processed flag, retry counter and payload
(and every other field) are the same; and no Publish call of the cycle is
made for it. -/
theorem processed_entries_are_frozen (env : RelayEnv) (w : World) (r : Message)
    (hr : r ∈ w.db.outbox_messages) (hp : r.Processed = true)
    (hNodup : (w.db.outbox_messages.map (fun m => m.ID)).Nodup) :
    r ∈ (processBatch env w).db.outbox_messages ∧
    (∀ m ∈ (processBatch env w).db.outbox_messages, m.ID = r.ID →
      m = r ∧ m.Processed = true ∧ m.RetryCount = r.RetryCount ∧ m.Payload = r.Payload) ∧
    (∀ c ∈ (processBatch env w).log.drop w.log.length,
      ∀ routingKey body, c ≠ Call.Publish r.ID routingKey body) := by
  have hre : unprocessedFilter r = false := by simp [unprocessedFilter, hp]
  obtain ⟨h1, h2, h3⟩ := ineligible_stays env w r hr hre hNodup
  refine ⟨h1, ?_, h3⟩
  intro m hm hid
  have := List.inj_on_of_nodup_map h2 hm h1 hid
  subst this
  exact ⟨rfl, hp, rfl, rfl⟩

theorem processed_entries_are_frozen_witness :
    { sampleEntry 1002 50 with Processed := true, ProcessedAt := some 100 }
        ∈ (processBatch (sampleRelayEnv 1003)
            (processBatch (sampleRelayEnv 1003) sampleOutboxWorld)).db.outbox_messages ∧
    (∀ m ∈ (processBatch (sampleRelayEnv 1003)
          (processBatch (sampleRelayEnv 1003) sampleOutboxWorld)).db.outbox_messages,
      m.ID = ({ sampleEntry 1002 50 with Processed := true, ProcessedAt := some 100 } : Message).ID →
      m = { sampleEntry 1002 50 with Processed := true, ProcessedAt := some 100 } ∧
      m.Processed = true ∧
      m.RetryCount
        = ({ sampleEntry 1002 50 with Processed := true, ProcessedAt := some 100 } : Message).RetryCount ∧
      m.Payload
        = ({ sampleEntry 1002 50 with Processed := true, ProcessedAt := some 100 } : Message).Payload) ∧
    (∀ c ∈ (processBatch (sampleRelayEnv 1003)
          (processBatch (sampleRelayEnv 1003) sampleOutboxWorld)).log.drop
          (processBatch (sampleRelayEnv 1003) sampleOutboxWorld).log.length,
      ∀ routingKey body, c ≠ Call.Publish
        ({ sampleEntry 1002 50 with Processed := true, ProcessedAt := some 100 } : Message).ID
        routingKey body) :=
  processed_entries_are_frozen (sampleRelayEnv 1003)
    (processBatch (sampleRelayEnv 1003) sampleOutboxWorld)
    { sampleEntry 1002 50 with Processed := true, ProcessedAt := some 100 }
    (by decide) rfl (by decide)

theorem sorted_by_created (l : List Message) :
    (l.insertionSort (fun a b => a.CreatedAt ≤ b.CreatedAt)).Sorted
      (fun a b => a.CreatedAt ≤ b.CreatedAt) := by
  haveI : IsTotal Message (fun a b => a.CreatedAt ≤ b.CreatedAt) :=
    ⟨fun a b => Nat.le_total a.CreatedAt b.CreatedAt⟩
  haveI : IsTrans Message (fun a b => a.CreatedAt ≤ b.CreatedAt) :=
    ⟨fun _ _ _ h1 h2 => Nat.le_trans h1 h2⟩
  exact List.sorted_insertionSort _ l

/-- C22: GetUnprocessed(limit) over the outbox relation. Whenever it returns
entries: they are at most limit; every one is an entry of the outbox with
processed = false and retry counter < 5; they are in non-decreasing order of
creation time; they are the oldest such entries, that is, no eligible entry
left out was created before a returned one; and none is left out while fewer
than limit are returned. It returns entries whenever the query does not fail
and limit is not negative. -/
theorem getUnprocessed_spec (fetchErr : Option Error) (w : World) (limit : Int) :
    (∀ batch, (GetUnprocessed fetchErr w limit).1 = Except.ok batch →
      (batch.length : Int) ≤ limit ∧
      (∀ m ∈ batch, m ∈ w.db.outbox_messages ∧ m.Processed = false ∧ m.RetryCount < 5) ∧
      batch.Pairwise (fun a b => a.CreatedAt ≤ b.CreatedAt) ∧
      (∀ m ∈ w.db.outbox_messages, m.Processed = false → m.RetryCount < 5 → m ∉ batch →
        ∀ x ∈ batch, x.CreatedAt ≤ m.CreatedAt) ∧
      ((batch.length : Int) < limit →
        ∀ m ∈ w.db.outbox_messages, m.Processed = false → m.RetryCount < 5 → m ∈ batch)) ∧
    (fetchErr = none → 0 ≤ limit → ∃ batch, (GetUnprocessed fetchErr w limit).1 = Except.ok batch) := by
  constructor
  · intro batch h
    unfold GetUnprocessed at h
    cases fetchErr with
    | some e => simp at h
    | none =>
      simp only [] at h
      split at h
      · simp at h
      · rename_i hneg
        have hb := (Except.ok.inj h).symm
        subst hb
        have hsorted := sorted_by_created (w.db.outbox_messages.filter unprocessedFilter)
        have helig : ∀ m : Message, unprocessedFilter m = true ↔
            (m.Processed = false ∧ m.RetryCount < 5) := by
          intro m
          simp [unprocessedFilter]
        refine ⟨?_, ?_, ?_, ?_, ?_⟩
        · have := List.length_take_le limit.toNat
            ((w.db.outbox_messages.filter unprocessedFilter).insertionSort
              (fun a b => a.CreatedAt ≤ b.CreatedAt))
          omega
        · intro m hm
          have h1 := List.mem_of_mem_take hm
          have h2 := (List.perm_insertionSort _ _).mem_iff.mp h1
          obtain ⟨h3, h4⟩ := List.mem_filter.mp h2
          exact ⟨h3, (helig m).mp h4⟩
        · exact hsorted.sublist (List.take_sublist _ _)
        · intro m hm hp hr hnot x hx
          have hmem : m ∈ (w.db.outbox_messages.filter unprocessedFilter).insertionSort
              (fun a b => a.CreatedAt ≤ b.CreatedAt) :=
            (List.perm_insertionSort _ _).mem_iff.mpr
              (List.mem_filter.mpr ⟨hm, (helig m).mpr ⟨hp, hr⟩⟩)
          rw [← List.take_append_drop limit.toNat
            ((w.db.outbox_messages.filter unprocessedFilter).insertionSort
              (fun a b => a.CreatedAt ≤ b.CreatedAt))] at hmem
          rcases List.mem_append.mp hmem with h1 | h1
          · exact absurd h1 hnot
          · exact hsorted.rel_of_mem_take_of_mem_drop hx h1
        · intro hlt m hm hp hr
          have hmem : m ∈ (w.db.outbox_messages.filter unprocessedFilter).insertionSort
              (fun a b => a.CreatedAt ≤ b.CreatedAt) :=
            (List.perm_insertionSort _ _).mem_iff.mpr
              (List.mem_filter.mpr ⟨hm, (helig m).mpr ⟨hp, hr⟩⟩)
          rw [List.length_take] at hlt
          have hle : ((w.db.outbox_messages.filter unprocessedFilter).insertionSort
              (fun a b => a.CreatedAt ≤ b.CreatedAt)).length ≤ limit.toNat := by
            omega
          rw [List.take_of_length_le hle]
          exact hmem
  · intro hf hl
    subst hf
    have hneg : ¬ limit < 0 := by omega
    exact ⟨((w.db.outbox_messages.filter unprocessedFilter).insertionSort
        (fun a b => a.CreatedAt ≤ b.CreatedAt)).take limit.toNat,
      by simp only [GetUnprocessed, hneg, if_false]⟩

theorem mark_failure_step (env : RelayEnv) (w : World) (E : Message)
    (hNodup : (w.db.outbox_messages.map (fun m => m.ID)).Nodup)
    (hE : E ∈ w.db.outbox_messages)
    (hPublish : env.publishErr E = none) (hMark : env.markErr E ≠ none) :
    (fetchedBatch env w).foldl (relayUpdate env) E = E := by
  by_cases hb : E ∈ fetchedBatch env w
  · rw [foldl_relayUpdate_of_mem env _ E (fetchedBatch_nodup env w hNodup) hb]
    cases hM : env.markErr E with
    | none => exact absurd hM hMark
    | some e => simp [relayUpdate, hPublish, hM]
  · apply foldl_relayUpdate_of_ne
    intro m hm e
    have hmo := (fetchedBatch_mem env w m hm).1
    have := List.inj_on_of_nodup_map hNodup hmo hE e
    rw [this] at hm
    exact hb hm

theorem mark_failure_cycle (env : RelayEnv) (w : World) (E : Message)
    (hNodup : (w.db.outbox_messages.map (fun m => m.ID)).Nodup)
    (hE : E ∈ w.db.outbox_messages)
    (hPublish : env.publishErr E = none) (hMark : env.markErr E ≠ none) :
    E ∈ (processBatch env w).db.outbox_messages := by
  rw [processBatch_eq]
  exact List.mem_map.mpr ⟨E, hE, mark_failure_step env w E hNodup hE hPublish hMark⟩

theorem mark_failure_run (later : List RelayEnv) (w : World) (E : Message)
    (hNodup : (w.db.outbox_messages.map (fun m => m.ID)).Nodup)
    (hE : E ∈ w.db.outbox_messages)
    (hLater : ∀ env ∈ later, env.publishErr E = none ∧ env.markErr E ≠ none) :
    E ∈ (Run later w).db.outbox_messages ∧
      ((Run later w).db.outbox_messages.map (fun m => m.ID)).Nodup := by
  induction later generalizing w with
  | nil => exact ⟨hE, hNodup⟩
  | cons env rest ih =>
    have h1 := hLater env (List.mem_cons_self _ _)
    have hstep := mark_failure_cycle env w E hNodup hE h1.1 h1.2
    have hnd : ((processBatch env w).db.outbox_messages.map (fun m => m.ID)).Nodup := by
      rw [processBatch_nodup]
      exact hNodup
    exact ih (processBatch env w) hnd hstep (fun e he => hLater e (List.mem_cons_of_mem _ he))

/-- Claim C30. Let the ids of the outbox be distinct, let at most 50 entries be
eligible (so that the limit of the fetch cuts nothing off), and let a cycle of
the relay fetch the entry `E`, publish it successfully and then fail to mark
it processed. After the cycle `E` is still in the outbox, unchanged
(processed = false, the retry counter as before), and is the only entry with
its id; the cycle has published it exactly once. When nothing else writes to
the outbox before the next cycle and the fetch of that cycle succeeds,
`GetUnprocessed` returns `E` again and the cycle publishes it again, exactly
once. And after any number of further cycles in which publishing `E`
succeeds and marking it fails, `E` is still stored unchanged, so its retry
counter has not moved towards the dead-letter threshold. -/
theorem mark_failure_republishes (env next : RelayEnv) (w : World) (E : Message)
    (hNodup : (w.db.outbox_messages.map (fun m => m.ID)).Nodup)
    (hFew : (w.db.outbox_messages.filter unprocessedFilter).length ≤ 50)
    (hE : E ∈ fetchedBatch env w)
    (hPublish : env.publishErr E = none)
    (hMark : env.markErr E ≠ none)
    (hNext : next.fetchErr = none) :
    (E ∈ (processBatch env w).db.outbox_messages ∧
      (∀ r ∈ (processBatch env w).db.outbox_messages, r.ID = E.ID → r = E) ∧
      E.Processed = false ∧ E.RetryCount < maxRetries) ∧
    (∃ calls, (processBatch env w).log = w.log ++ calls ∧
      calls.count (Call.Publish E.ID E.Type_ E.Payload) = 1) ∧
    (∃ batch, (GetUnprocessed next.fetchErr (processBatch env w) batchSize).1 = Except.ok batch ∧
      E ∈ batch) ∧
    (∃ calls, (processBatch next (processBatch env w)).log = (processBatch env w).log ++ calls ∧
      calls.count (Call.Publish E.ID E.Type_ E.Payload) = 1) ∧
    (∀ later : List RelayEnv,
      (∀ env2 ∈ later, env2.publishErr E = none ∧ env2.markErr E ≠ none) →
      E ∈ (Run later (processBatch env w)).db.outbox_messages ∧
      ∀ r ∈ (Run later (processBatch env w)).db.outbox_messages, r.ID = E.ID → r = E) := by
  have hEo := (fetchedBatch_mem env w E hE).1
  have helig := (fetchedBatch_mem env w E hE).2
  have hE1 := mark_failure_cycle env w E hNodup hEo hPublish hMark
  have hnd1 : ((processBatch env w).db.outbox_messages.map (fun m => m.ID)).Nodup := by
    rw [processBatch_nodup]
    exact hNodup
  have hFew1 : ((processBatch env w).db.outbox_messages.filter unprocessedFilter).length ≤ 50 := by
    rw [processBatch_eq]
    simp only []
    exact le_trans (filter_map_length_le _ _ (fun r => foldl_relayUpdate_eligible env _ r)) hFew
  have hE2 := fetchedBatch_of_few next (processBatch env w) hFew1 hNext E hE1 helig
  refine ⟨⟨hE1, ?_, ?_, ?_⟩, ?_, ?_, ?_, ?_⟩
  · intro r hr e
    exact List.inj_on_of_nodup_map hnd1 hr hE1 e
  · simp only [unprocessedFilter, Bool.and_eq_true, Bool.not_eq_true', decide_eq_true_eq]
      at helig
    exact helig.1
  · simp only [unprocessedFilter, Bool.and_eq_true, Bool.not_eq_true', decide_eq_true_eq]
      at helig
    exact helig.2
  · refine ⟨Call.GetUnprocessed 50 :: (fetchedBatch env w).flatMap (relayCalls env), ?_, ?_⟩
    · rw [processBatch_eq]
    · rw [List.count_cons, count_publish_flatMap env _ E (fetchedBatch_nodup env w hNodup) hE]
      simp
  · refine ⟨fetchedBatch next (processBatch env w), ?_, hE2⟩
    unfold GetUnprocessed fetchedBatch
    have h50 : ¬ (batchSize < 0) := by decide
    have ht : batchSize.toNat = 50 := by decide
    simp only [hNext, h50, if_false, ht]
  · refine ⟨Call.GetUnprocessed 50 ::
      (fetchedBatch next (processBatch env w)).flatMap (relayCalls next), ?_, ?_⟩
    · rw [processBatch_eq next]
    · rw [List.count_cons,
        count_publish_flatMap next _ E (fetchedBatch_nodup next _ hnd1) hE2]
      simp
  · intro later hLater
    have h := mark_failure_run later (processBatch env w) E hnd1 hE1 hLater
    exact ⟨h.1, fun r hr e => List.inj_on_of_nodup_map h.2 hr h.1 e⟩

theorem mark_failure_republishes_witness :
    ((sampleOutboxWorld.db.outbox_messages.map (fun m => m.ID)).Nodup ∧
      (sampleOutboxWorld.db.outbox_messages.filter unprocessedFilter).length ≤ 50 ∧
      sampleEntry 1003 51 ∈ fetchedBatch (sampleMarkFailsEnv 1003) sampleOutboxWorld ∧
      (sampleMarkFailsEnv 1003).publishErr (sampleEntry 1003 51) = none ∧
      (sampleMarkFailsEnv 1003).markErr (sampleEntry 1003 51) ≠ none ∧
      (sampleMarkFailsEnv 1003).fetchErr = none) ∧
    (sampleEntry 1003 51
        ∈ (processBatch (sampleMarkFailsEnv 1003) sampleOutboxWorld).db.outbox_messages ∧
      (∃ batch,
        (GetUnprocessed (sampleMarkFailsEnv 1003).fetchErr
          (processBatch (sampleMarkFailsEnv 1003) sampleOutboxWorld) batchSize).1
            = Except.ok batch ∧
        sampleEntry 1003 51 ∈ batch)) :=
  have h := mark_failure_republishes (sampleMarkFailsEnv 1003) (sampleMarkFailsEnv 1003)
    sampleOutboxWorld (sampleEntry 1003 51) (by decide) (by decide) (by decide) rfl (by decide)
    rfl
  ⟨⟨by decide, by decide, by decide, rfl, by decide, rfl⟩, h.1.1, h.2.2.1⟩

/-! ## The normalisation of the currency -/

theorem runeWidth_ascii (c : Nat) (rest : GoString) (hc : c < 128) :
    runeWidth (c :: rest) = 1 := by
  have h : c < 0xC2 := by omega
  simp [runeWidth, h]

theorem lowercaseLoop_ascii (pre post : GoString) (hs : ∀ b ∈ post, b < 128) (fuel : Nat)
    (hfuel : post.length ≤ fuel) :
    lowercaseLoop (pre ++ post) fuel pre.length
        (pre.map lowerByte ++ List.replicate post.length 0)
      = (pre ++ post).map lowerByte := by
  induction post generalizing pre fuel with
  | nil =>
    cases fuel with
    | zero => simp [lowercaseLoop]
    | succ k => simp [lowercaseLoop]
  | cons c rest ih =>
    cases fuel with
    | zero => simp at hfuel
    | succ k =>
      have hc : c < 128 := hs c (List.mem_cons_self _ _)
      have hlt : pre.length < (pre ++ c :: rest).length := by simp
      have hget : (pre ++ c :: rest).getD pre.length 0 = c := by
        rw [List.getD_eq_getElem _ _ hlt, List.getElem_append_right (Nat.le_refl _)]
        simp
      have hdrop : (pre ++ c :: rest).drop pre.length = c :: rest := by simp
      have hset : (pre.map lowerByte ++ List.replicate (c :: rest).length 0).set pre.length
          (lowerByte c)
          = (pre ++ [c]).map lowerByte ++ List.replicate rest.length 0 := by
        have hl : pre.length = (pre.map lowerByte).length := by simp
        rw [List.length_cons, List.replicate_succ]
        conv => lhs; arg 2; rw [hl]
        rw [List.set_append_right _ _ (Nat.le_refl _)]
        simp
      unfold lowercaseLoop
      simp only [hlt, if_true, hget, hdrop, runeWidth_ascii c rest hc]
      have hlower : (if 65 ≤ c ∧ c ≤ 90 then c + 32 else c) = lowerByte c := rfl
      rw [hlower, hset]
      have happ : pre ++ c :: rest = (pre ++ [c]) ++ rest := by simp
      have hlen : pre.length + 1 = (pre ++ [c]).length := by simp
      rw [happ, hlen]
      apply ih (pre ++ [c]) (fun b hb => hs b (List.mem_cons_of_mem _ hb)) k
      simp at hfuel
      exact hfuel

/-- On a string of ASCII bytes `lowercase` lowers each byte: `A` to `Z`
become `a` to `z` and every other byte is kept. -/
theorem lowercase_ascii (s : GoString) (hs : ∀ b ∈ s, b < 128) :
    lowercase s = s.map lowerByte := by
  have h := lowercaseLoop_ascii [] s hs s.length (Nat.le_refl _)
  simpa [lowercase] using h

/-- Claim C26, evaluated on the currency made of the euro sign, the three bytes
`E2 82 AC`: the command passes `Validate`, `NewPayment` accepts the input, and
the currency of the new payment is `E2 00 00`, because the loop of `lowercase`
visits the first byte of the code point only; lowering every byte would have
kept the input as it is. The length is kept and a second `lowercase` changes
nothing more. -/
theorem lowercase_zeroes_continuation_bytes :
    str "€" = [226, 130, 172] ∧
    sampleEuroCommand.Validate = none ∧
    (∃ p, NewPayment 7 10 3 (str "user-1") 50 (str "€") = Except.ok p ∧
      p.Currency = [226, 0, 0]) ∧
    (str "€").map lowerByte = [226, 130, 172] ∧
    lowercase (str "€") ≠ (str "€").map lowerByte ∧
    (lowercase (str "€")).length = (str "€").length ∧
    lowercase (lowercase (str "€")) = lowercase (str "€") := by
  refine ⟨by decide, by decide, ?_, by decide, by decide, by decide, by decide⟩
  have hA : ¬ ((50 : Amount) ≤ 0) := by decide
  have hC : str "€" ≠ [] := by decide
  simp only [NewPayment, hA, hC, if_false]
  exact ⟨_, rfl, by decide⟩
end Payments
